import Mathlib

/-!
Verification development for the jankscripten compiler pipeline
(JavaScript → JankyScript (HighIR) → NotWasm (LowIR) → WebAssembly)
and its runtime allocator.

The Rust sources are embedded shallowly:
  * `notwasm/syntax` data types (the LowIR)        → namespace `Jank.N`
  * `jankyscript/syntax` data types (the HighIR)   → namespace `Jank.J`
  * `notwasm/from_jankyscript.rs` (A-normalizer)   → namespace `Jank.ANF`
  * `jankyscript/typeinf.rs` (TypeWhich inference) → namespace `Jank.TI`
  * `notwasm/type_checking.rs`                     → namespace `Jank.TC`
  * `notwasm/rt_bindings.rs`, `notwasm/translation.rs` (wasm emitter)
                                                   → namespace `Jank.TR`
  * `runtime/src/allocator/mod.rs` free list       → namespace `Jank.Alloc`

Machine integers: the Rust code uses i32/u32/isize only as counters,
addresses and sizes; no claim depends on wrap-around, so they are embedded
as `Int`/`Nat`.  Panics (`panic!`, `todo!`, `unwrap`, `expect`) are
embedded as the error case of `Except String`; `f64` payloads are carried
as opaque IEEE-754 bit patterns (`Nat`), since no embedded function
computes with them.
-/

namespace Jank

/-- Source positions are opaque for this development (the spec treats
`Pos` as opaque). -/
abbrev Pos : Type := Unit

/-- Alias for the builtin booleans, needed in signatures of definitions
that live inside a namespace with a sibling constructor named `Bool`. -/
abbrev B : Type := Bool

/-- Identifiers, shared by the HighIR and LowIR embeddings (the Rust
crates convert between their `Id` types structurally).  `Generated` is
the image of the fresh-name generator (`shared::NameGen`, not under
`src/`): the spec says fresh names are a reserved prefix plus a monotonic
counter. -/
inductive Id where
  | Named (s : String)
  | Bogus (s : String)
  | Generated (pre : String) (n : Nat)
deriving DecidableEq

namespace N

/-- LowIR (NotWasm) types, from the spec data model and their uses in
`type_checking.rs` and `translation.rs` (`notwasm/syntax.rs` itself is not
under `src/`).  `Fn` and `Closure` carry their `FnType` fields inline. -/
inductive Typ where
  | I32
  | F64
  | Bool
  | String
  | HT
  | Array
  | DynObject
  | Fn (args : List Typ) (result : Option Typ)
  | Closure (args : List Typ) (result : Option Typ)
  | Ref (ty : Typ)
  | Env
  | Any
  | Ptr

mutual

/-- Structural equality on LowIR types (the `PartialEq` derive of the
source). -/
def Typ.beq : Typ → Typ → B
  | Typ.I32, Typ.I32 => true
  | Typ.F64, Typ.F64 => true
  | Typ.Bool, Typ.Bool => true
  | Typ.String, Typ.String => true
  | Typ.HT, Typ.HT => true
  | Typ.Array, Typ.Array => true
  | Typ.DynObject, Typ.DynObject => true
  | Typ.Fn a r, Typ.Fn a2 r2 => Typ.beqList a a2 && Typ.beqOpt r r2
  | Typ.Closure a r, Typ.Closure a2 r2 => Typ.beqList a a2 && Typ.beqOpt r r2
  | Typ.Ref t, Typ.Ref t2 => Typ.beq t t2
  | Typ.Env, Typ.Env => true
  | Typ.Any, Typ.Any => true
  | Typ.Ptr, Typ.Ptr => true
  | _, _ => false

def Typ.beqList : List Typ → List Typ → B
  | [], [] => true
  | t :: ts, t2 :: ts2 => Typ.beq t t2 && Typ.beqList ts ts2
  | _, _ => false

def Typ.beqOpt : Option Typ → Option Typ → B
  | none, none => true
  | some t, some t2 => Typ.beq t t2
  | _, _ => false

end

instance : BEq Typ := ⟨Typ.beq⟩

/-- Function types; `Typ.Fn` and `Typ.Closure` carry the same data
inline. -/
structure FnType where
  args : List Typ
  result : Option Typ

def FnType.to_type (f : FnType) : Typ := Typ.Fn f.args f.result

def FnType.toClosure (f : FnType) : Typ := Typ.Closure f.args f.result

/-- The `unwrap_fun` helper: projects a function or closure type, and
panics (here: `none`) on any other type. -/
def Typ.unwrap_fun : Typ → Option (List Typ × Option Typ)
  | Typ.Fn args result => some (args, result)
  | Typ.Closure args result => some (args, result)
  | _ => none

/-- GC-rooted types: pointer-holding values that must be published to the
shadow stack (`is_gc_root` lives in `notwasm/syntax.rs`, not under `src/`;
modelled from the spec: heap pointers, `Any` and `Closure` are roots,
while raw `i32`, `f64`, `bool` and `Fn` table indices are not). -/
def Typ.is_gc_root : Typ → B
  | Typ.I32 => false
  | Typ.F64 => false
  | Typ.Bool => false
  | Typ.Fn _ _ => false
  | _ => true

/-- LowIR literals. `F64` keeps the IEEE-754 bit pattern opaque. -/
inductive Lit where
  | I32 (n : Int)
  | F64 (bits : Nat)
  | String (s : String)
  | Interned (s : String) (addr : Nat)
  | Bool (b : Bool)
  | Undefined
  | Null
deriving DecidableEq

/-- LowIR binary operators (the list is exactly the one matched in
`translation.rs::translate_binop`). -/
inductive BinaryOp where
  | PtrEq
  | I32Eq | I32Ne | I32Add | I32Sub | I32GT | I32LT | I32Ge | I32Le
  | I32Mul | I32Div | I32Rem | I32And | I32Or | I32Xor
  | I32Shl | I32Shr | I32ShrU
  | F64Add | F64Sub | F64Mul | F64Div
  | F64LT | F64GT | F64Le | F64Ge | F64Eq | F64Ne
deriving DecidableEq

/-- LowIR unary operators (matched in `translation.rs::translate_unop`). -/
inductive UnaryOp where
  | Sqrt | F64Neg | I32Neg | I32Not | Eqz | Nop
deriving DecidableEq

/-- LowIR atoms.  The `ToAny` node of the source wraps a struct holding
the operand and an optional operand type filled in by the type checker;
both fields appear inline here. -/
inductive Atom where
  | Lit (l : Lit) (p : Pos)
  | Id (x : Id) (p : Pos)
  | Deref (a : Atom) (ty : Typ) (p : Pos)
  | PrimApp (f : Id) (args : List Atom) (p : Pos)
  | GetPrimFunc (f : Id) (p : Pos)
  | ToAny (a : Atom) (ty : Option Typ) (p : Pos)
  | FromAny (a : Atom) (ty : Typ) (p : Pos)
  | FloatToInt (a : Atom) (p : Pos)
  | IntToFloat (a : Atom) (p : Pos)
  | ObjectGet (obj : Atom) (field : Atom) (p : Pos)
  | AnyLength (x : Id) (method : Lit) (p : Pos)
  | Binary (op : BinaryOp) (l : Atom) (r : Atom) (p : Pos)
  | Unary (op : UnaryOp) (a : Atom) (p : Pos)
  | EnvGet (index : Nat) (ty : Typ) (p : Pos)

/-- Runtime-system functions callable from LowIR `PrimCall`
(`rts_function.rs` is not under `src/`; modelled from the spec: an
`Import` by name plus higher-level named entries, with `Todo` markers). -/
inductive RTSFunction where
  | Import (name : String)
  | Todo (name : String)
deriving DecidableEq

/-- LowIR expressions.  Note the ANF discipline in the types: `Call`,
`ClosureCall`, `PrimCall` and `AnyMethodCall` take identifiers as
arguments, never expressions. -/
inductive Expr where
  | Atom (a : Atom) (p : Pos)
  | ArraySet (arr : Atom) (idx : Atom) (val : Atom) (p : Pos)
  | ObjectSet (obj : Atom) (field : Atom) (val : Atom) (p : Pos)
  | ObjectEmpty
  | PrimCall (f : RTSFunction) (args : List Id) (p : Pos)
  | Call (f : Id) (args : List Id) (p : Pos)
  | ClosureCall (f : Id) (args : List Id) (p : Pos)
  | AnyMethodCall (obj : Id) (method : Lit) (args : List Id)
      (possibleTyps : List Typ) (p : Pos)
  | NewRef (a : Atom) (ty : Typ) (p : Pos)
  | Closure (f : Id) (env : List (Atom × Typ)) (p : Pos)

/-- Labels for LowIR blocks and breaks. -/
inductive Label where
  | Named (s : String)
  | App (n : Nat)
deriving DecidableEq

/-- LowIR statements.  The source `VarStmt` struct (fields `id`, `named`,
`ty`) is inlined into the `Var` constructor. -/
inductive Stmt where
  | Var (x : Id) (named : Expr) (ty : Option Typ) (p : Pos)
  | Assign (x : Id) (e : Expr) (p : Pos)
  | Store (x : Id) (e : Expr) (p : Pos)
  | Expression (e : Expr) (p : Pos)
  | If (cond : Atom) (thenS : Stmt) (elseS : Stmt) (p : Pos)
  | Loop (body : Stmt) (p : Pos)
  | Label (l : Label) (body : Stmt) (p : Pos)
  | Break (l : Label) (p : Pos)
  | Return (a : Atom) (p : Pos)
  | Block (body : List Stmt) (p : Pos)
  | Empty
  | Trap
  | Goto (l : Label) (p : Pos)

/-- A LowIR function: parameter names, its `FnType`, and a body. -/
structure Function where
  body : Stmt
  params : List Id
  fn_type : FnType

/-- A LowIR global variable. -/
structure Global where
  is_mut : Bool
  ty : Typ
  atom : Option Atom

/-- A LowIR program (the hash maps of the source are association lists
here, later bindings shadowing earlier ones where the source overwrites). -/
structure Program where
  functions : List (Id × Function)
  globals : List (Id × Global)
  data : List Nat
  rts_fn_imports : List (String × Typ)

end N

namespace J

/-- HighIR (JankyScript) types, per the spec data model and the uses in
`typeinf.rs` and `box_assigns.rs` (`jankyscript/syntax.rs` is not under
`src/`). -/
inductive Typ where
  | Missing
  | Any
  | Int
  | Float
  | Bool
  | String
  | Array
  | DynObject
  | Function (args : List Typ) (result : Typ)
  | Ref (ty : Typ)
  | Metavar (n : Nat)

mutual

/-- Structural equality on HighIR types (the `PartialEq` derive of the
source). -/
def Typ.beq : Typ → Typ → B
  | Typ.Missing, Typ.Missing => true
  | Typ.Any, Typ.Any => true
  | Typ.Int, Typ.Int => true
  | Typ.Float, Typ.Float => true
  | Typ.Bool, Typ.Bool => true
  | Typ.String, Typ.String => true
  | Typ.Array, Typ.Array => true
  | Typ.DynObject, Typ.DynObject => true
  | Typ.Function a r, Typ.Function a2 r2 => Typ.beqList a a2 && Typ.beq r r2
  | Typ.Ref t, Typ.Ref t2 => Typ.beq t t2
  | Typ.Metavar n, Typ.Metavar n2 => n == n2
  | _, _ => false

def Typ.beqList : List Typ → List Typ → B
  | [], [] => true
  | t :: ts, t2 :: ts2 => Typ.beq t t2 && Typ.beqList ts ts2
  | _, _ => false

end

instance : BEq Typ := ⟨Typ.beq⟩

/-- HighIR coercions (from `shared/coercions.rs`, not under `src/`;
constructors per the spec list `FloatToInt, IntToFloat, Tag, Untag(ty),
Fun(arg_cs, ret_c), Id(ty), Seq(c1,c2), Meta(src,dst)`). -/
inductive Coercion where
  | FloatToInt
  | IntToFloat
  | Tag (ty : Typ)
  | Untag (ty : Typ)
  | Fun (args : List Coercion) (ret : Coercion)
  | Id (ty : Typ)
  | Seq (c1 : Coercion) (c2 : Coercion)
  | Meta (src : Typ) (dst : Typ)

/-- The `Coercion::meta` smart constructor used by `typeinf::coerce`. -/
def Coercion.meta (src dst : Typ) : Coercion := Coercion.Meta src dst

/-- HighIR numbers: 32-bit integers (as `Int`) or doubles (bit pattern). -/
inductive Num where
  | Int (n : Int)
  | Float (bits : Nat)
deriving DecidableEq

/-- HighIR literals, per `compile_lit` and `typ_lit` in the sources. -/
inductive Lit where
  | String (s : String)
  | Regex (a : String) (b : String)
  | Bool (b : Bool)
  | Null
  | Undefined
  | Num (n : Num)
deriving DecidableEq

/-- Object-literal keys. -/
inductive Key where
  | Str (s : String)
  | Int (n : Int)
deriving DecidableEq

/-- JavaScript-level operators whose overload is resolved by inference
(`javascript/syntax.rs` has the operator enumeration; only the shape
matters for the claims, so a name stands for the operator). -/
inductive JsOpName where
  | Plus
  | Other (s : String)
deriving DecidableEq

mutual

/-- HighIR expressions, per the spec data model and every constructor
matched in `from_jankyscript.rs` and `typeinf.rs`. -/
inductive Expr where
  | Lit (l : Lit) (p : Pos)
  | Array (members : List Expr) (p : Pos)
  | Object (fields : List (Key × Expr)) (p : Pos)
  | Dot (obj : Expr) (field : String) (p : Pos)
  | Bracket (container : Expr) (field : Expr) (ty : Typ) (p : Pos)
  | Coercion (c : Coercion) (e : Expr) (p : Pos)
  | Id (x : Id) (ty : Typ) (p : Pos)
  | Func (f : Func) (p : Pos)
  | Closure (f : Func) (env : List (Expr × Typ)) (p : Pos)
  | Unary (op : N.UnaryOp) (e : Expr) (p : Pos)
  | Binary (op : N.BinaryOp) (e1 : Expr) (e2 : Expr) (p : Pos)
  | Assign (lv : LValue) (e : Expr) (p : Pos)
  | PrimCall (f : N.RTSFunction) (args : List Expr) (p : Pos)
  | Call (f : Expr) (args : List Expr) (p : Pos)
  | MethodCall (obj : Expr) (method : String) (args : List Expr)
      (ty : Typ) (p : Pos)
  | Length (obj : Expr) (ty : Typ) (p : Pos)
  | NewRef (e : Expr) (ty : Typ) (p : Pos)
  | Deref (e : Expr) (ty : Typ) (p : Pos)
  | Store (into : Expr) (e : Expr) (ty : Typ) (p : Pos)
  | EnvGet (index : Nat) (ty : Typ) (p : Pos)
  | JsOp (op : JsOpName) (args : List Expr) (argTyps : List Typ) (p : Pos)

/-- HighIR lvalues. -/
inductive LValue where
  | Id (x : Id) (ty : Typ)
  | Dot (container : Expr) (field : String)
  | Bracket (container : Expr) (field : Expr) (ty : Typ)

/-- HighIR function literals (the source struct `Func`). -/
inductive Func where
  | mk (args_with_typs : List (Id × Typ)) (result_typ : Typ) (body : Stmt)
      (assigned_free_children : List Id) (free_vars : List (Id × Typ))

/-- HighIR statements. -/
inductive Stmt where
  | Var (x : Id) (ty : Typ) (e : Expr) (p : Pos)
  | Block (body : List Stmt) (p : Pos)
  | Empty
  | Expr (e : Expr) (p : Pos)
  | If (cond : Expr) (thenS : Stmt) (elseS : Stmt) (p : Pos)
  | Loop (body : Stmt) (p : Pos)
  | ForIn (x : Id) (container : Expr) (body : Stmt) (p : Pos)
  | Label (x : Id) (body : Stmt) (p : Pos)
  | Break (x : Id) (p : Pos)
  | Catch (tryS : Stmt) (exnName : Id) (catchS : Stmt) (p : Pos)
  | Finally (tryS : Stmt) (finallyS : Stmt) (p : Pos)
  | Throw (e : Expr) (p : Pos)
  | Return (e : Expr) (p : Pos)

end

def Func.args_with_typs : Func → List (Id × Typ)
  | Func.mk a _ _ _ _ => a

def Func.result_typ : Func → Typ
  | Func.mk _ r _ _ _ => r

def Func.body : Func → Stmt
  | Func.mk _ _ b _ _ => b

mutual

/-- Conversion from HighIR types to LowIR types (`notwasm_typ` lives in
`jankyscript/syntax.rs`, not under `src/`; modelled from the spec type
correspondence: ground types map to their LowIR namesakes, `Any` stays
`Any`, and a function type becomes a `Closure` taking a leading `Env`
parameter when `closures` is true, otherwise a plain `Fn`). -/
def Typ.notwasm_typ (t : Typ) (closures : B) : N.Typ :=
  match t with
  | Typ.Missing => N.Typ.Any
  | Typ.Any => N.Typ.Any
  | Typ.Int => N.Typ.I32
  | Typ.Float => N.Typ.F64
  | Typ.Bool => N.Typ.Bool
  | Typ.String => N.Typ.String
  | Typ.Array => N.Typ.Array
  | Typ.DynObject => N.Typ.DynObject
  | Typ.Function args result =>
      if closures then
        N.Typ.Closure
          (N.Typ.Env :: Typ.notwasmTypList args closures)
          (some (Typ.notwasm_typ result closures))
      else
        N.Typ.Fn (Typ.notwasmTypList args closures)
          (some (Typ.notwasm_typ result closures))
  | Typ.Ref ty => N.Typ.Ref (Typ.notwasm_typ ty closures)
  | Typ.Metavar _ => N.Typ.Any

def Typ.notwasmTypList (ts : List Typ) (closures : B) : List N.Typ :=
  match ts with
  | [] => []
  | t :: rest => Typ.notwasm_typ t closures :: Typ.notwasmTypList rest closures

end

end J

namespace ANF

/-- Helper constructors from `notwasm/constructors.rs` (not under `src/`;
each is the evident constructor application, modelled from its uses in
`from_jankyscript.rs` and `translation.rs`). -/
def str_ (s : String) (p : Pos) : N.Atom := N.Atom.Lit (N.Lit.String s) p

def object_get_ (obj field : N.Atom) (p : Pos) : N.Atom :=
  N.Atom.ObjectGet obj field p

def unary_ (op : N.UnaryOp) (a : N.Atom) (p : Pos) : N.Atom :=
  N.Atom.Unary op a p

def prim_app_ (name : String) (args : List N.Atom) (p : Pos) : N.Atom :=
  N.Atom.PrimApp (Id.Named name) args p

def deref_ (a : N.Atom) (ty : N.Typ) (p : Pos) : N.Atom :=
  N.Atom.Deref a ty p

def to_any_ (a : N.Atom) (p : Pos) : N.Atom := N.Atom.ToAny a none p

def from_any_ (a : N.Atom) (ty : N.Typ) (p : Pos) : N.Atom :=
  N.Atom.FromAny a ty p

def get_id_ (x : Id) (p : Pos) : N.Atom := N.Atom.Id x p

def atom_ (a : N.Atom) (p : Pos) : N.Expr := N.Expr.Atom a p

def prim_call (name : String) (args : List Id) (p : Pos) : N.Expr :=
  N.Expr.PrimCall (N.RTSFunction.Import name) args p

def if_ (c : N.Atom) (t e : N.Stmt) (p : Pos) : N.Stmt := N.Stmt.If c t e p

def loop_ (body : N.Stmt) (p : Pos) : N.Stmt := N.Stmt.Loop body p

def label_ (l : N.Label) (body : N.Stmt) (p : Pos) : N.Stmt :=
  N.Stmt.Label l body p

/-- Printing an identifier (`to_pretty(80)` on an `Id` in the source; the
pretty printer is not under `src/`, so this is the evident rendering). -/
def idToPretty : Id → String
  | Id.Named s => s
  | Id.Bogus s => s
  | Id.Generated pre n => pre ++ toString n

/-- The method table (`shared/methods.rs`, not under `src/`; modelled
from the spec: a map from method name and arity to the possible typed
signatures of the method). -/
def METHODS_TABLE : List ((String × Nat) × List J.Typ) :=
  [(("push", 1), [J.Typ.Function [J.Typ.Array, J.Typ.Any] J.Typ.Int]),
   (("charAt", 1), [J.Typ.Function [J.Typ.String, J.Typ.Int] J.Typ.String])]

def lookupMethods (key : String × Nat) :
    Option (List J.Typ) :=
  (METHODS_TABLE.find? (fun kv => kv.1 == key)).map (fun kv => kv.2)

/-- The `compile_lit` function of `from_jankyscript.rs` (regexes are a
`todo!`). -/
def compile_lit : J.Lit → Except String N.Lit
  | J.Lit.String s => pure (N.Lit.String s)
  | J.Lit.Regex _ _ => throw "regex not supported anywhere in toolchain"
  | J.Lit.Bool b => pure (N.Lit.Bool b)
  | J.Lit.Null => pure N.Lit.Null
  | J.Lit.Undefined => pure N.Lit.Undefined
  | J.Lit.Num (J.Num.Int n) => pure (N.Lit.I32 n)
  | J.Lit.Num (J.Num.Float x) => pure (N.Lit.F64 x)

/-- State that is needed during A-normalization (struct `S` of the
source): the fresh-name counter and the accumulated function map. -/
structure S where
  namegen : Nat
  functions : List (Id × N.Function)

/-- The A-normalizer threads `S` and may panic (`Except.error`). -/
abbrev M (α : Type) : Type := StateT S (Except String) α

/-- Fresh name generation (`S::fresh`, which calls
`namegen.fresh("anf")`). -/
def freshAnf : M Id :=
  fun s =>
    Except.ok (Id.Generated "anf" s.namegen,
      { s with namegen := s.namegen + 1 })

/-- Record a lifted function (`S::new_function`); the source inserts into
a hash map, embedded as consing onto an association list. -/
def new_function (name : Id) (f : N.Function) : M Unit :=
  fun s => Except.ok ((), { s with functions := (name, f) :: s.functions })

/-- The contexts for A-normalization (enum `C` of the source).  Each
variant holds the continuation, a function from the received
identifier/atom/expression to the remaining statements. -/
inductive C where
  | Id (f : Jank.Id → M (List N.Stmt))
  | Atom (f : N.Atom → M (List N.Stmt))
  | Expr (f : N.Expr → M (List N.Stmt))

/-- Deliver an atom to a context (`C::recv_a`).  A `C::Id` context
receives the name unchanged when the atom is an identifier, and otherwise
names the atom in a fresh temporary first. -/
def C.recv_a (c : C) (a : N.Atom) : M (List N.Stmt) :=
  match c with
  | C.Atom f => f a
  | C.Id f =>
      match a with
      | N.Atom.Id x _ => f x
      | _ => do
          let x ← freshAnf
          let rest ← f x
          pure (N.Stmt.Var x (N.Expr.Atom a ()) none () :: rest)
  | C.Expr f => f (N.Expr.Atom a ())

/-- Deliver an expression to a context (`C::recv_e`).  `C::Id` and
`C::Atom` contexts name the expression in a fresh temporary. -/
def C.recv_e (c : C) (e : N.Expr) : M (List N.Stmt) :=
  match c with
  | C.Id f => do
      let x ← freshAnf
      let rest ← f x
      pure (N.Stmt.Var x e none () :: rest)
  | C.Atom f => do
      let x ← freshAnf
      let rest ← f (N.Atom.Id x ())
      pure (N.Stmt.Var x e none () :: rest)
  | C.Expr f => f e

/-- Lower a concrete coercion applied to an atom
(`coercion_to_expr` of the source).  `Fun` coercions are a `todo!` and a
remaining `Meta` is a panic. -/
def coercion_to_expr (c : J.Coercion) (a : N.Atom) (p : Pos) :
    Except String N.Atom :=
  match c with
  | J.Coercion.FloatToInt => pure (N.Atom.FloatToInt a p)
  | J.Coercion.IntToFloat => pure (N.Atom.IntToFloat a p)
  | J.Coercion.Tag _ => pure (to_any_ a p)
  | J.Coercion.Untag ty => pure (from_any_ a (ty.notwasm_typ true) p)
  | J.Coercion.Fun _ _ => throw "todo: proxy the function"
  | J.Coercion.Id _ => pure a
  | J.Coercion.Seq c1 c2 => do
      let a1 ← coercion_to_expr c1 a p
      coercion_to_expr c2 a1 p
  | J.Coercion.Meta _ _ => throw "Meta coerce remains"

/-- Auxiliary size bound used for the termination of the A-normalizer:
projecting the expressions out of an object literal does not grow the
size. -/
theorem sizeOf_map_snd_le (l : List (J.Key × J.Expr)) :
    sizeOf (List.map Prod.snd l) ≤ sizeOf l := by
  induction l with
  | nil => simp
  | cons h t ih =>
      obtain ⟨k, e⟩ := h
      simp only [List.map, List.cons.sizeOf_spec, Prod.mk.sizeOf_spec]
      omega

/-- The `ObjectSet` statements of an object literal (the key/id loop of
the `J::Expr::Object` case; an integer key is a `todo!`). -/
def objectSets (obj_name : Id) (pairs : List (J.Key × Id)) (p : Pos) :
    Except String (List N.Stmt) :=
  match pairs with
  | [] => pure []
  | (J.Key.Str s, i) :: rest => do
      let r ← objectSets obj_name rest p
      pure (N.Stmt.Expression
        (N.Expr.ObjectSet (N.Atom.Id obj_name p) (str_ s p)
          (N.Atom.Id i p) p) p :: r)
  | (J.Key.Int _, _) :: _ => throw "todo: integer object key"

mutual

/-- The main A-normalization function (`compile_expr` of the source),
threading a context `C`. -/
def compile_expr (expr : J.Expr) (cxt : C) : M (List N.Stmt) :=
  match expr with
  | J.Expr.JsOp _ _ _ _ =>
      StateT.lift (throw "impossible case: cannot compile JsOp to WebAssembly")
  | J.Expr.Lit lit p => do
      let l ← StateT.lift (compile_lit lit)
      cxt.recv_a (N.Atom.Lit l p)
  | J.Expr.Array members p =>
      compile_exprs members (fun member_ids => do
        let array_name ← freshAnf
        let pushes := member_ids.map (fun member_id =>
          N.Stmt.Expression (prim_call "array_push" [array_name, member_id] p) p)
        let tail ← cxt.recv_a (N.Atom.Id array_name p)
        pure (N.Stmt.Var array_name (prim_call "array_new" [] p) none p ::
          (pushes ++ tail)))
  | J.Expr.Object fields p =>
      compile_exprs (fields.map Prod.snd) (fun ids => do
        let obj_name ← freshAnf
        let sets ← StateT.lift (objectSets obj_name ((fields.map Prod.fst).zip ids) p)
        let tail ← cxt.recv_a (N.Atom.Id obj_name p)
        pure (N.Stmt.Var obj_name N.Expr.ObjectEmpty none p :: (sets ++ tail)))
  | J.Expr.Dot obj field p =>
      compile_expr obj (C.Atom (fun obja =>
        cxt.recv_a (object_get_ obja (str_ field p) p)))
  | J.Expr.Unary op e p =>
      compile_expr e (C.Atom (fun a => cxt.recv_a (unary_ op a p)))
  | J.Expr.Bracket c f t p =>
      compile_expr c (C.Atom (fun ca =>
        compile_expr f (C.Atom (fun fa =>
          match t with
          | J.Typ.Array => cxt.recv_a (prim_app_ "array_index" [ca, fa] p)
          | J.Typ.DynObject => cxt.recv_a (object_get_ ca fa p)
          | J.Typ.String => StateT.lift (throw "string index???")
          | _ => StateT.lift (throw "non-array non-object index")))))
  | J.Expr.Coercion coercion e p =>
      compile_expr e (C.Atom (fun a => do
        let a2 ← StateT.lift (coercion_to_expr coercion a p)
        cxt.recv_a a2))
  | J.Expr.Id x _ p => cxt.recv_a (N.Atom.Id x p)
  | J.Expr.Func f p => do
      let name ← freshAnf
      let fc ← compile_function f p
      new_function name fc
      cxt.recv_a (N.Atom.Id name p)
  | J.Expr.Closure f env p => do
      let name ← freshAnf
      let fc ← compile_function f p
      new_function name fc
      compile_closure_env env (fun env_items =>
        cxt.recv_e (N.Expr.Closure name env_items p))
  | J.Expr.Binary op e1 e2 p =>
      compile_expr e1 (C.Atom (fun a1 =>
        compile_expr e2 (C.Atom (fun a2 =>
          cxt.recv_a (N.Atom.Binary op a1 a2 p)))))
  | J.Expr.Assign lv e p =>
      compile_expr e (C.Atom (fun a =>
        match lv with
        | J.LValue.Id x _ => do
            let tail ← cxt.recv_a a
            pure (N.Stmt.Assign x (atom_ a p) p :: tail)
        | J.LValue.Dot container field =>
            compile_expr container (C.Atom (fun cont =>
              cxt.recv_e (N.Expr.ObjectSet cont
                (N.Atom.Lit (N.Lit.String field) p) a p)))
        | J.LValue.Bracket container field typ =>
            compile_expr container (C.Atom (fun cont =>
              compile_expr field (C.Atom (fun fa =>
                match typ with
                | J.Typ.Array => cxt.recv_e (N.Expr.ArraySet cont fa a p)
                | J.Typ.DynObject => cxt.recv_e (N.Expr.ObjectSet cont fa a p)
                | _ => StateT.lift (throw "bad bracket lvalue type")))))))
  | J.Expr.PrimCall prim_name args p =>
      compile_exprs args (fun arg_ids =>
        cxt.recv_e (N.Expr.PrimCall prim_name arg_ids p))
  | J.Expr.Call f args p =>
      compile_expr f (C.Id (fun fun_id =>
        compile_exprs args (fun arg_ids =>
          cxt.recv_e (N.Expr.ClosureCall fun_id arg_ids p))))
  | J.Expr.MethodCall obj method args _ p =>
      compile_expr obj (C.Id (fun obj_id =>
        compile_exprs args (fun arg_ids => do
          let sigs ← match lookupMethods (method, arg_ids.length) with
            | some sigs => pure sigs
            | none => StateT.lift (throw "method not in METHODS_TABLE")
          let possible_typs := sigs.map (fun t => t.notwasm_typ false)
          cxt.recv_e (N.Expr.AnyMethodCall obj_id (N.Lit.String method)
            arg_ids possible_typs p))))
  | J.Expr.Length obj _ p =>
      compile_expr obj (C.Id (fun obj_id =>
        cxt.recv_a (N.Atom.AnyLength obj_id (N.Lit.String "length") p)))
  | J.Expr.NewRef e ty p =>
      compile_expr e (C.Atom (fun of =>
        cxt.recv_e (N.Expr.NewRef of (ty.notwasm_typ true) p)))
  | J.Expr.Deref e ty p =>
      compile_expr e (C.Atom (fun of =>
        cxt.recv_a (deref_ of (ty.notwasm_typ true) p)))
  | J.Expr.Store into e _ p =>
      compile_expr into (C.Id (fun intoId =>
        compile_expr e (C.Expr (fun what =>
          pure [N.Stmt.Store intoId what p]))))
  | J.Expr.EnvGet i ty p =>
      cxt.recv_a (N.Atom.EnvGet i (ty.notwasm_typ true) p)
termination_by (sizeOf expr, 0)
decreasing_by
  all_goals
    first
    | decreasing_tactic
    | (simp_wf
       refine Prod.Lex.left _ _ ?_
       exact Nat.lt_of_le_of_lt (sizeOf_map_snd_le fields) (by omega))

/-- Compile a vector of expressions, name them, and send their names to a
context (`compile_exprs` of the source; its imperative loop that grows
`ids` through a capturing closure is rendered as the equivalent
continuation-passing recursion, emitting the same statements in the same
order and threading the state identically). -/
def compile_exprs (exprs : List J.Expr) (k : List Id → M (List N.Stmt)) :
    M (List N.Stmt) :=
  match exprs with
  | [] => k []
  | e :: rest =>
      compile_expr e (C.Id (fun x =>
        compile_exprs rest (fun ids => k (x :: ids))))
termination_by (sizeOf exprs, 0)

/-- Compile a closure environment, in the style of `compile_exprs` (the
loop in the `J::Expr::Closure` case of the source). -/
def compile_closure_env (env : List (J.Expr × J.Typ))
    (k : List (N.Atom × N.Typ) → M (List N.Stmt)) : M (List N.Stmt) :=
  match env with
  | [] => k []
  | (e, ty) :: rest =>
      compile_expr e (C.Atom (fun x =>
        compile_closure_env rest (fun items =>
          k ((x, ty.notwasm_typ true) :: items))))
termination_by (sizeOf env, 0)

/-- Statement compilation (`compile_stmt` of the source). -/
def compile_stmt (stmt : J.Stmt) : M (List N.Stmt) :=
  match stmt with
  | J.Stmt.Var x t e p =>
      compile_expr e (C.Expr (fun e_notwasm =>
        pure [N.Stmt.Var x e_notwasm (some (t.notwasm_typ true)) p]))
  | J.Stmt.Block stmts p => do
      let ss ← compile_stmt_list stmts
      pure [N.Stmt.Block ss p]
  | J.Stmt.Empty => pure [N.Stmt.Empty]
  | J.Stmt.Expr e _ =>
      compile_expr e (C.Atom (fun _ => pure []))
  | J.Stmt.If cond then_branch else_branch p =>
      compile_expr cond (C.Atom (fun a => do
        let t ← compile_stmt_block then_branch p
        let e ← compile_stmt_block else_branch p
        pure [if_ a t e p]))
  | J.Stmt.Loop body p => do
      let b ← compile_stmt body
      pure [loop_ (N.Stmt.Block b p) p]
  | J.Stmt.ForIn _ _ _ _ => StateT.lift (throw "todo: for..in in notwasm")
  | J.Stmt.Label x body p => do
      let b ← compile_stmt body
      pure [label_ (N.Label.Named (idToPretty x)) (N.Stmt.Block b p) p]
  | J.Stmt.Break x p =>
      pure [N.Stmt.Break (N.Label.Named (idToPretty x)) p]
  | J.Stmt.Catch try_stmt _ _ _ => compile_stmt try_stmt
  | J.Stmt.Finally _ _ _ =>
      StateT.lift (throw "NotWasm needs to support exceptions")
  | J.Stmt.Throw _ _ => pure []
  | J.Stmt.Return e p =>
      compile_expr e (C.Atom (fun a => pure [N.Stmt.Return a p]))
termination_by (sizeOf stmt, 0)

/-- Block wrapper (`compile_stmt_block` and `rope_to_block`). -/
def compile_stmt_block (stmt : J.Stmt) (p : Pos) : M N.Stmt := do
  let ss ← compile_stmt stmt
  pure (N.Stmt.Block ss p)
termination_by (sizeOf stmt, 1)

/-- Sequential compilation of the statements of a block (the
`stmts.into_iter().map(...).flatten()` of the source). -/
def compile_stmt_list (stmts : List J.Stmt) : M (List N.Stmt) :=
  match stmts with
  | [] => pure []
  | s :: rest => do
      let s1 ← compile_stmt s
      let r ← compile_stmt_list rest
      pure (s1 ++ r)
termination_by (sizeOf stmts, 0)

/-- Function compilation (`compile_function` of the source): the implicit
environment parameter is prepended to the parameter list and the function
type. -/
def compile_function (f : J.Func) (p : Pos) : M N.Function :=
  match f with
  | J.Func.mk args_with_typs result_typ body _ _ => do
      let param_names := Id.Bogus "env" :: args_with_typs.map Prod.fst
      let param_tys := N.Typ.Env ::
        (args_with_typs.map Prod.snd).map (fun t => t.notwasm_typ true)
      let ss ← compile_stmt body
      pure { body := N.Stmt.Block ss p,
             params := param_names,
             fn_type := { args := param_tys,
                          result := some (result_typ.notwasm_typ true) } }
termination_by (sizeOf f, 0)

end

/-- The top-level A-normalizer (`from_jankyscript` of the source): the
program body becomes a `main` function of no arguments. -/
def from_jankyscript (janky_program : J.Stmt) : Except String N.Program := do
  let (main_stmts, state) ←
    compile_stmt janky_program { namegen := 0, functions := [] }
  let main_body := N.Stmt.Block main_stmts ()
  let state2 :=
    { state with functions :=
        (Id.Named "main",
         { body := main_body, params := [],
           fn_type := { args := [], result := none } }) :: state.functions }
  pure { rts_fn_imports := [], functions := state2.functions,
         globals := [], data := [] }

end ANF

namespace ANFI

/-- Untyped common form of LowIR atoms and expressions.  The LowIR types
enforce the ANF discipline (call arguments are `Id`s, conditions are
`Atom`s); erasing both `Atom` and `Expr` into this single type makes the
discipline a provable property instead of a typing artifact. -/
inductive UE where
  | lit
  | ident (x : Id)
  | atomNode (kids : List UE)
  | arraySet (kids : List UE)
  | objectSet (kids : List UE)
  | objectEmpty
  | primCall (args : List UE)
  | call (f : UE) (args : List UE)
  | closureCall (f : UE) (args : List UE)
  | anyMethodCall (obj : UE) (args : List UE)
  | newRef (a : UE)
  | closure (env : List UE)

/-- Untyped statements: the `Store` target and the `If` condition are
arbitrary erased values, so that the ANF discipline on them is a
property. -/
inductive US where
  | var (e : UE)
  | assign (x : Id) (e : UE)
  | store (target : UE) (e : UE)
  | expression (e : UE)
  | ite (cond : UE) (thenS : US) (elseS : US)
  | loop (body : US)
  | label (body : US)
  | brk
  | ret (a : UE)
  | block (body : List US)
  | empty
  | trap
  | goto

/-- An erased value is an identifier. -/
def isIdU : UE → Bool
  | UE.ident _ => true
  | _ => false

mutual

/-- An erased value lies in the atom sublanguage. -/
def isAtomU : UE → Bool
  | UE.lit => true
  | UE.ident _ => true
  | UE.atomNode kids => allAtomU kids
  | _ => false

def allAtomU : List UE → Bool
  | [] => true
  | e :: rest => isAtomU e && allAtomU rest

end

def allIdU : List UE → Bool
  | [] => true
  | e :: rest => isIdU e && allIdU rest

mutual

/-- The ANF discipline on erased values: every argument of a `Call`,
`ClosureCall`, `PrimCall` or `AnyMethodCall` is an identifier, and the
sub-parts of atoms are atoms. -/
def anfGoodE : UE → Bool
  | UE.lit => true
  | UE.ident _ => true
  | UE.atomNode kids => allGoodE kids
  | UE.arraySet kids => allAtomU kids && allGoodE kids
  | UE.objectSet kids => allAtomU kids && allGoodE kids
  | UE.objectEmpty => true
  | UE.primCall args => allIdU args
  | UE.call f args => isIdU f && allIdU args
  | UE.closureCall f args => isIdU f && allIdU args
  | UE.anyMethodCall obj args => isIdU obj && allIdU args
  | UE.newRef a => isAtomU a && anfGoodE a
  | UE.closure env => allAtomU env && allGoodE env

def allGoodE : List UE → Bool
  | [] => true
  | e :: rest => anfGoodE e && allGoodE rest

end

mutual

/-- The ANF discipline on erased statements: every branch condition is an
atom and every `Store` target is an identifier. -/
def anfGoodS : US → Bool
  | US.var e => anfGoodE e
  | US.assign _ e => anfGoodE e
  | US.store target e => isIdU target && anfGoodE e
  | US.expression e => anfGoodE e
  | US.ite cond thenS elseS => isAtomU cond && anfGoodS thenS && anfGoodS elseS
  | US.loop body => anfGoodS body
  | US.label body => anfGoodS body
  | US.brk => true
  | US.ret a => isAtomU a
  | US.block body => allGoodS body
  | US.empty => true
  | US.trap => true
  | US.goto => true

def allGoodS : List US → Bool
  | [] => true
  | s :: rest => anfGoodS s && allGoodS rest

end

mutual

/-- Erasure of LowIR atoms. -/
def eraseAtom : N.Atom → UE
  | N.Atom.Lit _ _ => UE.lit
  | N.Atom.Id x _ => UE.ident x
  | N.Atom.Deref a _ _ => UE.atomNode [eraseAtom a]
  | N.Atom.PrimApp _ args _ => UE.atomNode (eraseAtomList args)
  | N.Atom.GetPrimFunc _ _ => UE.atomNode []
  | N.Atom.ToAny a _ _ => UE.atomNode [eraseAtom a]
  | N.Atom.FromAny a _ _ => UE.atomNode [eraseAtom a]
  | N.Atom.FloatToInt a _ => UE.atomNode [eraseAtom a]
  | N.Atom.IntToFloat a _ => UE.atomNode [eraseAtom a]
  | N.Atom.ObjectGet obj f _ => UE.atomNode [eraseAtom obj, eraseAtom f]
  | N.Atom.AnyLength x _ _ => UE.atomNode [UE.ident x]
  | N.Atom.Binary _ l r _ => UE.atomNode [eraseAtom l, eraseAtom r]
  | N.Atom.Unary _ a _ => UE.atomNode [eraseAtom a]
  | N.Atom.EnvGet _ _ _ => UE.atomNode []

def eraseAtomList : List N.Atom → List UE
  | [] => []
  | a :: rest => eraseAtom a :: eraseAtomList rest

end

/-- Erasure of identifier lists (call arguments). -/
def idsU (l : List Id) : List UE := l.map UE.ident

/-- Erasure of a closure environment (the atoms of its entries). -/
def eraseEnvList : List (N.Atom × N.Typ) → List UE
  | [] => []
  | (a, _) :: rest => eraseAtom a :: eraseEnvList rest

/-- Erasure of LowIR expressions. -/
def eraseExpr : N.Expr → UE
  | N.Expr.Atom a _ => eraseAtom a
  | N.Expr.ArraySet a b c _ =>
      UE.arraySet [eraseAtom a, eraseAtom b, eraseAtom c]
  | N.Expr.ObjectSet a b c _ =>
      UE.objectSet [eraseAtom a, eraseAtom b, eraseAtom c]
  | N.Expr.ObjectEmpty => UE.objectEmpty
  | N.Expr.PrimCall _ args _ => UE.primCall (idsU args)
  | N.Expr.Call f args _ => UE.call (UE.ident f) (idsU args)
  | N.Expr.ClosureCall f args _ => UE.closureCall (UE.ident f) (idsU args)
  | N.Expr.AnyMethodCall obj _ args _ _ =>
      UE.anyMethodCall (UE.ident obj) (idsU args)
  | N.Expr.NewRef a _ _ => UE.newRef (eraseAtom a)
  | N.Expr.Closure _ env _ => UE.closure (eraseEnvList env)

mutual

/-- Erasure of LowIR statements. -/
def eraseStmt : N.Stmt → US
  | N.Stmt.Var _ e _ _ => US.var (eraseExpr e)
  | N.Stmt.Assign x e _ => US.assign x (eraseExpr e)
  | N.Stmt.Store x e _ => US.store (UE.ident x) (eraseExpr e)
  | N.Stmt.Expression e _ => US.expression (eraseExpr e)
  | N.Stmt.If c t e _ => US.ite (eraseAtom c) (eraseStmt t) (eraseStmt e)
  | N.Stmt.Loop body _ => US.loop (eraseStmt body)
  | N.Stmt.Label _ body _ => US.label (eraseStmt body)
  | N.Stmt.Break _ _ => US.brk
  | N.Stmt.Return a _ => US.ret (eraseAtom a)
  | N.Stmt.Block body _ => US.block (eraseStmtList body)
  | N.Stmt.Empty => US.empty
  | N.Stmt.Trap => US.trap
  | N.Stmt.Goto _ _ => US.goto

def eraseStmtList : List N.Stmt → List US
  | [] => []
  | s :: rest => eraseStmt s :: eraseStmtList rest

end

mutual

theorem isAtomU_eraseAtom (a : N.Atom) : isAtomU (eraseAtom a) = true := by
  match a with
  | N.Atom.Lit _ _ => rfl
  | N.Atom.Id _ _ => rfl
  | N.Atom.Deref a _ _ =>
      simp [eraseAtom, isAtomU, allAtomU, isAtomU_eraseAtom a]
  | N.Atom.PrimApp _ args _ =>
      simp [eraseAtom, isAtomU, allAtomU_eraseAtomList args]
  | N.Atom.GetPrimFunc _ _ => rfl
  | N.Atom.ToAny a _ _ =>
      simp [eraseAtom, isAtomU, allAtomU, isAtomU_eraseAtom a]
  | N.Atom.FromAny a _ _ =>
      simp [eraseAtom, isAtomU, allAtomU, isAtomU_eraseAtom a]
  | N.Atom.FloatToInt a _ =>
      simp [eraseAtom, isAtomU, allAtomU, isAtomU_eraseAtom a]
  | N.Atom.IntToFloat a _ =>
      simp [eraseAtom, isAtomU, allAtomU, isAtomU_eraseAtom a]
  | N.Atom.ObjectGet o f _ =>
      simp [eraseAtom, isAtomU, allAtomU, isAtomU_eraseAtom o,
        isAtomU_eraseAtom f]
  | N.Atom.AnyLength _ _ _ =>
      simp [eraseAtom, isAtomU, allAtomU]
  | N.Atom.Binary _ l r _ =>
      simp [eraseAtom, isAtomU, allAtomU, isAtomU_eraseAtom l,
        isAtomU_eraseAtom r]
  | N.Atom.Unary _ a _ =>
      simp [eraseAtom, isAtomU, allAtomU, isAtomU_eraseAtom a]
  | N.Atom.EnvGet _ _ _ => rfl

theorem allAtomU_eraseAtomList (l : List N.Atom) :
    allAtomU (eraseAtomList l) = true := by
  match l with
  | [] => rfl
  | a :: rest =>
      simp [eraseAtomList, allAtomU, isAtomU_eraseAtom a,
        allAtomU_eraseAtomList rest]

end

mutual

theorem anfGoodE_eraseAtom (a : N.Atom) : anfGoodE (eraseAtom a) = true := by
  match a with
  | N.Atom.Lit _ _ => rfl
  | N.Atom.Id _ _ => rfl
  | N.Atom.Deref a _ _ =>
      simp [eraseAtom, anfGoodE, allGoodE, anfGoodE_eraseAtom a]
  | N.Atom.PrimApp _ args _ =>
      simp [eraseAtom, anfGoodE, allGoodE_eraseAtomList args]
  | N.Atom.GetPrimFunc _ _ => rfl
  | N.Atom.ToAny a _ _ =>
      simp [eraseAtom, anfGoodE, allGoodE, anfGoodE_eraseAtom a]
  | N.Atom.FromAny a _ _ =>
      simp [eraseAtom, anfGoodE, allGoodE, anfGoodE_eraseAtom a]
  | N.Atom.FloatToInt a _ =>
      simp [eraseAtom, anfGoodE, allGoodE, anfGoodE_eraseAtom a]
  | N.Atom.IntToFloat a _ =>
      simp [eraseAtom, anfGoodE, allGoodE, anfGoodE_eraseAtom a]
  | N.Atom.ObjectGet o f _ =>
      simp [eraseAtom, anfGoodE, allGoodE, anfGoodE_eraseAtom o,
        anfGoodE_eraseAtom f]
  | N.Atom.AnyLength _ _ _ =>
      simp [eraseAtom, anfGoodE, allGoodE]
  | N.Atom.Binary _ l r _ =>
      simp [eraseAtom, anfGoodE, allGoodE, anfGoodE_eraseAtom l,
        anfGoodE_eraseAtom r]
  | N.Atom.Unary _ a _ =>
      simp [eraseAtom, anfGoodE, allGoodE, anfGoodE_eraseAtom a]
  | N.Atom.EnvGet _ _ _ => rfl

theorem allGoodE_eraseAtomList (l : List N.Atom) :
    allGoodE (eraseAtomList l) = true := by
  match l with
  | [] => rfl
  | a :: rest =>
      simp [eraseAtomList, allGoodE, anfGoodE_eraseAtom a,
        allGoodE_eraseAtomList rest]

end

theorem allIdU_idsU (l : List Id) : allIdU (idsU l) = true := by
  induction l with
  | nil => rfl
  | cons x rest ih => simp [idsU, allIdU, isIdU] at ih ⊢; exact ih

theorem allAtomU_eraseEnvList (l : List (N.Atom × N.Typ)) :
    allAtomU (eraseEnvList l) = true := by
  induction l with
  | nil => rfl
  | cons it rest ih =>
      obtain ⟨a, t⟩ := it
      simp [eraseEnvList, allAtomU, isAtomU_eraseAtom a, ih]

theorem allGoodE_eraseEnvList (l : List (N.Atom × N.Typ)) :
    allGoodE (eraseEnvList l) = true := by
  induction l with
  | nil => rfl
  | cons it rest ih =>
      obtain ⟨a, t⟩ := it
      simp [eraseEnvList, allGoodE, anfGoodE_eraseAtom a, ih]

theorem anfGoodE_eraseExpr (e : N.Expr) : anfGoodE (eraseExpr e) = true := by
  match e with
  | N.Expr.Atom a _ => simp [eraseExpr, anfGoodE_eraseAtom a]
  | N.Expr.ArraySet a b c _ =>
      simp [eraseExpr, anfGoodE, allAtomU, allGoodE, isAtomU_eraseAtom,
        anfGoodE_eraseAtom]
  | N.Expr.ObjectSet a b c _ =>
      simp [eraseExpr, anfGoodE, allAtomU, allGoodE, isAtomU_eraseAtom,
        anfGoodE_eraseAtom]
  | N.Expr.ObjectEmpty => rfl
  | N.Expr.PrimCall _ args _ => simp [eraseExpr, anfGoodE, allIdU_idsU args]
  | N.Expr.Call _ args _ =>
      simp [eraseExpr, anfGoodE, isIdU, allIdU_idsU args]
  | N.Expr.ClosureCall _ args _ =>
      simp [eraseExpr, anfGoodE, isIdU, allIdU_idsU args]
  | N.Expr.AnyMethodCall _ _ args _ _ =>
      simp [eraseExpr, anfGoodE, isIdU, allIdU_idsU args]
  | N.Expr.NewRef a _ _ =>
      simp [eraseExpr, anfGoodE, isAtomU_eraseAtom a, anfGoodE_eraseAtom a]
  | N.Expr.Closure _ env _ =>
      simp [eraseExpr, anfGoodE, allAtomU_eraseEnvList env,
        allGoodE_eraseEnvList env]

mutual

theorem anfGoodS_eraseStmt (s : N.Stmt) : anfGoodS (eraseStmt s) = true := by
  match s with
  | N.Stmt.Var _ e _ _ => simp [eraseStmt, anfGoodS, anfGoodE_eraseExpr e]
  | N.Stmt.Assign _ e _ => simp [eraseStmt, anfGoodS, anfGoodE_eraseExpr e]
  | N.Stmt.Store _ e _ =>
      simp [eraseStmt, anfGoodS, isIdU, anfGoodE_eraseExpr e]
  | N.Stmt.Expression e _ => simp [eraseStmt, anfGoodS, anfGoodE_eraseExpr e]
  | N.Stmt.If c t e _ =>
      simp [eraseStmt, anfGoodS, isAtomU_eraseAtom c, anfGoodS_eraseStmt t,
        anfGoodS_eraseStmt e]
  | N.Stmt.Loop body _ => simp [eraseStmt, anfGoodS, anfGoodS_eraseStmt body]
  | N.Stmt.Label _ body _ =>
      simp [eraseStmt, anfGoodS, anfGoodS_eraseStmt body]
  | N.Stmt.Break _ _ => rfl
  | N.Stmt.Return a _ => simp [eraseStmt, anfGoodS, isAtomU_eraseAtom a]
  | N.Stmt.Block body _ =>
      simp [eraseStmt, anfGoodS, allGoodS_eraseStmtList body]
  | N.Stmt.Empty => rfl
  | N.Stmt.Trap => rfl
  | N.Stmt.Goto _ _ => rfl

theorem allGoodS_eraseStmtList (l : List N.Stmt) :
    allGoodS (eraseStmtList l) = true := by
  match l with
  | [] => rfl
  | s :: rest =>
      simp [eraseStmtList, allGoodS, anfGoodS_eraseStmt s,
        allGoodS_eraseStmtList rest]

end

end ANFI

namespace ANF

/-- Whether an atom is an identifier (the `Atom::Id` test of
`C::recv_a`). -/
def isAtomId : N.Atom → Bool
  | N.Atom.Id _ _ => true
  | _ => false

end ANF

/-- C1: for every HighIR statement the A-normalizer accepts, in the LowIR
program it produces every argument of a `Call`, `ClosureCall` or
`PrimCall` is an identifier, every `If` condition is an atom, and the
target of every `Store` statement is an identifier (stated via the
type-erasing embedding `ANFI`, where these facts are properties rather
than typing artifacts). -/
theorem C1_anf_output_invariant :
    ∀ (j : J.Stmt) (p : N.Program),
      ANF.from_jankyscript j = Except.ok p →
      ∀ nf ∈ p.functions, ANFI.anfGoodS (ANFI.eraseStmt nf.2.body) = true := by
  intro j p _ nf _
  exact ANFI.anfGoodS_eraseStmt nf.2.body

/-- The A-normalization of the empty program, used as a concrete
evaluation point. -/
def progEmpty : N.Program :=
  { functions := [(Id.Named "main",
      { body := N.Stmt.Block [N.Stmt.Empty] (), params := [],
        fn_type := { args := [], result := none } })],
    globals := [], data := [], rts_fn_imports := [] }

/-- Witness for C1: the empty program normalizes successfully and its
output satisfies the ANF discipline. -/
theorem C1_anf_output_invariant_witness :
    ANF.from_jankyscript J.Stmt.Empty = Except.ok progEmpty ∧
    ∀ nf ∈ progEmpty.functions,
      ANFI.anfGoodS (ANFI.eraseStmt nf.2.body) = true :=
  ⟨by simp [ANF.from_jankyscript, ANF.compile_stmt]; rfl,
   C1_anf_output_invariant J.Stmt.Empty progEmpty
     (by simp [ANF.from_jankyscript, ANF.compile_stmt]; rfl)⟩

/-- C4: a value delivered to a `C::Id` continuation during
A-normalization is handled as follows: the atom `Id(x)` passes the name
`x` directly with no statements emitted; any other atom `a` binds a fresh
temporary `t` (the next name of the generator), emits `Var(t, Atom(a))`
before the continuation output, and passes `t`; an expression likewise
binds a fresh temporary to the expression and passes its name. -/
theorem C4_kid_continuation :
    (∀ (f : Id → ANF.M (List N.Stmt)) (x : Id) (p : Pos),
       ANF.C.recv_a (ANF.C.Id f) (N.Atom.Id x p) = f x) ∧
    (∀ (f : Id → ANF.M (List N.Stmt)) (a : N.Atom) (s : ANF.S),
       ANF.isAtomId a = false →
       ANF.C.recv_a (ANF.C.Id f) a s =
         (do
           let x := Id.Generated "anf" s.namegen
           let rest ← f x
           pure (N.Stmt.Var x (N.Expr.Atom a ()) none () :: rest))
           { s with namegen := s.namegen + 1 }) ∧
    (∀ (f : Id → ANF.M (List N.Stmt)) (e : N.Expr) (s : ANF.S),
       ANF.C.recv_e (ANF.C.Id f) e s =
         (do
           let x := Id.Generated "anf" s.namegen
           let rest ← f x
           pure (N.Stmt.Var x e none () :: rest))
           { s with namegen := s.namegen + 1 }) := by
  refine ⟨fun f x p => rfl, ?_, fun f e s => rfl⟩
  intro f a s h
  cases a with
  | Id x p => simp [ANF.isAtomId] at h
  | Lit _ _ => rfl
  | Deref _ _ _ => rfl
  | PrimApp _ _ _ => rfl
  | GetPrimFunc _ _ => rfl
  | ToAny _ _ _ => rfl
  | FromAny _ _ _ => rfl
  | FloatToInt _ _ => rfl
  | IntToFloat _ _ => rfl
  | ObjectGet _ _ _ => rfl
  | AnyLength _ _ _ => rfl
  | Binary _ _ _ _ => rfl
  | Unary _ _ _ => rfl
  | EnvGet _ _ _ => rfl

/-- Witness for C4: a literal atom is not an identifier, and delivering
it to a `C::Id` continuation at the initial state emits the temporary
binding. -/
theorem C4_kid_continuation_witness :
    ANF.isAtomId (N.Atom.Lit (N.Lit.I32 7) ()) = false ∧
    ANF.C.recv_a
      (ANF.C.Id (fun x => pure [N.Stmt.Return (N.Atom.Id x ()) ()]))
      (N.Atom.Lit (N.Lit.I32 7) ()) { namegen := 0, functions := [] } =
      (do
        let x := Id.Generated "anf" (0 : Nat)
        let rest ← (fun x => pure [N.Stmt.Return (N.Atom.Id x ()) ()] :
          Id → ANF.M (List N.Stmt)) x
        pure (N.Stmt.Var x
          (N.Expr.Atom (N.Atom.Lit (N.Lit.I32 7) ()) ()) none () :: rest))
        { namegen := 0 + 1, functions := [] } :=
  ⟨rfl,
   C4_kid_continuation.2.1
     (fun x => pure [N.Stmt.Return (N.Atom.Id x ()) ()])
     (N.Atom.Lit (N.Lit.I32 7) ()) { namegen := 0, functions := [] } rfl⟩

/-- C5: lowering of concrete coercions applied to an atom `a`:
`FloatToInt` and `IntToFloat` become the same-named LowIR atoms, `Tag`
becomes `ToAny(a)`, `Untag(t)` becomes `FromAny(a, t)` (with `t`
converted to its LowIR form), `Id` returns `a` unchanged, and
`Seq(c1, c2)` lowers `c1` first and feeds the result to the lowering of
`c2`. -/
theorem C5_coercion_lowering :
    (∀ (a : N.Atom) (p : Pos),
       ANF.coercion_to_expr J.Coercion.FloatToInt a p =
         Except.ok (N.Atom.FloatToInt a p)) ∧
    (∀ (a : N.Atom) (p : Pos),
       ANF.coercion_to_expr J.Coercion.IntToFloat a p =
         Except.ok (N.Atom.IntToFloat a p)) ∧
    (∀ (a : N.Atom) (p : Pos) (t : J.Typ),
       ANF.coercion_to_expr (J.Coercion.Tag t) a p =
         Except.ok (ANF.to_any_ a p)) ∧
    (∀ (a : N.Atom) (p : Pos) (t : J.Typ),
       ANF.coercion_to_expr (J.Coercion.Untag t) a p =
         Except.ok (ANF.from_any_ a (t.notwasm_typ true) p)) ∧
    (∀ (a : N.Atom) (p : Pos) (t : J.Typ),
       ANF.coercion_to_expr (J.Coercion.Id t) a p = Except.ok a) ∧
    (∀ (a : N.Atom) (p : Pos) (c1 c2 : J.Coercion),
       ANF.coercion_to_expr (J.Coercion.Seq c1 c2) a p =
         (ANF.coercion_to_expr c1 a p).bind
           (fun a1 => ANF.coercion_to_expr c2 a1 p)) :=
  ⟨fun a p => rfl, fun a p => rfl, fun a p t => rfl, fun a p t => rfl,
   fun a p t => rfl, fun a p c1 c2 => rfl⟩

namespace Alloc

/-- The free list of the runtime allocator
(`runtime/src/allocator/mod.rs`): a linked list of blocks, each holding a
start address (`*mut u8`, embedded as `Nat`) and a size (`isize`,
embedded as `Int`). -/
inductive FreeList where
  | Nil
  | Block (start : Nat) (size : Int) (rest : FreeList)

/-- The `FreeList::find_free_size` method: returns the address of a free
block of size `size` and updates the free list.  The first block whose
size equals the request is unlinked; the first strictly larger block is
shrunk from its front; otherwise the search recurs into the tail. -/
def FreeList.find_free_size : FreeList → Int → Option (Nat × FreeList)
  | FreeList.Block start bsize next, size =>
      if size = bsize then
        some (start, next)
      else if size < bsize then
        some (start, FreeList.Block (start + size.toNat) (bsize - size) next)
      else
        (FreeList.find_free_size next size).map
          (fun r => (r.1, FreeList.Block start bsize r.2))
  | FreeList.Nil, _ => none

/-- The blocks of a free list, in list order. -/
def FreeList.blocks : FreeList → List (Nat × Int)
  | FreeList.Nil => []
  | FreeList.Block start size rest => (start, size) :: rest.blocks

/-- First-fit removal, following the words of the claim: find the first
block of size at least `n` in list order, return its start address, and
remove exactly the first `n` bytes of it (the whole block when the sizes
are equal), leaving all other blocks unchanged. -/
def firstFitRemove (n : Int) : List (Nat × Int) →
    Option (Nat × List (Nat × Int))
  | [] => none
  | (s, z) :: rest =>
      if n ≤ z then
        some (s, if z = n then rest else (s + n.toNat, z - n) :: rest)
      else
        (firstFitRemove n rest).map (fun r => (r.1, (s, z) :: r.2))

theorem firstFitRemove_isSome (n : Int) (bs : List (Nat × Int)) :
    (firstFitRemove n bs).isSome ↔ ∃ b ∈ bs, n ≤ b.2 := by
  induction bs with
  | nil => simp [firstFitRemove]
  | cons b rest ih =>
      obtain ⟨s, z⟩ := b
      by_cases h : n ≤ z
      · simp [firstFitRemove, h]
      · simp [firstFitRemove, h, ih]

theorem find_free_size_agrees (L : FreeList) (n : Int) :
    (FreeList.find_free_size L n).map (fun r => (r.1, r.2.blocks)) =
      firstFitRemove n L.blocks := by
  induction L with
  | Nil => rfl
  | Block start bsize next ih =>
      by_cases h1 : n = bsize
      · simp [FreeList.find_free_size, FreeList.blocks, firstFitRemove, h1]
      · by_cases h2 : n < bsize
        · have hle : n ≤ bsize := le_of_lt h2
          simp [FreeList.find_free_size, FreeList.blocks, firstFitRemove,
            h1, h2, hle, Ne.symm h1]
        · have hnle : ¬ n ≤ bsize := by omega
          cases hfind : FreeList.find_free_size next n with
          | none =>
              have := ih
              rw [hfind] at this
              simp [FreeList.find_free_size, FreeList.blocks, firstFitRemove,
                h1, h2, hnle, hfind, ← this]
          | some r =>
              have := ih
              rw [hfind] at this
              simp [FreeList.find_free_size, FreeList.blocks, firstFitRemove,
                h1, h2, hnle, hfind, ← this]

end Alloc

/-- C10: for every free list `L` and request `n > 0`,
`FreeList::find_free_size(n)` succeeds exactly when some block of `L` has
size at least `n`; when it succeeds it returns the start address of the
first such block in list order and removes exactly the first `n` bytes of
that block (the whole block when the sizes are equal), leaving all other
blocks unchanged — i.e. it agrees with the first-fit removal function
written from the claim. -/
theorem C10_find_free_size :
    ∀ (L : Alloc.FreeList) (n : Int), 0 < n →
      (((Alloc.FreeList.find_free_size L n).isSome ↔
          ∃ b ∈ L.blocks, n ≤ b.2) ∧
       (Alloc.FreeList.find_free_size L n).map
           (fun r => (r.1, r.2.blocks)) =
         Alloc.firstFitRemove n L.blocks) := by
  intro L n _
  refine ⟨?_, Alloc.find_free_size_agrees L n⟩
  rw [← Alloc.firstFitRemove_isSome n L.blocks,
    ← Alloc.find_free_size_agrees L n]
  cases Alloc.FreeList.find_free_size L n <;> simp

/-- Witness for C10: a single block of size 16 serves a request of 8 by
shrinking from the front. -/
theorem C10_find_free_size_witness :
    (0 : Int) < 8 ∧
    (((Alloc.FreeList.find_free_size
          (Alloc.FreeList.Block 100 16 Alloc.FreeList.Nil) 8).isSome ↔
        ∃ b ∈ (Alloc.FreeList.Block 100 16 Alloc.FreeList.Nil).blocks,
          (8 : Int) ≤ b.2) ∧
     (Alloc.FreeList.find_free_size
         (Alloc.FreeList.Block 100 16 Alloc.FreeList.Nil) 8).map
         (fun r => (r.1, r.2.blocks)) =
       Alloc.firstFitRemove 8
         (Alloc.FreeList.Block 100 16 Alloc.FreeList.Nil).blocks) :=
  ⟨by norm_num,
   C10_find_free_size (Alloc.FreeList.Block 100 16 Alloc.FreeList.Nil) 8
     (by norm_num)⟩

namespace TR

/-- Wasm value types (`parity_wasm::elements::ValueType`). -/
inductive ValueType where
  | I32
  | I64
  | F32
  | F64
deriving DecidableEq

/-- Wasm block types. -/
inductive BlockType where
  | NoResult
  | Value (t : ValueType)
deriving DecidableEq

/-- The wasm instructions emitted by `translation.rs` (the subset of
`parity_wasm::elements::Instruction` the emitter uses; loads and stores
carry alignment then offset, as in parity_wasm). -/
inductive Instr where
  | Unreachable
  | Drop
  | Else
  | End
  | Return
  | Block (bt : BlockType)
  | Loop (bt : BlockType)
  | If (bt : BlockType)
  | Br (n : Nat)
  | BrTable (table : List Nat) (dflt : Nat)
  | Call (i : Nat)
  | CallIndirect (tyIndex : Nat) (table : Nat)
  | GetLocal (n : Nat)
  | SetLocal (n : Nat)
  | TeeLocal (n : Nat)
  | GetGlobal (n : Nat)
  | SetGlobal (n : Nat)
  | I32Load (align offset : Nat)
  | I64Load (align offset : Nat)
  | F32Load (align offset : Nat)
  | F64Load (align offset : Nat)
  | I32Load8U (align offset : Nat)
  | I32Store (align offset : Nat)
  | I64Store (align offset : Nat)
  | F32Store (align offset : Nat)
  | F64Store (align offset : Nat)
  | I32Const (n : Int)
  | I64Const (n : Int)
  | F64Const (bits : Nat)
  | I32Eq | I32Ne | I32Add | I32Sub | I32Mul | I32DivS | I32RemS
  | I32And | I32Or | I32Xor | I32Shl | I32ShrS | I32ShrU
  | I32GtS | I32LtS | I32GeS | I32LeS | I32Eqz | I32WrapI64
  | F64Add | F64Sub | F64Mul | F64Div
  | F64Lt | F64Gt | F64Le | F64Ge | F64Eq | F64Ne | F64Sqrt | F64Neg
  | I64ShrU | I32TruncSF64 | F64ConvertSI32

/-- Byte-size constants at the top of `translation.rs`. -/
def ANY_SIZE : Nat := 8

def TAG_SIZE : Nat := 4

def LENGTH_SIZE : Nat := 4

def FN_OBJ_SIZE : Nat := 4

def JNKS_STRINGS_IDX : Nat := 0

/-- `N::Type::as_wasm` from the bottom of `translation.rs`. -/
def asWasm : N.Typ → ValueType
  | N.Typ.F64 => ValueType.F64
  | N.Typ.Any => ValueType.I64
  | N.Typ.I32 => ValueType.I32
  | N.Typ.Bool => ValueType.I32
  | N.Typ.String => ValueType.I32
  | N.Typ.HT => ValueType.I32
  | N.Typ.Array => ValueType.I32
  | N.Typ.DynObject => ValueType.I32
  | N.Typ.Fn _ _ => ValueType.I32
  | N.Typ.Closure _ _ => ValueType.I64
  | N.Typ.Ref _ => ValueType.I32
  | N.Typ.Env => ValueType.I32
  | N.Typ.Ptr => ValueType.I32

def types_as_wasm (types : List N.Typ) : List ValueType := types.map asWasm

def option_as_wasm (ty : Option N.Typ) : Option ValueType := ty.map asWasm

def opt_valuetype_to_blocktype : Option ValueType → BlockType
  | none => BlockType.NoResult
  | some t => BlockType.Value t

/-- `shadow_frame_fn`: the runtime entry registering a GC root, selected
by type. -/
def shadow_frame_fn : N.Typ → String
  | N.Typ.Any => "set_any_in_current_shadow_frame_slot"
  | N.Typ.Closure _ _ => "set_closure_in_current_shadow_frame_slot"
  | _ => "set_in_current_shadow_frame_slot"

/-- Display of LowIR types (the `Display` impl lives in
`notwasm/syntax.rs`, not under `src/`; modelled from the runtime names the
emitter constructs with it, e.g. `any_from_i32`, `any_from_fn` and
`string_len`). -/
def typDisplay : N.Typ → String
  | N.Typ.I32 => "i32"
  | N.Typ.F64 => "f64"
  | N.Typ.Bool => "bool"
  | N.Typ.String => "string"
  | N.Typ.HT => "ht"
  | N.Typ.Array => "array"
  | N.Typ.DynObject => "dynobject"
  | N.Typ.Fn _ _ => "fn"
  | N.Typ.Closure _ _ => "closure"
  | N.Typ.Ref _ => "ref"
  | N.Typ.Env => "env"
  | N.Typ.Any => "any"
  | N.Typ.Ptr => "ptr"

/-- The `fn_ty_` constructor of `notwasm/constructors.rs`. -/
def fn_ty_ (args : List N.Typ) (result : Option N.Typ) : N.Typ :=
  N.Typ.Fn args result

/-- Step 1 of `get_rt_bindings` from `notwasm/rt_bindings.rs`: the
manually inserted runtime functions, in source order, with the
`insert_mono` calls expanded over their provided types. -/
def get_rt_bindings_manual : List (String × N.Typ) :=
  [("ht_new", fn_ty_ [] (some N.Typ.HT)),
   ("ht_get", fn_ty_ [N.Typ.HT, N.Typ.String] (some N.Typ.Any)),
   ("ht_set", fn_ty_ [N.Typ.HT, N.Typ.String, N.Typ.Any] (some N.Typ.Any)),
   ("array_new", fn_ty_ [] (some N.Typ.Array)),
   ("array_push", fn_ty_ [N.Typ.Array, N.Typ.Any] (some N.Typ.I32)),
   ("array_index", fn_ty_ [N.Typ.Array, N.Typ.I32] (some N.Typ.Any)),
   ("array_set", fn_ty_ [N.Typ.Array, N.Typ.I32, N.Typ.Any] (some N.Typ.Any)),
   ("array_len", fn_ty_ [N.Typ.Array] (some N.Typ.I32)),
   ("any_from_i32", fn_ty_ [N.Typ.I32] (some N.Typ.Any)),
   ("any_from_bool", fn_ty_ [N.Typ.Bool] (some N.Typ.Any)),
   ("any_from_fn", fn_ty_ [fn_ty_ [] none] (some N.Typ.Any)),
   ("any_to_i32", fn_ty_ [N.Typ.Any] (some N.Typ.I32)),
   ("any_to_bool", fn_ty_ [N.Typ.Any] (some N.Typ.Bool)),
   ("any_to_fn", fn_ty_ [N.Typ.Any] (some (fn_ty_ [] none))),
   ("any_from_ptr", fn_ty_ [N.Typ.I32] (some N.Typ.Any)),
   ("any_to_ptr", fn_ty_ [N.Typ.Any] (some N.Typ.I32)),
   ("get_undefined", fn_ty_ [] (some N.Typ.Any)),
   ("get_null", fn_ty_ [] (some N.Typ.Any)),
   ("object_empty", fn_ty_ [] (some N.Typ.DynObject)),
   ("object_set",
    fn_ty_ [N.Typ.DynObject, N.Typ.String, N.Typ.Any, N.Typ.I32]
      (some N.Typ.Any)),
   ("object_get",
    fn_ty_ [N.Typ.DynObject, N.Typ.String, N.Typ.I32] (some N.Typ.Any)),
   ("string_len", fn_ty_ [N.Typ.String] (some N.Typ.I32)),
   ("ref_new", fn_ty_ [N.Typ.I32] (some N.Typ.I32)),
   ("init", fn_ty_ [] none),
   ("gc_enter_fn", fn_ty_ [N.Typ.I32] none),
   ("gc_exit_fn", fn_ty_ [] none),
   ("set_in_current_shadow_frame_slot",
    fn_ty_ [N.Typ.I32, N.Typ.I32] none),
   ("set_any_in_current_shadow_frame_slot",
    fn_ty_ [N.Typ.Any, N.Typ.I32] none),
   ("any_to_f64", fn_ty_ [N.Typ.Any] (some N.Typ.F64)),
   ("f64_to_any", fn_ty_ [N.Typ.F64] (some N.Typ.Any))]

/-- Step 2 of `get_rt_bindings` iterates `RTSFunction`
(`rts_function.rs`, not under `src/`): the higher-level runtime entries.
Modelled from the spec: their exact set is unavailable and no claim
depends on them, so theorems about the bindings quantify over this
extension where it matters; the map is step 1 extended by step 2. -/
def get_rt_bindings (rtsExtra : List (String × N.Typ)) :
    List (String × N.Typ) :=
  get_rt_bindings_manual ++ rtsExtra

/-- Membership of a name in an association list (the key set of the
source hash maps). -/
def hasKey (m : List (String × N.Typ)) (name : String) : Bool :=
  m.any (fun kv => kv.1 == name)

end TR

namespace TR

/-- Compiler options (`crate::opts::Opts`, not under `src/`; only the
`disable_gc` flag is consulted by the emitter). -/
structure Opts where
  disable_gc : Bool

/-- Identifier resolution during emission (enum `IdIndex`). -/
inductive IdIndex where
  | Local (n : Nat) (ty : N.Typ)
  | Global (n : Nat) (ty : N.Typ)
  | RTGlobal (n : Nat) (ty : N.Typ)
  | Fun (n : Nat)

/-- Label resolution during emission (enum `TranslateLabel`). -/
inductive TranslateLabel where
  | Unused
  | Label (l : N.Label)
deriving DecidableEq

/-- The per-statement environment (struct `Env` of `translation.rs`). -/
structure TEnv where
  labels : List TranslateLabel
  result_type : Option ValueType

/-- Read-only fields of the `Translate` struct: options, the runtime
function indices and the function type indices. -/
structure TrCtx where
  opts : Opts
  rt_indexes : List (String × Nat)
  type_indexes : List ((List ValueType × Option ValueType) × Nat)

/-- Mutable fields of the `Translate` struct. -/
structure TrState where
  out : List Instr
  locals : List ValueType
  next_id : Nat
  id_env : List (Id × IdIndex)
  data : List Nat

/-- The emitter threads `TrState` and may panic. -/
abbrev TrM (α : Type) : Type := StateT TrState (Except String) α

/-- Append one instruction to the output stream (`self.out.push`). -/
def pushI (i : Instr) : TrM Unit :=
  fun st => Except.ok ((), { st with out := st.out ++ [i] })

/-- Lookup in the runtime-function index map. -/
def rtIndexOf (ctx : TrCtx) (name : String) : Option Nat :=
  (ctx.rt_indexes.find? (fun kv => kv.1 == name)).map (fun kv => kv.2)

/-- Lookup in the function-type index map. -/
def typeIndexOf (ctx : TrCtx) (key : List ValueType × Option ValueType) :
    Option Nat :=
  (ctx.type_indexes.find? (fun kv =>
    kv.1.1 == key.1 && kv.1.2 == key.2)).map (fun kv => kv.2)

/-- Lookup in the identifier environment (latest insertion wins, like the
`im_rc` map of the source). -/
def idEnvGet (env : List (Id × IdIndex)) (id : Id) : Option IdIndex :=
  (env.find? (fun kv => kv.1 == id)).map (fun kv => kv.2)

/-- Insert into the identifier environment. -/
def idEnvInsert (id : Id) (ix : IdIndex) : TrM Unit :=
  fun st => Except.ok ((), { st with id_env := (id, ix) :: st.id_env })

/-- Generate a call to a Rust runtime function (`Translate::rt_call`);
panics when the name is unknown. -/
def rt_call (ctx : TrCtx) (name : String) : TrM Unit := do
  match rtIndexOf ctx name with
  | some i => pushI (Instr.Call i)
  | none => StateT.lift (throw ("cannot find rt " ++ name))

/-- Find a function of the NotWasm runtime
(`Translate::get_notwasm_rt_fn`). -/
def get_notwasm_rt_fn (ctx : TrCtx) (name : String) : TrM (Option Nat) := do
  let st ← get
  match idEnvGet st.id_env (Id.Named name) with
  | some (IdIndex.Fun f) => pure (some (f + ctx.rt_indexes.length))
  | _ => pure none

/-- Generate a call to a NotWasm runtime function
(`Translate::notwasm_rt_call`). -/
def notwasm_rt_call (ctx : TrCtx) (name : String) : TrM Unit := do
  match ← get_notwasm_rt_fn ctx name with
  | some index => pushI (Instr.Call index)
  | none =>
      StateT.lift (throw ("cannot find notwasm runtime function " ++ name))

/-- Typed load (`Translate::load`). -/
def load (ty : N.Typ) (offset : Nat) : TrM Unit :=
  match asWasm ty with
  | ValueType.I32 => pushI (Instr.I32Load 2 offset)
  | ValueType.I64 => pushI (Instr.I64Load 2 offset)
  | ValueType.F32 => pushI (Instr.F32Load 2 offset)
  | ValueType.F64 => pushI (Instr.F64Load 2 offset)

/-- Typed store (`Translate::store`). -/
def store (ty : N.Typ) (offset : Nat) : TrM Unit :=
  match asWasm ty with
  | ValueType.I32 => pushI (Instr.I32Store 2 offset)
  | ValueType.I64 => pushI (Instr.I64Store 2 offset)
  | ValueType.F32 => pushI (Instr.F32Store 2 offset)
  | ValueType.F64 => pushI (Instr.F64Store 2 offset)

/-- Publish a GC root (`Translate::set_in_current_shadow_frame_slot`). -/
def set_in_current_shadow_frame_slot (ctx : TrCtx) (ty : N.Typ) :
    TrM Unit :=
  rt_call ctx (shadow_frame_fn ty)

/-- The instruction registering a global root
(`get_set_in_globals_frame`). -/
def get_set_in_globals_frame (ctx : TrCtx) (ty : N.Typ) :
    Except String Instr :=
  let func := match ty with
    | N.Typ.Closure _ _ => "set_closure_in_globals_frame"
    | N.Typ.Any => "set_any_in_globals_frame"
    | _ => "set_in_globals_frame"
  match rtIndexOf ctx func with
  | some i => pure (Instr.Call i)
  | none => throw ("cannot find rt " ++ func)

/-- Box a value into `Any` (`Translate::to_any`): each type selects its
runtime conversion by name, and boxing an `Any` is a no-op. -/
def to_any (ctx : TrCtx) (ty : N.Typ) : TrM Unit :=
  match ty with
  | N.Typ.I32 => rt_call ctx "any_from_i32"
  | N.Typ.Bool => rt_call ctx "any_from_bool"
  | N.Typ.F64 => rt_call ctx "f64_to_any"
  | N.Typ.Fn _ _ => rt_call ctx "any_from_fn"
  | N.Typ.Closure _ _ => rt_call ctx "any_from_closure"
  | N.Typ.Any => pure ()
  | _ => rt_call ctx "any_from_ptr"

/-- Unbox a value from `Any` (`Translate::from_any`). -/
def from_any (ctx : TrCtx) (ty : N.Typ) : TrM Unit :=
  match ty with
  | N.Typ.I32 => rt_call ctx "any_to_i32"
  | N.Typ.Bool => rt_call ctx "any_to_bool"
  | N.Typ.F64 => rt_call ctx "any_to_f64"
  | N.Typ.Fn _ _ => StateT.lift (throw "cannot attain function from any")
  | N.Typ.Closure _ _ => rt_call ctx "any_to_closure"
  | N.Typ.Any => pure ()
  | _ => rt_call ctx "any_to_ptr"

/-- Binary operator selection (`Translate::translate_binop`). -/
def translate_binop (op : N.BinaryOp) : TrM Unit :=
  match op with
  | N.BinaryOp.PtrEq => pushI Instr.I32Eq
  | N.BinaryOp.I32Eq => pushI Instr.I32Eq
  | N.BinaryOp.I32Ne => pushI Instr.I32Ne
  | N.BinaryOp.I32Add => pushI Instr.I32Add
  | N.BinaryOp.I32Sub => pushI Instr.I32Sub
  | N.BinaryOp.I32GT => pushI Instr.I32GtS
  | N.BinaryOp.I32LT => pushI Instr.I32LtS
  | N.BinaryOp.I32Ge => pushI Instr.I32GeS
  | N.BinaryOp.I32Le => pushI Instr.I32LeS
  | N.BinaryOp.I32Mul => pushI Instr.I32Mul
  | N.BinaryOp.I32Div => pushI Instr.I32DivS
  | N.BinaryOp.I32Rem => pushI Instr.I32RemS
  | N.BinaryOp.I32And => pushI Instr.I32And
  | N.BinaryOp.I32Or => pushI Instr.I32Or
  | N.BinaryOp.I32Xor => pushI Instr.I32Xor
  | N.BinaryOp.I32Shl => pushI Instr.I32Shl
  | N.BinaryOp.I32Shr => pushI Instr.I32ShrS
  | N.BinaryOp.I32ShrU => pushI Instr.I32ShrU
  | N.BinaryOp.F64Add => pushI Instr.F64Add
  | N.BinaryOp.F64Sub => pushI Instr.F64Sub
  | N.BinaryOp.F64Mul => pushI Instr.F64Mul
  | N.BinaryOp.F64Div => pushI Instr.F64Div
  | N.BinaryOp.F64LT => pushI Instr.F64Lt
  | N.BinaryOp.F64GT => pushI Instr.F64Gt
  | N.BinaryOp.F64Le => pushI Instr.F64Le
  | N.BinaryOp.F64Ge => pushI Instr.F64Ge
  | N.BinaryOp.F64Eq => pushI Instr.F64Eq
  | N.BinaryOp.F64Ne => pushI Instr.F64Ne

/-- Unary operator selection (`Translate::translate_unop`). -/
def translate_unop (op : N.UnaryOp) : TrM Unit :=
  match op with
  | N.UnaryOp.Sqrt => pushI Instr.F64Sqrt
  | N.UnaryOp.F64Neg => pushI Instr.F64Neg
  | N.UnaryOp.I32Neg => pushI Instr.I32Sub
  | N.UnaryOp.I32Not => do
      pushI (Instr.I32Const (-1))
      pushI Instr.I32Xor
  | N.UnaryOp.Eqz => pushI Instr.I32Eqz
  | N.UnaryOp.Nop => pure ()

/-- Resolve an identifier and push the access instruction
(`Translate::get_id`); returns the resolved type for value-indexed
identifiers. -/
def get_id (ctx : TrCtx) (id : Id) : TrM (Option N.Typ) := do
  let st ← get
  match idEnvGet st.id_env id with
  | none => StateT.lift (throw "unbound identifier")
  | some (IdIndex.Local n ty) => do
      pushI (Instr.GetLocal n)
      pure (some ty)
  | some (IdIndex.Global n ty) => do
      pushI (Instr.GetGlobal n)
      pure (some ty)
  | some (IdIndex.RTGlobal n ty) => do
      pushI (Instr.GetGlobal n)
      load ty 0
      pure (some ty)
  | some (IdIndex.Fun n) => do
      pushI (Instr.I32Const (Int.ofNat (n + ctx.rt_indexes.length)))
      pure none

/-- The `Id::into_name` conversion. -/
def intoName : Id → String
  | Id.Named s => s
  | Id.Bogus s => s
  | Id.Generated pre n => pre ++ toString n

/-- Inline-cache slot emission (`Translate::data_cache`): push the
address of the end of the data segment and extend the segment by four
`0xff` bytes (the little-endian encoding of `-1`). -/
def data_cache : TrM Unit := do
  pushI (Instr.GetGlobal JNKS_STRINGS_IDX)
  let st ← get
  pushI (Instr.I32Const (Int.ofNat st.data.length))
  pushI Instr.I32Add
  fun st2 => Except.ok ((),
    { st2 with data := st2.data ++ [255, 255, 255, 255] })

/-- Allocate a fresh wasm local of the given type, returning its index
(the `next_id`/`locals.push` idiom of the source). -/
def allocLocal (vt : ValueType) : TrM Nat :=
  fun st => Except.ok (st.next_id,
    { st with next_id := st.next_id + 1, locals := st.locals ++ [vt] })

/-- First-argument test of the `typed_call` overload search
(`typs.iter().find(|t| t.unwrap_fun().0[0] == typ)`). -/
def firstArgIs (typ : N.Typ) (t : N.Typ) : Bool :=
  match t.unwrap_fun with
  | some (arg0 :: _, _) => N.Typ.beq arg0 typ
  | _ => false

/-- The `typed_call` closure of `translate_any_method`: for a non-object
discriminant, call the typed runtime helper `<type>_<method>` and box the
result into the reserved local. -/
def typed_call (ctx : TrCtx) (typs : List N.Typ) (args : List Id)
    (method : String) (index : Nat) (typ : N.Typ) : TrM Unit := do
  match typs.find? (firstArgIs typ) with
  | none => pure ()
  | some t =>
      match t.unwrap_fun with
      | none => StateT.lift (throw "unwrap_fun on non-function")
      | some (arg_typs, result_typ) => do
          (args.zip arg_typs).forM (fun pr => do
            let _ ← get_id ctx pr.1
            from_any ctx pr.2)
          rt_call ctx (typDisplay typ ++ "_" ++ method)
          match result_typ with
          | some result_typ => do
              to_any ctx result_typ
              pushI (Instr.SetLocal index)
          | none => pure ()

end TR

namespace TR

/-- Runtime function implementations (`RTSFunctionImpl` of
`rts_function.rs`, not under `src/`; modelled from the spec: a runtime
function is implemented either in the Rust runtime or in the NotWasm
runtime, and the imports used by the embedded programs resolve to the
Rust side). -/
inductive RTSFunctionImpl where
  | Rust (s : String)
  | NotWasm (s : String)

/-- The `RTSFunction::name` method (modelled, see `RTSFunctionImpl`). -/
def rtsName : N.RTSFunction → RTSFunctionImpl
  | N.RTSFunction.Import s => RTSFunctionImpl.Rust s
  | N.RTSFunction.Todo s => RTSFunctionImpl.Rust s

/-- Unwrap of the optional type annotation of a `Var` statement
(`var_stmt.ty()` in the source, which panics when absent). -/
def varStmtTy (ty : Option N.Typ) : TrM N.Typ :=
  match ty with
  | some t => pure t
  | none => StateT.lift (throw "var statement without a type")

/-- The initialization test of the `Var` case: an `undefined`
initializer at non-`Any` type is an uninitialized declaration. -/
def isInitVar (ty : Option N.Typ) (named : N.Expr) : Bool :=
  (match ty with
   | some N.Typ.Any => false
   | _ => true) &&
  (match named with
   | N.Expr.Atom (N.Atom.Lit N.Lit.Undefined _) _ => true
   | _ => false)

mutual

/-- Statement emission (`Translate::translate_rec`).  The `fuel`
parameter bounds the recursion through statements synthesized by the
object-method dispatcher (which nest at most once); every structural
recursion keeps the fuel unchanged. -/
def translate_rec (ctx : TrCtx) (fuel : Nat) (env : TEnv) (tail : Bool)
    (stmt : N.Stmt) : TrM Unit :=
  match stmt with
  | N.Stmt.Store id expr _ => do
      let ty ← get_id ctx id
      match ty with
      | none => StateT.lift (throw "unwrap of get_id")
      | some ty => do
          let b_ty ← match ty with
            | N.Typ.Ref b_ty => pure b_ty
            | _ => StateT.lift (throw "tried to store into non-ref")
          translate_expr ctx fuel expr
          store b_ty TAG_SIZE
  | N.Stmt.Empty => pure ()
  | N.Stmt.Block ss _ => translate_block_stmts ctx fuel env tail ss
  | N.Stmt.Var x named ty _ => do
      let is_init := isInitVar ty named
      if !is_init then translate_expr ctx fuel named else pure ()
      let vty ← varStmtTy ty
      let index ← allocLocal (asWasm vty)
      idEnvInsert x (IdIndex.Local index vty)
      if !is_init then
        if ctx.opts.disable_gc == true || vty.is_gc_root == false then
          pushI (Instr.SetLocal index)
        else do
          pushI (Instr.TeeLocal index)
          pushI (Instr.I32Const (Int.ofNat index))
          set_in_current_shadow_frame_slot ctx vty
      else pure ()
  | N.Stmt.Expression expr _ => do
      translate_expr ctx fuel expr
      pushI Instr.Drop
  | N.Stmt.Assign id expr _ => do
      let st ← get
      match idEnvGet st.id_env id with
      | some (IdIndex.Local n ty) => do
          translate_expr ctx fuel expr
          if ctx.opts.disable_gc == true || ty.is_gc_root == false then
            pushI (Instr.SetLocal n)
          else do
            pushI (Instr.TeeLocal n)
            pushI (Instr.I32Const (Int.ofNat n))
            set_in_current_shadow_frame_slot ctx ty
      | some (IdIndex.Global n ty) => do
          translate_expr ctx fuel expr
          pushI (Instr.SetGlobal n)
          if ctx.opts.disable_gc == false && ty.is_gc_root then do
            pushI (Instr.GetGlobal n)
            pushI (Instr.I32Const (Int.ofNat n))
            match get_set_in_globals_frame ctx ty with
            | Except.ok i => pushI i
            | Except.error e => StateT.lift (throw e)
          else pure ()
      | some (IdIndex.RTGlobal n ty) => do
          pushI (Instr.GetGlobal n)
          translate_expr ctx fuel expr
          store ty 0
      | some (IdIndex.Fun _) => StateT.lift (throw "cannot set function")
      | none => StateT.lift (throw "unbound identifier in assignment")
  | N.Stmt.If cond conseq alt _ => do
      translate_atom ctx fuel cond
      let block_type := if tail then
          opt_valuetype_to_blocktype env.result_type
        else BlockType.NoResult
      pushI (Instr.If block_type)
      let env1 := { env with labels := TranslateLabel.Unused :: env.labels }
      translate_rec ctx fuel env1 tail conseq
      pushI Instr.Else
      translate_rec ctx fuel env1 tail alt
      pushI Instr.End
  | N.Stmt.Loop body _ => do
      pushI (Instr.Loop BlockType.NoResult)
      let env1 := { env with labels := TranslateLabel.Unused :: env.labels }
      translate_rec ctx fuel env1 false body
      pushI (Instr.Br 0)
      pushI Instr.End
  | N.Stmt.Label x stmtBody _ => do
      match x with
      | N.Label.App _ =>
          StateT.lift (throw "Label::App was not eliminated by elim_gotos")
      | N.Label.Named _ => do
          pushI (Instr.Block BlockType.NoResult)
          let env1 :=
            { env with labels := TranslateLabel.Label x :: env.labels }
          translate_rec ctx fuel env1 tail stmtBody
          pushI Instr.End
  | N.Stmt.Break label _ => do
      match env.labels.findIdx? (fun tl => tl == TranslateLabel.Label label)
      with
      | some i => pushI (Instr.Br i)
      | none => StateT.lift (throw "unbound label")
  | N.Stmt.Return atom _ => do
      if ctx.opts.disable_gc == false then rt_call ctx "gc_exit_fn"
      else pure ()
      translate_atom ctx fuel atom
      pushI Instr.Return
  | N.Stmt.Trap => pushI Instr.Unreachable
  | N.Stmt.Goto _ _ =>
      StateT.lift
        (throw "this should be NotWasm, not GotoWasm. did you run elim_gotos?")
termination_by (fuel, sizeOf stmt, 0)

/-- The statements of a block, with the source loop's
`tail_position && index == last_index` logic. -/
def translate_block_stmts (ctx : TrCtx) (fuel : Nat) (env : TEnv)
    (tail : Bool) (ss : List N.Stmt) : TrM Unit :=
  match ss with
  | [] => pure ()
  | [s] => translate_rec ctx fuel env (tail && true) s
  | s :: rest => do
      translate_rec ctx fuel env (tail && false) s
      translate_block_stmts ctx fuel env tail rest
termination_by (fuel, sizeOf ss, 0)

/-- Expression emission (`Translate::translate_expr`). -/
def translate_expr (ctx : TrCtx) (fuel : Nat) (expr : N.Expr) : TrM Unit :=
  match expr with
  | N.Expr.Atom atom _ => translate_atom ctx fuel atom
  | N.Expr.ArraySet arr index value _ => do
      translate_atom ctx fuel arr
      translate_atom ctx fuel index
      translate_atom ctx fuel value
      rt_call ctx "array_set"
  | N.Expr.ObjectSet obj field val _ => do
      translate_atom ctx fuel obj
      translate_atom ctx fuel field
      translate_atom ctx fuel val
      data_cache
      rt_call ctx "object_set"
  | N.Expr.ObjectEmpty => notwasm_rt_call ctx "jnks_new_object"
  | N.Expr.PrimCall rts_func args _ => do
      args.forM (fun arg => do
        let _ ← get_id ctx arg
        pure ())
      match rtsName rts_func with
      | RTSFunctionImpl.Rust name => rt_call ctx name
      | RTSFunctionImpl.NotWasm name => notwasm_rt_call ctx name
  | N.Expr.Call f args _ => do
      args.forM (fun arg => do
        let _ ← get_id ctx arg
        pure ())
      let st ← get
      match idEnvGet st.id_env f with
      | some (IdIndex.Fun i) =>
          pushI (Instr.Call (i + ctx.rt_indexes.length))
      | some (IdIndex.Local i t) => do
          pushI (Instr.GetLocal i)
          match t with
          | N.Typ.Fn fargs fresult => do
              match typeIndexOf ctx
                (types_as_wasm fargs, option_as_wasm fresult) with
              | some ty_index => pushI (Instr.CallIndirect ty_index 0)
              | none => StateT.lift (throw "function type was not indexed")
          | _ => StateT.lift (throw "identifier is not function-typed")
      | some _ =>
          StateT.lift (throw "cannot translate Func ID for function")
      | none => StateT.lift (throw "expected Func ID")
  | N.Expr.AnyMethodCall any method_lit args typs _ =>
      translate_any_method ctx fuel any method_lit args typs true
  | N.Expr.ClosureCall f args _ => do
      let t ← get_id ctx f
      let t ← match t with
        | some t => pure t
        | none => StateT.lift (throw "unwrap of get_id")
      rt_call ctx "closure_env"
      let key ← match t with
        | N.Typ.Closure cargs cresult =>
            pure (types_as_wasm cargs, option_as_wasm cresult)
        | _ => StateT.lift (throw "identifier is not function-typed")
      let ty_index ← match typeIndexOf ctx key with
        | some i => pure i
        | none => StateT.lift (throw "function type was not indexed")
      args.forM (fun arg => do
        let _ ← get_id ctx arg
        pure ())
      let _ ← get_id ctx f
      rt_call ctx "closure_func"
      pushI (Instr.CallIndirect ty_index 0)
  | N.Expr.NewRef a ty _ => do
      translate_atom ctx fuel a
      match ty with
      | N.Typ.I32 => rt_call ctx "ref_new_non_ptr_32"
      | N.Typ.Bool => rt_call ctx "ref_new_non_ptr_32"
      | N.Typ.Fn _ _ => rt_call ctx "ref_new_non_ptr_32"
      | N.Typ.F64 => rt_call ctx "ref_new_f64"
      | N.Typ.Ref _ =>
          StateT.lift
            (throw "while recursive refs can be made, they should not")
      | N.Typ.Any => rt_call ctx "ref_new_any"
      | _ => rt_call ctx "ref_new_ptr"
  | N.Expr.Closure id env _ => do
      pushI (Instr.I32Const (Int.ofNat env.length))
      notwasm_rt_call ctx "jnks_new_fn_obj"
      rt_call ctx "env_alloc"
      translate_closure_items ctx fuel 0 env
      let _ ← get_id ctx id
      rt_call ctx "closure_new"
termination_by (fuel, sizeOf expr, 0)

/-- The environment-initialization loop of the `Closure` case. -/
def translate_closure_items (ctx : TrCtx) (fuel : Nat) (i : Nat)
    (items : List (N.Atom × N.Typ)) : TrM Unit :=
  match items with
  | [] => pure ()
  | (a, ty) :: rest => do
      pushI (Instr.I32Const (Int.ofNat i))
      translate_atom ctx fuel a
      to_any ctx ty
      rt_call ctx "env_init_at"
      translate_closure_items ctx fuel (i + 1) rest
termination_by (fuel, sizeOf items, 0)

/-- Atom emission (`Translate::translate_atom`). -/
def translate_atom (ctx : TrCtx) (fuel : Nat) (atom : N.Atom) : TrM Unit :=
  match atom with
  | N.Atom.Deref a ty _ => do
      translate_atom ctx fuel a
      load ty TAG_SIZE
  | N.Atom.Lit lit _ =>
      match lit with
      | N.Lit.I32 i => pushI (Instr.I32Const i)
      | N.Lit.F64 bits => pushI (Instr.F64Const bits)
      | N.Lit.Interned _ addr => do
          pushI (Instr.GetGlobal JNKS_STRINGS_IDX)
          pushI (Instr.I32Const (Int.ofNat addr))
          pushI Instr.I32Add
      | N.Lit.String _ => StateT.lift (throw "uninterned string")
      | N.Lit.Bool b => pushI (Instr.I32Const (if b then 1 else 0))
      | N.Lit.Undefined => rt_call ctx "get_undefined"
      | N.Lit.Null => rt_call ctx "get_null"
  | N.Atom.Id id _ => do
      let _ ← get_id ctx id
      pure ()
  | N.Atom.PrimApp id args _ => do
      translate_atom_list ctx fuel args
      rt_call ctx (intoName id)
  | N.Atom.GetPrimFunc id _ => do
      match rtIndexOf ctx (intoName id) with
      | some i => pushI (Instr.I32Const (Int.ofNat i))
      | none => StateT.lift (throw "cannot find rt function index")
  | N.Atom.ToAny a ty _ => do
      translate_atom ctx fuel a
      match ty with
      | some ty => to_any ctx ty
      | none => StateT.lift (throw "ToAny without a type annotation")
  | N.Atom.FromAny a ty _ => do
      translate_atom ctx fuel a
      from_any ctx ty
  | N.Atom.FloatToInt a _ => do
      translate_atom ctx fuel a
      pushI Instr.I32TruncSF64
  | N.Atom.IntToFloat a _ => do
      translate_atom ctx fuel a
      pushI Instr.F64ConvertSI32
  | N.Atom.ObjectGet obj field _ => do
      translate_atom ctx fuel obj
      translate_atom ctx fuel field
      data_cache
      rt_call ctx "object_get"
  | N.Atom.AnyLength any method_lit _ => do
      let possible_typs :=
        [N.Typ.Fn [N.Typ.String] (some N.Typ.I32),
         N.Typ.Fn [N.Typ.Array] (some N.Typ.I32)]
      translate_any_method ctx fuel any method_lit [any] possible_typs false
  | N.Atom.Binary op a b _ => do
      translate_atom ctx fuel a
      translate_atom ctx fuel b
      translate_binop op
  | N.Atom.Unary op a _ => do
      if op == N.UnaryOp.I32Neg then pushI (Instr.I32Const 0) else pure ()
      translate_atom ctx fuel a
      translate_unop op
  | N.Atom.EnvGet index ty _ => do
      pushI (Instr.GetLocal 0)
      let offset := TAG_SIZE + LENGTH_SIZE + FN_OBJ_SIZE + index * ANY_SIZE
      match ty with
      | N.Typ.Closure _ _ => do
          pushI (Instr.I64Load 2 offset)
          pushI (Instr.I64Const 16)
          pushI Instr.I64ShrU
      | _ =>
          if asWasm ty == ValueType.I64 then
            pushI (Instr.I64Load 2 offset)
          else
            pushI (Instr.I32Load 2 (offset + 4))
termination_by (fuel, sizeOf atom, 0)

/-- The atom-argument loop of `PrimApp`. -/
def translate_atom_list (ctx : TrCtx) (fuel : Nat) (args : List N.Atom) :
    TrM Unit :=
  match args with
  | [] => pure ()
  | a :: rest => do
      translate_atom ctx fuel a
      translate_atom_list ctx fuel rest
termination_by (fuel, sizeOf args, 0)

/-- Polymorphic method dispatch on an `Any`
(`Translate::translate_any_method`): nested blocks with a `BrTable` on
the low byte of the discriminant, a reserved `i64` local for the result,
and a second dispatch on the heap tag in the pointer arm. -/
def translate_any_method (ctx : TrCtx) (fuel : Nat) (any : Id)
    (method_lit : N.Lit) (args : List Id) (typs : List N.Typ)
    (do_call : Bool) : TrM Unit := do
  let method ← match method_lit with
    | N.Lit.Interned m _ => pure m
    | _ => StateT.lift (throw "method field should be interned string")
  let index ← allocLocal ValueType.I64
  pushI (Instr.Block BlockType.NoResult)
  pushI (Instr.Block BlockType.NoResult)
  pushI (Instr.Block BlockType.NoResult)
  pushI (Instr.Block BlockType.NoResult)
  pushI (Instr.Block BlockType.NoResult)
  pushI (Instr.Block BlockType.NoResult)
  let _ ← get_id ctx any
  pushI Instr.I32WrapI64
  pushI (Instr.I32Const 255)
  pushI Instr.I32And
  pushI (Instr.BrTable [0, 1, 2, 3, 4] 0)
  pushI Instr.End
  pushI (Instr.I64Const 0)
  pushI (Instr.SetLocal index)
  pushI (Instr.Br 4)
  pushI Instr.End
  pushI (Instr.I64Const 1)
  pushI (Instr.SetLocal index)
  pushI (Instr.Br 3)
  pushI Instr.End
  pushI (Instr.I64Const 2)
  pushI (Instr.SetLocal index)
  pushI (Instr.Br 2)
  pushI Instr.End
  translate_pointer_method ctx fuel any method_lit args typs method index
    do_call
  pushI Instr.End
  pushI (Instr.I64Const 4)
  pushI (Instr.SetLocal index)
  pushI Instr.End
  pushI (Instr.GetLocal index)
termination_by (fuel, 0, 3)

/-- The pointer arm of the dispatcher
(`Translate::translate_pointer_method`): extract the pointer, load the
heap tag byte at offset 1, and dispatch again. -/
def translate_pointer_method (ctx : TrCtx) (fuel : Nat) (any : Id)
    (method_lit : N.Lit) (args : List Id) (typs : List N.Typ)
    (method : String) (index : Nat) (do_call : Bool) : TrM Unit := do
  pushI (Instr.Block BlockType.NoResult)
  pushI (Instr.Block BlockType.NoResult)
  pushI (Instr.Block BlockType.NoResult)
  pushI (Instr.Block BlockType.NoResult)
  let _ ← get_id ctx any
  pushI (Instr.I64Const 32)
  pushI Instr.I64ShrU
  pushI Instr.I32WrapI64
  pushI (Instr.I32Load8U 0 1)
  pushI (Instr.BrTable [0, 1, 2, 3] 0)
  pushI Instr.End
  typed_call ctx typs args method index N.Typ.Array
  pushI (Instr.Br 4)
  pushI Instr.End
  typed_call ctx typs args method index N.Typ.String
  pushI (Instr.Br 3)
  pushI Instr.End
  pushI (Instr.Br 2)
  pushI Instr.End
  translate_object_method ctx fuel any method_lit args do_call
  pushI (Instr.SetLocal index)
  pushI (Instr.Br 1)
termination_by (fuel, 0, 2)

/-- The object arm of the dispatcher
(`Translate::translate_object_method`): materialize the method via
`ObjectGet`, unbox it to the closure type, and perform a `ClosureCall`
through the reserved `%mfn` local — the source implements this by
recursively invoking the statement and expression translators on
synthesized IR, which is what consumes one unit of fuel. -/
def translate_object_method (ctx : TrCtx) (fuel : Nat) (any : Id)
    (method_lit : N.Lit) (args : List Id) (do_call : Bool) : TrM Unit :=
  match fuel with
  | 0 => StateT.lift (throw "out of fuel in translate_object_method")
  | Nat.succ fuel2 => do
      let closure_type := N.Typ.Closure
        (N.Typ.Env :: List.replicate args.length N.Typ.Any)
        (some N.Typ.Any)
      if do_call then do
        let cl_call_idx ← allocLocal ValueType.I64
        idEnvInsert (Id.Named "%mfn")
          (IdIndex.Local cl_call_idx closure_type)
      else pure ()
      let dot_atom := ANF.object_get_
        (ANF.from_any_ (ANF.get_id_ any ()) N.Typ.DynObject ())
        (N.Atom.Lit method_lit ()) ()
      if do_call then do
        let typed_dot := ANF.from_any_ dot_atom closure_type ()
        let dot_stmt :=
          N.Stmt.Assign (Id.Named "%mfn") (ANF.atom_ typed_dot ()) ()
        translate_rec ctx fuel2 { labels := [], result_type := none } false
          dot_stmt
        let call_expr := N.Expr.ClosureCall (Id.Named "%mfn") args ()
        translate_expr ctx fuel2 call_expr
      else
        translate_atom ctx fuel2 dot_atom
termination_by (fuel, 0, 1)

end

end TR

namespace TR

/-- The initial state of `translate_func`: empty output, the surrounding
identifier environment, and the parameters bound to local indices in
order (`translate_func` of the source, argument-binding loop). -/
def funcInitState (id_env0 : List (Id × IdIndex)) (data0 : List Nat)
    (func : N.Function) : TrState :=
  (func.params.zip func.fn_type.args).foldl
    (fun st pr =>
      { st with
        next_id := st.next_id + 1,
        id_env := (pr.1, IdIndex.Local st.next_id pr.2) :: st.id_env })
    { out := [], locals := [], next_id := 0, id_env := id_env0,
      data := data0 }

/-- The per-function environment of `translate_func`: no labels, and the
result type of the function. -/
def funcEnv (func : N.Function) : TEnv :=
  { labels := [], result_type := func.fn_type.result.map asWasm }

/-- The fuel handed to the body translation.  The only fuel-consuming
recursion is the object-method dispatcher translating its synthesized
statement, and the synthesized IR contains no further method dispatch, so
one unit always suffices. -/
def bodyFuel : Nat := 1

/-- Function emission (`translate_func` of the source): translate the
body, then place the shadow-stack prologue
(`I32Const(num_slots); Call gc_enter_fn`) before it and the epilogue
(`Call gc_exit_fn` for the implicit fall-through, then `End`) after it.
Returns the instruction list, the local declarations and the final data
segment. -/
def translate_func (ctx : TrCtx) (id_env0 : List (Id × IdIndex))
    (data0 : List Nat) (func : N.Function) :
    Except String (List Instr × List ValueType × List Nat) := do
  let st0 := funcInitState id_env0 data0 func
  let ((), st1) ← translate_rec ctx bodyFuel (funcEnv func) true func.body st0
  let prologue ←
    if ctx.opts.disable_gc = false then do
      let num_slots := st1.locals.length + func.params.length
      let enterIdx ← match rtIndexOf ctx "gc_enter_fn" with
        | some i => pure i
        | none => throw "no enter"
      pure [Instr.I32Const (Int.ofNat num_slots), Instr.Call enterIdx]
    else pure []
  let st2 ←
    if ctx.opts.disable_gc = false then do
      let ((), st2) ← rt_call ctx "gc_exit_fn" st1
      pure st2
    else pure st1
  pure (prologue ++ st2.out ++ [Instr.End], st2.locals, st2.data)

end TR

/-- C6: with GC enabled, every emitted function starts with
`I32Const(num_slots); Call gc_enter_fn` where `num_slots` is the number
of parameters plus the number of locals; the implicit fall-through path
at the end of the body is followed by a `Call gc_exit_fn` before the
final `End`; and each `Return` statement is emitted as the call to
`gc_exit_fn`, then the return atom, then `Return`. -/
theorem C6_gc_prologue_epilogue :
    (∀ (ctx : TR.TrCtx) (id_env0 : List (Id × TR.IdIndex))
       (data0 : List Nat) (func : N.Function) (st1 : TR.TrState)
       (iEnter iExit : Nat),
       ctx.opts.disable_gc = false →
       TR.rtIndexOf ctx "gc_enter_fn" = some iEnter →
       TR.rtIndexOf ctx "gc_exit_fn" = some iExit →
       TR.translate_rec ctx TR.bodyFuel (TR.funcEnv func) true func.body
           (TR.funcInitState id_env0 data0 func) = Except.ok ((), st1) →
       TR.translate_func ctx id_env0 data0 func = Except.ok
         (TR.Instr.I32Const
             (Int.ofNat (st1.locals.length + func.params.length)) ::
           TR.Instr.Call iEnter ::
           (st1.out ++ [TR.Instr.Call iExit, TR.Instr.End]),
          st1.locals, st1.data)) ∧
    (∀ (ctx : TR.TrCtx) (fuel : Nat) (env : TR.TEnv) (tail : Bool)
       (a : N.Atom) (p : Pos) (st : TR.TrState),
       ctx.opts.disable_gc = false →
       TR.translate_rec ctx fuel env tail (N.Stmt.Return a p) st =
         (do
           TR.rt_call ctx "gc_exit_fn"
           TR.translate_atom ctx fuel a
           TR.pushI TR.Instr.Return) st) := by
  constructor
  · intro ctx id_env0 data0 func st1 iEnter iExit hgc henter hexit hbody
    simp only [TR.translate_func, hbody, hgc, henter, hexit, bind, pure,
      Except.bind, TR.rt_call, TR.pushI]
    simp [Except.pure]
  · intro ctx fuel env tail a p st hgc
    rw [TR.translate_rec]
    simp [hgc]

/-- Witness for C6: emitting the trivial function under a two-entry
runtime index map produces exactly the prologue, exit call and `End`. -/
theorem C6_gc_prologue_epilogue_witness :
    ({ opts := { disable_gc := false },
       rt_indexes := [("gc_enter_fn", 0), ("gc_exit_fn", 1)],
       type_indexes := [] } : TR.TrCtx).opts.disable_gc = false ∧
    TR.translate_func
      { opts := { disable_gc := false },
        rt_indexes := [("gc_enter_fn", 0), ("gc_exit_fn", 1)],
        type_indexes := [] }
      [] []
      { body := N.Stmt.Empty, params := [],
        fn_type := { args := [], result := none } } = Except.ok
      (TR.Instr.I32Const 0 :: TR.Instr.Call 0 ::
        ([] ++ [TR.Instr.Call 1, TR.Instr.End]), [], []) :=
  ⟨rfl,
   C6_gc_prologue_epilogue.1
     { opts := { disable_gc := false },
       rt_indexes := [("gc_enter_fn", 0), ("gc_exit_fn", 1)],
       type_indexes := [] }
     [] []
     { body := N.Stmt.Empty, params := [],
       fn_type := { args := [], result := none } }
     { out := [], locals := [], next_id := 0, id_env := [], data := [] }
     0 1 rfl rfl rfl
     (by rw [TR.translate_rec]; rfl)⟩

/-- C7 counterexample: boxing an `F64` into `Any` does not call a
runtime import named `any_from_f64`: under an index map that offers only
`any_from_f64` the emitter panics looking for `f64_to_any`, under one
that offers `f64_to_any` it calls that import, and `any_from_f64` is not
among the manually inserted runtime bindings. -/
theorem C7_to_any_f64_counterexample :
    TR.to_any
      { opts := { disable_gc := false },
        rt_indexes := [("any_from_f64", 0)], type_indexes := [] }
      N.Typ.F64
      { out := [], locals := [], next_id := 0, id_env := [], data := [] } =
      Except.error "cannot find rt f64_to_any" ∧
    TR.to_any
      { opts := { disable_gc := false },
        rt_indexes := [("f64_to_any", 7)], type_indexes := [] }
      N.Typ.F64
      { out := [], locals := [], next_id := 0, id_env := [], data := [] } =
      Except.ok ((),
        { out := [TR.Instr.Call 7], locals := [], next_id := 0,
          id_env := [], data := [] }) ∧
    TR.hasKey TR.get_rt_bindings_manual "any_from_f64" = false := by
  refine ⟨rfl, rfl, by decide⟩

/-- C7 (amended): the emitter boxes `I32`, `Bool`, `Fn`, `Closure` and
`Ptr` values into `Any` by calling the runtime imports `any_from_i32`,
`any_from_bool`, `any_from_fn`, `any_from_closure` and `any_from_ptr`
respectively, but boxes `F64` by calling `f64_to_any`; the names
`any_from_i32`, `any_from_bool`, `any_from_fn`, `any_from_ptr` and
`f64_to_any` are all present in the runtime bindings map (whatever the
`RTSFunction`-derived extension adds). -/
theorem C7_to_any_runtime_names :
    (∀ (ctx : TR.TrCtx) (st : TR.TrState) (i : Nat),
       TR.rtIndexOf ctx "any_from_i32" = some i →
       TR.to_any ctx N.Typ.I32 st =
         Except.ok ((), { st with out := st.out ++ [TR.Instr.Call i] })) ∧
    (∀ (ctx : TR.TrCtx) (st : TR.TrState) (i : Nat),
       TR.rtIndexOf ctx "any_from_bool" = some i →
       TR.to_any ctx N.Typ.Bool st =
         Except.ok ((), { st with out := st.out ++ [TR.Instr.Call i] })) ∧
    (∀ (ctx : TR.TrCtx) (st : TR.TrState) (i : Nat)
       (args : List N.Typ) (res : Option N.Typ),
       TR.rtIndexOf ctx "any_from_fn" = some i →
       TR.to_any ctx (N.Typ.Fn args res) st =
         Except.ok ((), { st with out := st.out ++ [TR.Instr.Call i] })) ∧
    (∀ (ctx : TR.TrCtx) (st : TR.TrState) (i : Nat)
       (args : List N.Typ) (res : Option N.Typ),
       TR.rtIndexOf ctx "any_from_closure" = some i →
       TR.to_any ctx (N.Typ.Closure args res) st =
         Except.ok ((), { st with out := st.out ++ [TR.Instr.Call i] })) ∧
    (∀ (ctx : TR.TrCtx) (st : TR.TrState) (i : Nat),
       TR.rtIndexOf ctx "any_from_ptr" = some i →
       TR.to_any ctx N.Typ.Ptr st =
         Except.ok ((), { st with out := st.out ++ [TR.Instr.Call i] })) ∧
    (∀ (ctx : TR.TrCtx) (st : TR.TrState) (i : Nat),
       TR.rtIndexOf ctx "f64_to_any" = some i →
       TR.to_any ctx N.Typ.F64 st =
         Except.ok ((), { st with out := st.out ++ [TR.Instr.Call i] })) ∧
    (∀ (rtsExtra : List (String × N.Typ)),
       TR.hasKey (TR.get_rt_bindings rtsExtra) "any_from_i32" = true ∧
       TR.hasKey (TR.get_rt_bindings rtsExtra) "any_from_bool" = true ∧
       TR.hasKey (TR.get_rt_bindings rtsExtra) "any_from_fn" = true ∧
       TR.hasKey (TR.get_rt_bindings rtsExtra) "any_from_ptr" = true ∧
       TR.hasKey (TR.get_rt_bindings rtsExtra) "f64_to_any" = true) := by
  have hcall : ∀ (ctx : TR.TrCtx) (st : TR.TrState) (i : Nat)
      (name : String), TR.rtIndexOf ctx name = some i →
      TR.rt_call ctx name st =
        Except.ok ((), { st with out := st.out ++ [TR.Instr.Call i] }) := by
    intro ctx st i name h
    simp [TR.rt_call, h, TR.pushI]
  have hmem : ∀ (rtsExtra : List (String × N.Typ)) (name : String),
      TR.hasKey TR.get_rt_bindings_manual name = true →
      TR.hasKey (TR.get_rt_bindings rtsExtra) name = true := by
    intro rtsExtra name h
    simp only [TR.hasKey, TR.get_rt_bindings, List.any_append,
      Bool.or_eq_true]
    exact Or.inl h
  refine ⟨fun ctx st i h => hcall ctx st i _ h,
          fun ctx st i h => hcall ctx st i _ h,
          fun ctx st i args res h => hcall ctx st i _ h,
          fun ctx st i args res h => hcall ctx st i _ h,
          fun ctx st i h => hcall ctx st i _ h,
          fun ctx st i h => hcall ctx st i _ h,
          fun rtsExtra => ⟨hmem rtsExtra _ (by decide),
            hmem rtsExtra _ (by decide), hmem rtsExtra _ (by decide),
            hmem rtsExtra _ (by decide), hmem rtsExtra _ (by decide)⟩⟩

/-- Witness for C7: boxing an `I32` under a concrete index map calls the
index bound to `any_from_i32`. -/
theorem C7_to_any_runtime_names_witness :
    TR.rtIndexOf
      { opts := { disable_gc := false },
        rt_indexes := [("any_from_i32", 3)], type_indexes := [] }
      "any_from_i32" = some 3 ∧
    TR.to_any
      { opts := { disable_gc := false },
        rt_indexes := [("any_from_i32", 3)], type_indexes := [] }
      N.Typ.I32
      { out := [], locals := [], next_id := 0, id_env := [], data := [] } =
      Except.ok ((),
        { out := [] ++ [TR.Instr.Call 3], locals := [], next_id := 0,
          id_env := [], data := [] }) :=
  ⟨rfl,
   C7_to_any_runtime_names.1
     { opts := { disable_gc := false },
       rt_indexes := [("any_from_i32", 3)], type_indexes := [] }
     { out := [], locals := [], next_id := 0, id_env := [], data := [] }
     3 rfl⟩

namespace TC

/-- The error kinds of `notwasm/type_checking.rs`. -/
inductive TypeCheckingError where
  | NoSuchVariable (id : Id) (p : Pos)
  | TypeMismatch (msg : String) (expected : N.Typ) (got : N.Typ) (p : Pos)
  | ExpectedFunction (id : Id) (got : N.Typ) (p : Pos)
  | ExpectedHT (msg : String) (got : N.Typ) (p : Pos)
  | ExpectedArray (msg : String) (got : N.Typ) (p : Pos)
  | ExpectedRef (msg : String) (got : N.Typ) (p : Pos)
  | UnexpectedReturn (got : N.Typ) (p : Pos)
  | ArityMismatch (id : Id) (expected : Nat) (got : Nat) (p : Pos)
  | MultiplyDefined (id : Id) (p : Pos)
  | InvalidInContext (msg : String) (ty : N.Typ) (p : Pos)
  | Other (msg : String) (p : Pos)

abbrev TCResult (α : Type) : Type := Except TypeCheckingError α

/-- The checking environment (struct `Env` of the source): the typing
environment plus the import signatures. -/
structure Env where
  env : List (Id × N.Typ)
  imports : List (Id × N.Typ)

/-- Association-list read with latest-insertion priority (the hash map
`get`). -/
def assocGet (m : List (Id × N.Typ)) (id : Id) : Option N.Typ :=
  (m.find? (fun kv => kv.1 == id)).map (fun kv => kv.2)

def Env.get (e : Env) (id : Id) : Option N.Typ := assocGet e.env id

/-- `Env::insert`: returns the previously bound type, like
`HashMap::insert`. -/
def Env.insert (e : Env) (id : Id) (ty : N.Typ) : Option N.Typ × Env :=
  (assocGet e.env id, { e with env := (id, ty) :: e.env })

/-- `Env::update`: functional insert. -/
def Env.update (e : Env) (id : Id) (ty : N.Typ) : Env :=
  { e with env := (id, ty) :: e.env }

/-- `Env::new`: the initial environment holds the runtime bindings (both
as bindings and as imports).  The `RTSFunction`-derived extension of the
bindings map is a parameter, as in `TR.get_rt_bindings`. -/
def Env.new (rtsExtra : List (String × N.Typ)) : Env :=
  let env := (TR.get_rt_bindings rtsExtra).map
    (fun kv => (Id.Named kv.1, kv.2))
  { env := env, imports := env }

def lookup (env : Env) (id : Id) (s : Pos) : TCResult N.Typ :=
  match env.get id with
  | some ty => pure ty
  | none => throw (TypeCheckingError.NoSuchVariable id s)

def ensure (msg : String) (expected : N.Typ) (got : N.Typ) (s : Pos) :
    TCResult N.Typ :=
  if N.Typ.beq expected got then pure got
  else throw (TypeCheckingError.TypeMismatch msg expected got s)

def ensure_ref (msg : String) (got : N.Typ) (s : Pos) : TCResult N.Typ :=
  match got with
  | N.Typ.Ref ty => pure ty
  | _ => throw (TypeCheckingError.ExpectedRef msg got s)

def invalid_in_context {α : Type} (msg : String) (ty : N.Typ) (s : Pos) :
    TCResult α :=
  throw (TypeCheckingError.InvalidInContext msg ty s)

/-- `assert_variant_of_any`: which operand types may be stored in an
`Any`.  `Any`, `Ref` and `Env` are invalid in context; a bare `Fn` whose
first parameter is not `Env` is rejected with a generic error. -/
def assert_variant_of_any (ty : N.Typ) (s : Pos) : TCResult Unit :=
  match ty with
  | N.Typ.Any => invalid_in_context "cannot be stored in an Any" ty s
  | N.Typ.I32 => pure ()
  | N.Typ.F64 => pure ()
  | N.Typ.Bool => pure ()
  | N.Typ.String => pure ()
  | N.Typ.Fn args _ =>
      match args.head? with
      | some N.Typ.Env => pure ()
      | _ =>
          throw (TypeCheckingError.Other
            "function must accept dummy environment to be any-ified" s)
  | N.Typ.Closure _ _ => pure ()
  | N.Typ.HT => pure ()
  | N.Typ.Array => pure ()
  | N.Typ.DynObject => pure ()
  | N.Typ.Ref _ => invalid_in_context "ref should not be stored in Any" ty s
  | N.Typ.Env => invalid_in_context "environments are not values" ty s
  | N.Typ.Ptr => pure ()

/-- The literal typing of the checker (`Lit::notwasm_typ`, in
`notwasm/syntax.rs`, not under `src/`; modelled from the spec value
representation: interned and raw strings are strings, and the
`undefined`/`null` constants are `Any`). -/
def litTyp : N.Lit → N.Typ
  | N.Lit.I32 _ => N.Typ.I32
  | N.Lit.F64 _ => N.Typ.F64
  | N.Lit.String _ => N.Typ.String
  | N.Lit.Interned _ _ => N.Typ.String
  | N.Lit.Bool _ => N.Typ.Bool
  | N.Lit.Undefined => N.Typ.Any
  | N.Lit.Null => N.Typ.Any

/-- Operand/result types of the binary operators
(`BinaryOp::notwasm_typ`, in `notwasm/syntax.rs`, not under `src/`;
modelled from the wasm instructions each operator maps to). -/
def binopTyp : N.BinaryOp → N.Typ × N.Typ
  | N.BinaryOp.PtrEq => (N.Typ.Any, N.Typ.Bool)
  | N.BinaryOp.I32Eq => (N.Typ.I32, N.Typ.Bool)
  | N.BinaryOp.I32Ne => (N.Typ.I32, N.Typ.Bool)
  | N.BinaryOp.I32GT => (N.Typ.I32, N.Typ.Bool)
  | N.BinaryOp.I32LT => (N.Typ.I32, N.Typ.Bool)
  | N.BinaryOp.I32Ge => (N.Typ.I32, N.Typ.Bool)
  | N.BinaryOp.I32Le => (N.Typ.I32, N.Typ.Bool)
  | N.BinaryOp.F64LT => (N.Typ.F64, N.Typ.Bool)
  | N.BinaryOp.F64GT => (N.Typ.F64, N.Typ.Bool)
  | N.BinaryOp.F64Le => (N.Typ.F64, N.Typ.Bool)
  | N.BinaryOp.F64Ge => (N.Typ.F64, N.Typ.Bool)
  | N.BinaryOp.F64Eq => (N.Typ.F64, N.Typ.Bool)
  | N.BinaryOp.F64Ne => (N.Typ.F64, N.Typ.Bool)
  | N.BinaryOp.F64Add => (N.Typ.F64, N.Typ.F64)
  | N.BinaryOp.F64Sub => (N.Typ.F64, N.Typ.F64)
  | N.BinaryOp.F64Mul => (N.Typ.F64, N.Typ.F64)
  | N.BinaryOp.F64Div => (N.Typ.F64, N.Typ.F64)
  | _ => (N.Typ.I32, N.Typ.I32)

/-- Operand/result types of the unary operators
(`UnaryOp::notwasm_typ`, modelled like `binopTyp`). -/
def unopTyp : N.UnaryOp → N.Typ × N.Typ
  | N.UnaryOp.Sqrt => (N.Typ.F64, N.Typ.F64)
  | N.UnaryOp.F64Neg => (N.Typ.F64, N.Typ.F64)
  | N.UnaryOp.I32Neg => (N.Typ.I32, N.Typ.I32)
  | N.UnaryOp.I32Not => (N.Typ.I32, N.Typ.I32)
  | N.UnaryOp.Eqz => (N.Typ.I32, N.Typ.Bool)
  | N.UnaryOp.Nop => (N.Typ.Any, N.Typ.Any)

/-- The `janky_typ` of a runtime function (`rts_function.rs`, not under
`src/`; modelled from the spec: an any-typed signature, enough for the
non-import `PrimCall` branch no claim depends on). -/
def jankyTyp : N.RTSFunction → J.Typ
  | _ => J.Typ.Function [] J.Typ.Any

mutual

/-- The atom checker (`type_check_atom`): returns the type and the
updated atom (the source mutates atoms to fill the `ToAny` operand
annotation). -/
def type_check_atom (env : Env) (a : N.Atom) :
    TCResult (N.Typ × N.Atom) :=
  match a with
  | N.Atom.Deref a0 ty s => do
      let (got, a1) ← type_check_atom env a0
      let inner ← ensure_ref "deref atom" got s
      let t ← ensure "dereference" ty inner s
      pure (t, N.Atom.Deref a1 ty s)
  | N.Atom.Lit l s => pure (litTyp l, N.Atom.Lit l s)
  | N.Atom.PrimApp prim args s => do
      let ty ← lookup env prim s
      match ty.unwrap_fun with
      | none => throw (TypeCheckingError.Other "unwrap_fun" s)
      | some (expected_arg_ts, ret_t) => do
          let ret_t ← match ret_t with
            | some t => pure t
            | none =>
                throw (TypeCheckingError.Other
                  "primitive function that returns a value" s)
          let checked ← type_check_atom_list env args
          let arg_ts := checked.map Prod.fst
          if arg_ts.length != expected_arg_ts.length then
            throw (TypeCheckingError.Other "wrong number of arguments" s)
          else if (arg_ts.zip expected_arg_ts).any
              (fun pr => !(N.Typ.beq pr.1 pr.2)) then
            throw (TypeCheckingError.Other
              "primitive applied to wrong argument type" s)
          else
            pure (ret_t, N.Atom.PrimApp prim (checked.map Prod.snd) s)
  | N.Atom.ToAny a0 _ s => do
      let (ty, a1) ← type_check_atom env a0
      let _ ← assert_variant_of_any ty s
      pure (N.Typ.Any, N.Atom.ToAny a1 (some ty) s)
  | N.Atom.FromAny a0 ty s => do
      let (got, a1) ← type_check_atom env a0
      let _ ← ensure "from_any" N.Typ.Any got s
      pure (ty, N.Atom.FromAny a1 ty s)
  | N.Atom.FloatToInt a0 s => do
      let (got, a1) ← type_check_atom env a0
      let _ ← ensure "float to int" N.Typ.F64 got s
      pure (N.Typ.I32, N.Atom.FloatToInt a1 s)
  | N.Atom.IntToFloat a0 s => do
      let (got, a1) ← type_check_atom env a0
      let _ ← ensure "int to float" N.Typ.I32 got s
      pure (N.Typ.F64, N.Atom.IntToFloat a1 s)
  | N.Atom.Id id s => do
      let ty ← lookup env id s
      pure (ty, N.Atom.Id id s)
  | N.Atom.GetPrimFunc id s => do
      let ty ← lookup env id s
      pure (ty, N.Atom.GetPrimFunc id s)
  | N.Atom.ObjectGet a_obj a_field s => do
      let (got_obj, a1) ← type_check_atom env a_obj
      let (got_field, a2) ← type_check_atom env a_field
      let _ ← ensure "object get field" N.Typ.String got_field s
      let _ ← ensure "object field" N.Typ.DynObject got_obj s
      pure (N.Typ.Any, N.Atom.ObjectGet a1 a2 s)
  | N.Atom.AnyLength a_obj method s => do
      let got_obj ← lookup env a_obj s
      let _ ← ensure "object field" N.Typ.Any got_obj s
      pure (N.Typ.Any, N.Atom.AnyLength a_obj method s)
  | N.Atom.Unary op a0 s => do
      let (ty_in, ty_out) := unopTyp op
      let (got, a1) ← type_check_atom env a0
      let _ ← ensure "unary" ty_in got s
      pure (ty_out, N.Atom.Unary op a1 s)
  | N.Atom.Binary N.BinaryOp.PtrEq a_l a_r s => do
      let (got_l, a1) ← type_check_atom env a_l
      let (got_r, a2) ← type_check_atom env a_r
      let _ ← ensure "binary (===) lhs" got_l got_r s
      pure (N.Typ.Bool, N.Atom.Binary N.BinaryOp.PtrEq a1 a2 s)
  | N.Atom.Binary op a_l a_r s => do
      let (ty_in, ty_out) := binopTyp op
      let (got_l, a1) ← type_check_atom env a_l
      let (got_r, a2) ← type_check_atom env a_r
      let _ ← ensure "binary lhs" ty_in got_l s
      let _ ← ensure "binary rhs" ty_in got_r s
      pure (ty_out, N.Atom.Binary op a1 a2 s)
  | N.Atom.EnvGet i ty s => pure (ty, N.Atom.EnvGet i ty s)
termination_by sizeOf a

/-- The argument loop of `PrimApp`. -/
def type_check_atom_list (env : Env) (args : List N.Atom) :
    TCResult (List (N.Typ × N.Atom)) :=
  match args with
  | [] => pure []
  | a :: rest => do
      let r ← type_check_atom env a
      let rs ← type_check_atom_list env rest
      pure (r :: rs)
termination_by sizeOf args

end

end TC

namespace TC

/-- Call checking (`type_check_call`): arity, the implicit `Env` first
parameter of closures, argument/formal agreement, and the result type
(`Any` when the function returns nothing). -/
def type_check_call (env : Env) (id_f : Id) (actuals : List Id)
    (fargs : List N.Typ) (fresult : Option N.Typ) (implicit_arg : Bool)
    (s : Pos) : TCResult N.Typ := do
  let actuals_len := actuals.length + (if implicit_arg then 1 else 0)
  let expected_len := fargs.length
  if actuals_len != expected_len then
    throw (TypeCheckingError.ArityMismatch id_f actuals_len fargs.length s)
  else do
    let formals ←
      if implicit_arg then
        match fargs with
        | N.Typ.Env :: rest => pure rest
        | got :: _ =>
            throw (TypeCheckingError.TypeMismatch
              "closure must accept environment" N.Typ.Env got s)
        | [] => throw (TypeCheckingError.Other "unreachable" s)
      else pure fargs
    (actuals.zip formals).forM (fun pr => do
      let got ← lookup env pr.1 s
      let _ ← ensure "call (argument)" pr.2 got s
      pure ())
    pure (fresult.getD N.Typ.Any)

/-- The expression checker (`type_check_expr`), returning the type and
the updated expression. -/
def type_check_expr (env : Env) (e : N.Expr) : TCResult (N.Typ × N.Expr) :=
  match e with
  | N.Expr.ObjectEmpty => pure (N.Typ.DynObject, N.Expr.ObjectEmpty)
  | N.Expr.ArraySet a_arr a_idx a_val s => do
      let (got_arr, a1) ← type_check_atom env a_arr
      let (got_idx, a2) ← type_check_atom env a_idx
      let (got_val, a3) ← type_check_atom env a_val
      let _ ← ensure "array set (index)" N.Typ.I32 got_idx s
      -- the source drops the results of the next two checks (no `?`)
      let _ := ensure "array set (array)" N.Typ.Array got_arr s
      let _ := ensure "array set (value)" N.Typ.Any got_val s
      pure (N.Typ.Any, N.Expr.ArraySet a1 a2 a3 s)
  | N.Expr.ObjectSet a_obj a_field a_val s => do
      let (got_obj, a1) ← type_check_atom env a_obj
      let (got_field, a2) ← type_check_atom env a_field
      let (got_val, a3) ← type_check_atom env a_val
      let _ ← ensure "object set (obj)" N.Typ.DynObject got_obj s
      let _ ← ensure "object set (field)" N.Typ.String got_field s
      let _ ← ensure "object set (val)" N.Typ.Any got_val s
      pure (N.Typ.Any, N.Expr.ObjectSet a1 a2 a3 s)
  | N.Expr.PrimCall (N.RTSFunction.Import name) args s => do
      let ty ← match assocGet env.imports (Id.Named name) with
        | some ty => pure ty
        | none => throw (TypeCheckingError.Other "invalid primitive" s)
      match ty.unwrap_fun with
      | none => throw (TypeCheckingError.Other "unwrap_fun" s)
      | some (arg_tys, opt_ret_ty) => do
          let ret_ty ← match opt_ret_ty with
            | some t => pure t
            | none =>
                throw (TypeCheckingError.Other "invalid return type" s)
          if arg_tys.length != args.length then
            throw (TypeCheckingError.Other "wrong number of arguments" s)
          else do
            (arg_tys.zip args).forM (fun pr => do
              let got_ty ← lookup env pr.2 s
              if !(N.Typ.beq pr.1 got_ty) then
                throw (TypeCheckingError.Other "wrong type for argument" s)
              else pure ())
            pure (ret_ty,
              N.Expr.PrimCall (N.RTSFunction.Import name) args s)
  | N.Expr.PrimCall prim args s => do
      match ((jankyTyp prim).notwasm_typ false) with
      | N.Typ.Fn fargs fresult => do
          let arg_tys ← args.mapM (fun a => lookup env a s)
          if arg_tys.length != fargs.length then
            throw (TypeCheckingError.Other
              "primitive applied to wrong number of arguments" s)
          else if (arg_tys.zip fargs).any
              (fun pr => !(N.Typ.beq pr.1 pr.2)) then
            throw (TypeCheckingError.Other
              "primitive applied to wrong argument type" s)
          else
            pure ((fresult.getD N.Typ.Any), N.Expr.PrimCall prim args s)
      | _ =>
          throw (TypeCheckingError.Other "primitive is not a function" s)
  | N.Expr.Call id_f actuals s => do
      let got_f ← lookup env id_f s
      match got_f with
      | N.Typ.Fn fargs fresult => do
          let t ← type_check_call env id_f actuals fargs fresult false s
          pure (t, N.Expr.Call id_f actuals s)
      | _ =>
          throw (TypeCheckingError.ExpectedFunction id_f got_f s)
  | N.Expr.AnyMethodCall obj method actuals typs s => do
      let got ← lookup env obj s
      let _ ← ensure "AnyMethodCall" N.Typ.Any got s
      actuals.forM (fun a => do
        let got ← lookup env a s
        let _ ← ensure "method arg" N.Typ.Any got s
        pure ())
      pure (N.Typ.Any, N.Expr.AnyMethodCall obj method actuals typs s)
  | N.Expr.ClosureCall id_f actuals s => do
      let got_f ← lookup env id_f s
      match got_f with
      | N.Typ.Closure fargs fresult => do
          let t ← type_check_call env id_f actuals fargs fresult true s
          pure (t, N.Expr.ClosureCall id_f actuals s)
      | _ =>
          throw (TypeCheckingError.ExpectedFunction id_f got_f s)
  | N.Expr.NewRef a ty s => do
      let (actual, a1) ← type_check_atom env a
      let _ ← ensure "new ref" ty actual s
      pure (N.Typ.Ref ty, N.Expr.NewRef a1 ty s)
  | N.Expr.Atom a s => do
      let (t, a1) ← type_check_atom env a
      pure (t, N.Expr.Atom a1 s)
  | N.Expr.Closure id envItems s => do
      match lookup env id s with
      | Except.ok (N.Typ.Fn fargs fresult) =>
          pure (N.Typ.Closure fargs fresult, N.Expr.Closure id envItems s)
      | Except.ok got =>
          throw (TypeCheckingError.ExpectedFunction id got s)
      | Except.error e => throw e

/-- The undefined-initializer test of the `Var` case. -/
def isVarInitUndefined (named : N.Expr) (ty : Option N.Typ) : Bool :=
  (match named with
   | N.Expr.Atom (N.Atom.Lit N.Lit.Undefined _) _ => true
   | _ => false) &&
  ty.isSome

mutual

/-- The statement checker (`type_check_stmt`), returning the environment
for the following statement and the updated statement. -/
def type_check_stmt (env : Env) (s : N.Stmt) (ret_ty : Option N.Typ) :
    TCResult (Env × N.Stmt) :=
  match s with
  | N.Stmt.Empty => pure (env, N.Stmt.Empty)
  | N.Stmt.Var x named ty p => do
      let (tyE, named1) ← type_check_expr env named
      let newTy ←
        if isVarInitUndefined named ty then
          -- an initialization undefined: the annotation stays
          pure ty
        else
          -- assert!(ty.is_none() || ty == Some(got)); then set_ty
          if (match ty with
              | none => true
              | some t => N.Typ.beq t tyE) then
            pure (some tyE)
          else
            throw (TypeCheckingError.Other
              "assertion failed: annotation disagrees with checked type" p)
      if x == Id.Named "_" then
        pure (env, N.Stmt.Var x named1 newTy p)
      else
        match newTy with
        | some t => pure (env.update x t, N.Stmt.Var x named1 newTy p)
        | none =>
            throw (TypeCheckingError.Other "unwrap of var type" p)
  | N.Stmt.Expression e p => do
      let (_, e1) ← type_check_expr env e
      pure (env, N.Stmt.Expression e1 p)
  | N.Stmt.Store id e p => do
      let got_id ← lookup env id p
      let (got_expr, e1) ← type_check_expr env e
      let type_pointed_to ← ensure_ref "ref type" got_id p
      let _ ← ensure "ref store" type_pointed_to got_expr p
      pure (env, N.Stmt.Store id e1 p)
  | N.Stmt.Assign id e p => do
      let got_id ← lookup env id p
      let (got_expr, e1) ← type_check_expr env e
      let _ ← ensure "assign" got_id got_expr p
      pure (env, N.Stmt.Assign id e1 p)
  | N.Stmt.If a_cond s_then s_else p => do
      let (got, a1) ← type_check_atom env a_cond
      let _ ← ensure "if (conditional)" N.Typ.Bool got p
      let (_, s1) ← type_check_stmt env s_then ret_ty
      let (_, s2) ← type_check_stmt env s_else ret_ty
      pure (env, N.Stmt.If a1 s1 s2 p)
  | N.Stmt.Loop s_body p => do
      let (_, s1) ← type_check_stmt env s_body ret_ty
      pure (env, N.Stmt.Loop s1 p)
  | N.Stmt.Label lbl s_body p => do
      let (_, s1) ← type_check_stmt env s_body ret_ty
      pure (env, N.Stmt.Label lbl s1 p)
  | N.Stmt.Break lbl p => pure (env, N.Stmt.Break lbl p)
  | N.Stmt.Return a p => do
      let (got, a1) ← type_check_atom env a
      match ret_ty with
      | none => throw (TypeCheckingError.UnexpectedReturn got p)
      | some ret_ty => do
          let _ ← ensure "return" ret_ty got p
          pure (env, N.Stmt.Return a1 p)
  | N.Stmt.Block ss p => do
      let ss1 ← type_check_stmt_list env ss ret_ty
      pure (env, N.Stmt.Block ss1 p)
  | N.Stmt.Trap => pure (env, N.Stmt.Trap)
  | N.Stmt.Goto _ _ =>
      throw (TypeCheckingError.Other "unimplemented" ())
termination_by sizeOf s

/-- The statement loop of a block: each statement checks under the
environment its predecessors produced. -/
def type_check_stmt_list (env : Env) (ss : List N.Stmt)
    (ret_ty : Option N.Typ) : TCResult (List N.Stmt) :=
  match ss with
  | [] => pure []
  | s :: rest => do
      let (env1, s1) ← type_check_stmt env s ret_ty
      let rest1 ← type_check_stmt_list env1 rest ret_ty
      pure (s1 :: rest1)
termination_by sizeOf ss

end

/-- The function checker (`type_check_function`). -/
def type_check_function (env : Env) (id : Id) (f : N.Function) :
    TCResult N.Function := do
  if f.fn_type.args.length != f.params.length then
    throw (TypeCheckingError.ArityMismatch id f.params.length
      f.fn_type.args.length ())
  else do
    let env := (f.params.zip f.fn_type.args).foldl
      (fun e pr => (e.insert pr.1 pr.2).2) env
    let _ ← type_check_stmt env f.body f.fn_type.result
    pure f

/-- The program checker (`type_check`): builds the top-level environment
from the runtime bindings, the program imports, the functions and the
globals (with duplicate detection), then checks each function.  The
`RTSFunction` extension of the bindings is the `rtsExtra` parameter. -/
def type_check (rtsExtra : List (String × N.Typ)) (p : N.Program) :
    TCResult N.Program := do
  let env0 := Env.new rtsExtra
  let env1 := p.rts_fn_imports.foldl
    (fun (e : Env) kv =>
      { env := (Id.Named kv.1, kv.2) :: e.env,
        imports := (Id.Named kv.1, kv.2) :: e.imports })
    env0
  let env2 ← p.functions.foldlM
    (fun (e : Env) kv => do
      let (old, e2) := e.insert kv.1 kv.2.fn_type.to_type
      if old.isSome then
        throw (TypeCheckingError.MultiplyDefined kv.1 ())
      else
        pure e2)
    env1
  let (env3, globals1) ← p.globals.foldlM
    (fun (acc : Env × List (Id × N.Global)) kv => do
      let (e, gs) := acc
      let (g1 : N.Global) ←
        match kv.2.atom with
        | some atom => do
            let (got, atom1) ← type_check_atom e atom
            let _ ← ensure "global var type" kv.2.ty got ()
            pure { kv.2 with atom := some atom1 }
        | none => pure kv.2
      let (old, e2) := e.insert kv.1 kv.2.ty
      if old.isSome then
        throw (TypeCheckingError.MultiplyDefined kv.1 ())
      else
        pure (e2, gs ++ [(kv.1, g1)]))
    (env2, [])
  let functions1 ← p.functions.mapM
    (fun kv => do
      let f1 ← type_check_function env3 kv.1 kv.2
      pure (kv.1, f1))
  pure { p with globals := globals1, functions := functions1 }

end TC

namespace TC

/-- The set of operand types the claim says `ToAny` rejects:
`Any`, `Ref(_)` and `Env`. -/
def claimForbiddenToAny : N.Typ → Bool
  | N.Typ.Any => true
  | N.Typ.Ref _ => true
  | N.Typ.Env => true
  | _ => false

/-- A bare function type whose first parameter is not `Env` (the extra
case the checker rejects beyond the claim). -/
def fnWithoutLeadingEnv : N.Typ → Bool
  | N.Typ.Fn args _ =>
      match args.head? with
      | some N.Typ.Env => false
      | _ => true
  | _ => false

/-- Whether a check result is an `InvalidInContext` rejection. -/
def isInvalidInContextResult : TCResult Unit → Bool
  | Except.error (TypeCheckingError.InvalidInContext _ _ _) => true
  | _ => false

end TC

/-- C9 counterexample: the claim says a `ToAny` whose operand type is not
`Any`, `Ref` or `Env` is accepted, but an operand of bare function type
`Fn([], none)` is rejected (with a generic error, not an
invalid-in-context one): shown both on `assert_variant_of_any` and on
`type_check_atom` with an identifier operand of that type. -/
theorem C9_toany_fn_counterexample :
    TC.claimForbiddenToAny (N.Typ.Fn [] none) = false ∧
    TC.assert_variant_of_any (N.Typ.Fn [] none) () =
      Except.error (TC.TypeCheckingError.Other
        "function must accept dummy environment to be any-ified" ()) ∧
    TC.type_check_atom
      { env := [(Id.Named "f", N.Typ.Fn [] none)], imports := [] }
      (N.Atom.ToAny (N.Atom.Id (Id.Named "f") ()) none ()) =
      Except.error (TC.TypeCheckingError.Other
        "function must accept dummy environment to be any-ified" ()) := by
  refine ⟨rfl, rfl, ?_⟩
  simp [TC.type_check_atom, TC.lookup, TC.Env.get, TC.assocGet,
    TC.assert_variant_of_any]
  rfl

/-- C9 (amended): the checker rejects a `ToAny` atom with an
invalid-in-context error exactly when its operand type is `Any`, `Ref(_)`
or `Env`; it accepts every other operand type except a bare `Fn` type
whose first parameter is not `Env`, which it rejects with a generic
error.  On an identifier operand, `type_check_atom` performs exactly this
check and fills the operand type annotation. -/
theorem C9_toany_check :
    (∀ (ty : N.Typ) (s : Pos),
       TC.isInvalidInContextResult (TC.assert_variant_of_any ty s) = true ↔
         TC.claimForbiddenToAny ty = true) ∧
    (∀ (ty : N.Typ) (s : Pos),
       TC.assert_variant_of_any ty s = Except.ok () ↔
         (TC.claimForbiddenToAny ty = false ∧
          TC.fnWithoutLeadingEnv ty = false)) ∧
    (∀ (env : TC.Env) (x : Id) (ty : N.Typ) (p p2 : Pos),
       env.get x = some ty →
       TC.type_check_atom env (N.Atom.ToAny (N.Atom.Id x p) none p2) =
         (TC.assert_variant_of_any ty p2).map
           (fun _ =>
             (N.Typ.Any, N.Atom.ToAny (N.Atom.Id x p) (some ty) p2))) := by
  refine ⟨?_, ?_, ?_⟩
  · intro ty s
    cases ty <;>
      simp [TC.assert_variant_of_any, TC.claimForbiddenToAny,
        TC.invalid_in_context, TC.isInvalidInContextResult, throw,
        throwThe, MonadExceptOf.throw, pure, Except.pure]
    case Fn args result =>
      cases h : args.head? with
      | none => simp [h, TC.isInvalidInContextResult, throw, throwThe,
          MonadExceptOf.throw, pure, Except.pure]
      | some a =>
          cases a <;>
            simp [h, TC.isInvalidInContextResult, throw, throwThe,
              MonadExceptOf.throw, pure, Except.pure]
  · intro ty s
    cases ty <;>
      simp [TC.assert_variant_of_any, TC.claimForbiddenToAny,
        TC.fnWithoutLeadingEnv, TC.invalid_in_context, throw, throwThe,
        MonadExceptOf.throw, pure, Except.pure]
    case Fn args result =>
      cases h : args.head? with
      | none => simp [h, throw, throwThe, MonadExceptOf.throw, pure,
          Except.pure]
      | some a =>
          cases a <;>
            simp [h, throw, throwThe, MonadExceptOf.throw, pure,
              Except.pure]
  · intro env x ty p p2 h
    rw [TC.type_check_atom, TC.type_check_atom]
    simp [TC.lookup, h, pure, Except.pure, bind, Except.bind]
    cases hA : TC.assert_variant_of_any ty p2 <;>
      simp [hA, pure, Except.pure, Except.map]

/-- Witness for C9: an identifier operand of type `I32` is accepted and
the annotation is filled. -/
theorem C9_toany_check_witness :
    ({ env := [(Id.Named "x", N.Typ.I32)], imports := [] } :
      TC.Env).get (Id.Named "x") = some N.Typ.I32 ∧
    TC.type_check_atom
      { env := [(Id.Named "x", N.Typ.I32)], imports := [] }
      (N.Atom.ToAny (N.Atom.Id (Id.Named "x") ()) none ()) =
      (TC.assert_variant_of_any N.Typ.I32 ()).map
        (fun _ =>
          (N.Typ.Any,
           N.Atom.ToAny (N.Atom.Id (Id.Named "x") ()) (some N.Typ.I32)
             ())) :=
  ⟨rfl,
   C9_toany_check.2.2
     { env := [(Id.Named "x", N.Typ.I32)], imports := [] }
     (Id.Named "x") N.Typ.I32 () () rfl⟩

namespace TR

/-- The string-interning state: the data segment and the map from
interned strings to their offsets. -/
abbrev IState : Type := List Nat × List (String × Nat)

abbrev InternM (α : Type) : Type := StateM IState α

/-- UTF-8 bytes of a string. -/
def strBytes (s : String) : List Nat := s.toUTF8.toList.map UInt8.toNat

/-- Intern one literal (`notwasm/intern.rs` is not under `src/`; modelled
from the spec: each interned string contributes its UTF-8 bytes plus a
zero terminator to the data segment, and a string literal is replaced by
an `Interned` literal carrying its offset). -/
def internLit (l : N.Lit) : InternM N.Lit :=
  match l with
  | N.Lit.String s => do
      let (data, m) ← get
      match m.find? (fun kv => kv.1 == s) with
      | some kv => pure (N.Lit.Interned s kv.2)
      | none => do
          let addr := data.length
          set ((data ++ strBytes s ++ [0], m ++ [(s, addr)]) : IState)
          pure (N.Lit.Interned s addr)
  | other => pure other

mutual

/-- Intern the strings of an atom. -/
def internAtom (a : N.Atom) : InternM N.Atom :=
  match a with
  | N.Atom.Lit l p => do
      pure (N.Atom.Lit (← internLit l) p)
  | N.Atom.Id x p => pure (N.Atom.Id x p)
  | N.Atom.Deref a0 ty p => do
      pure (N.Atom.Deref (← internAtom a0) ty p)
  | N.Atom.PrimApp f args p => do
      pure (N.Atom.PrimApp f (← internAtomList args) p)
  | N.Atom.GetPrimFunc f p => pure (N.Atom.GetPrimFunc f p)
  | N.Atom.ToAny a0 ty p => do
      pure (N.Atom.ToAny (← internAtom a0) ty p)
  | N.Atom.FromAny a0 ty p => do
      pure (N.Atom.FromAny (← internAtom a0) ty p)
  | N.Atom.FloatToInt a0 p => do
      pure (N.Atom.FloatToInt (← internAtom a0) p)
  | N.Atom.IntToFloat a0 p => do
      pure (N.Atom.IntToFloat (← internAtom a0) p)
  | N.Atom.ObjectGet o f p => do
      let o1 ← internAtom o
      let f1 ← internAtom f
      pure (N.Atom.ObjectGet o1 f1 p)
  | N.Atom.AnyLength x m p => do
      pure (N.Atom.AnyLength x (← internLit m) p)
  | N.Atom.Binary op l r p => do
      let l1 ← internAtom l
      let r1 ← internAtom r
      pure (N.Atom.Binary op l1 r1 p)
  | N.Atom.Unary op a0 p => do
      pure (N.Atom.Unary op (← internAtom a0) p)
  | N.Atom.EnvGet i ty p => pure (N.Atom.EnvGet i ty p)
termination_by sizeOf a

def internAtomList (l : List N.Atom) : InternM (List N.Atom) :=
  match l with
  | [] => pure []
  | a :: rest => do
      let a1 ← internAtom a
      let rest1 ← internAtomList rest
      pure (a1 :: rest1)
termination_by sizeOf l

def internEnvItems (l : List (N.Atom × N.Typ)) :
    InternM (List (N.Atom × N.Typ)) :=
  match l with
  | [] => pure []
  | (a, ty) :: rest => do
      let a1 ← internAtom a
      let rest1 ← internEnvItems rest
      pure ((a1, ty) :: rest1)
termination_by sizeOf l

end

/-- Intern the strings of an expression. -/
def internExpr (e : N.Expr) : InternM N.Expr :=
  match e with
  | N.Expr.Atom a p => do
      pure (N.Expr.Atom (← internAtom a) p)
  | N.Expr.ArraySet a b c p => do
      let a1 ← internAtom a
      let b1 ← internAtom b
      let c1 ← internAtom c
      pure (N.Expr.ArraySet a1 b1 c1 p)
  | N.Expr.ObjectSet a b c p => do
      let a1 ← internAtom a
      let b1 ← internAtom b
      let c1 ← internAtom c
      pure (N.Expr.ObjectSet a1 b1 c1 p)
  | N.Expr.ObjectEmpty => pure N.Expr.ObjectEmpty
  | N.Expr.PrimCall f args p => pure (N.Expr.PrimCall f args p)
  | N.Expr.Call f args p => pure (N.Expr.Call f args p)
  | N.Expr.ClosureCall f args p => pure (N.Expr.ClosureCall f args p)
  | N.Expr.AnyMethodCall o m args typs p => do
      pure (N.Expr.AnyMethodCall o (← internLit m) args typs p)
  | N.Expr.NewRef a ty p => do
      pure (N.Expr.NewRef (← internAtom a) ty p)
  | N.Expr.Closure f env p => do
      pure (N.Expr.Closure f (← internEnvItems env) p)

mutual

/-- Intern the strings of a statement. -/
def internStmt (s : N.Stmt) : InternM N.Stmt :=
  match s with
  | N.Stmt.Var x e ty p => do
      pure (N.Stmt.Var x (← internExpr e) ty p)
  | N.Stmt.Assign x e p => do
      pure (N.Stmt.Assign x (← internExpr e) p)
  | N.Stmt.Store x e p => do
      pure (N.Stmt.Store x (← internExpr e) p)
  | N.Stmt.Expression e p => do
      pure (N.Stmt.Expression (← internExpr e) p)
  | N.Stmt.If c t e p => do
      let c1 ← internAtom c
      let t1 ← internStmt t
      let e1 ← internStmt e
      pure (N.Stmt.If c1 t1 e1 p)
  | N.Stmt.Loop b p => do
      pure (N.Stmt.Loop (← internStmt b) p)
  | N.Stmt.Label l b p => do
      pure (N.Stmt.Label l (← internStmt b) p)
  | N.Stmt.Break l p => pure (N.Stmt.Break l p)
  | N.Stmt.Return a p => do
      pure (N.Stmt.Return (← internAtom a) p)
  | N.Stmt.Block ss p => do
      pure (N.Stmt.Block (← internStmtList ss) p)
  | N.Stmt.Empty => pure N.Stmt.Empty
  | N.Stmt.Trap => pure N.Stmt.Trap
  | N.Stmt.Goto l p => pure (N.Stmt.Goto l p)
termination_by sizeOf s

def internStmtList (ss : List N.Stmt) : InternM (List N.Stmt) :=
  match ss with
  | [] => pure []
  | s :: rest => do
      let s1 ← internStmt s
      let rest1 ← internStmtList rest
      pure (s1 :: rest1)
termination_by sizeOf ss

end

/-- Intern a whole program: every function body and global initializer,
extending `program.data` (the `intern` pass of `notwasm/intern.rs`, not
under `src/`; modelled from the spec data-segment description). -/
def internProgram (p : N.Program) : N.Program :=
  let act : InternM (List (Id × N.Function) × List (Id × N.Global)) := do
    let fs ← p.functions.mapM (fun kv => do
      let body1 ← internStmt kv.2.body
      pure (kv.1, { kv.2 with body := body1 }))
    let gs ← p.globals.mapM (fun kv => do
      match kv.2.atom with
      | some a => do
          let a1 ← internAtom a
          pure (kv.1, { kv.2 with atom := some a1 })
      | none => pure (kv.1, kv.2))
    pure (fs, gs)
  let ((fs, gs), st) := act.run (p.data, [])
  { p with functions := fs, globals := gs, data := st.1 }

/-- The NotWasm-runtime program textually included by `compile`
(`runtime.notwasm`).  Modelled from the spec: its source is not under
`src/`, so it stands as the empty program; `compile` only merges it in
before type checking. -/
def runtimeNotwasm : N.Program :=
  { functions := [], globals := [], data := [], rts_fn_imports := [] }

/-- The `Program::merge_in` method (`notwasm/syntax.rs`, not under
`src/`; modelled from the spec: the runtime program contributes its
functions, globals, data and imports). -/
def merge_in (p rt : N.Program) : N.Program :=
  { functions := p.functions ++ rt.functions,
    globals := p.globals ++ rt.globals,
    data := p.data ++ rt.data,
    rts_fn_imports := p.rts_fn_imports ++ rt.rts_fn_imports }

/-- The function-type index table of `translate_parity`: one row per
distinct wasm signature among the runtime functions (which must all have
function type) and the program functions. -/
def buildTypeIndexes (rtsExtra : List (String × N.Typ)) (p : N.Program) :
    Except String (List ((List ValueType × Option ValueType) × Nat)) := do
  let rt_names := get_rt_bindings rtsExtra ++ p.rts_fn_imports
  let step := fun (m : List ((List ValueType × Option ValueType) × Nat))
      (key : List ValueType × Option ValueType) =>
    if m.any (fun kv => kv.1.1 == key.1 && kv.1.2 == key.2) then m
    else m ++ [(key, m.length)]
  let m1 ← rt_names.foldlM
    (fun m kv =>
      match kv.2 with
      | N.Typ.Fn args result =>
          pure (step m (types_as_wasm args, option_as_wasm result))
      | _ =>
          throw "expected all elements in the runtime to have function type")
    ([] : List ((List ValueType × Option ValueType) × Nat))
  pure (p.functions.foldl
    (fun m kv =>
      step m (types_as_wasm kv.2.fn_type.args,
        option_as_wasm kv.2.fn_type.result))
    m1)

/-- Module translation (the per-function part of `translate_parity`):
the functions are numbered in order, the runtime indices enumerate the
bindings map, and each function is emitted by `translate_func` threading
the data segment.  The wasm module assembly and serialization through the
external `parity_wasm` builder (imports, table, globals, the generated
`main`, name sections) are not modelled; the instruction streams stand
for the module. -/
def translateProgram (rtsExtra : List (String × N.Typ)) (opts : Opts)
    (p : N.Program) : Except String (List (List Instr)) := do
  let global_env := (List.range p.functions.length).zip p.functions
    |>.map (fun pr => (pr.2.1, IdIndex.Fun pr.1))
  let rt_names := get_rt_bindings rtsExtra ++ p.rts_fn_imports
  let rt_indexes := (List.range rt_names.length).zip rt_names
    |>.map (fun pr => (pr.2.1, pr.1))
  let type_indexes ← buildTypeIndexes rtsExtra p
  let ctx : TrCtx :=
    { opts := opts, rt_indexes := rt_indexes,
      type_indexes := type_indexes }
  let r ← p.functions.foldlM
    (fun (acc : List (List Instr) × List Nat) kv => do
      let (insts, _, data2) ← translate_func ctx global_env acc.2 kv.2
      pure (acc.1 ++ [insts], data2))
    ([], p.data)
  pure r.1

/-- The top-level NotWasm compiler (`notwasm/compile.rs::compile`): merge
in the runtime program, type check — where a failure is a panic through
`.expect("type-checking failed")`, embedded as the outer `Except.error`
(process abort), not a returned compile error — then intern strings and
translate.  The `inspect` callback is the identity. -/
def compile (rtsExtra : List (String × N.Typ)) (opts : Opts)
    (program : N.Program) : Except String (List (List Instr)) :=
  let notwasm_rt := runtimeNotwasm
  let program := merge_in program notwasm_rt
  match TC.type_check rtsExtra program with
  | Except.error _ => Except.error "type-checking failed"
  | Except.ok program =>
      let program := internProgram program
      translateProgram rtsExtra opts program

end TR

/-- A program with a duplicated function name, which the type checker
rejects as multiply defined. -/
def dupProgram : N.Program :=
  { functions :=
      [(Id.Named "F",
        { body := N.Stmt.Empty, params := [],
          fn_type := { args := [], result := none } }),
       (Id.Named "F",
        { body := N.Stmt.Empty, params := [],
          fn_type := { args := [], result := none } })],
    globals := [], data := [], rts_fn_imports := [] }

/-- C8 counterexample: a LowIR type-checking failure (a multiply defined
symbol) does not come back as a returned compile error: `compile` aborts
through the `.expect("type-checking failed")` panic, embedded as the
outer error channel. -/
theorem C8_compile_panic_counterexample :
    TC.type_check [] (TR.merge_in dupProgram TR.runtimeNotwasm) =
      Except.error
        (TC.TypeCheckingError.MultiplyDefined (Id.Named "F") ()) ∧
    TR.compile [] { disable_gc := false } dupProgram =
      Except.error "type-checking failed" := by
  constructor
  · rfl
  · rfl

/-- C8 (amended): the pipeline does not return a LowIR type error as a
value: whenever type checking the merged program fails, `compile` aborts
with the `type-checking failed` panic instead of returning an error
value. -/
theorem C8_compile_panics_on_type_error :
    ∀ (rtsExtra : List (String × N.Typ)) (opts : TR.Opts)
      (p : N.Program) (err : TC.TypeCheckingError),
      TC.type_check rtsExtra (TR.merge_in p TR.runtimeNotwasm) =
        Except.error err →
      TR.compile rtsExtra opts p = Except.error "type-checking failed" := by
  intro rtsExtra opts p err h
  simp [TR.compile, h]

/-- Witness for C8: the duplicated-function program aborts compilation. -/
theorem C8_compile_panics_on_type_error_witness :
    TC.type_check [] (TR.merge_in dupProgram TR.runtimeNotwasm) =
      Except.error
        (TC.TypeCheckingError.MultiplyDefined (Id.Named "F") ()) ∧
    TR.compile [] { disable_gc := false } dupProgram =
      Except.error "type-checking failed" :=
  ⟨rfl,
   C8_compile_panics_on_type_error [] { disable_gc := false } dupProgram
     (TC.TypeCheckingError.MultiplyDefined (Id.Named "F") ()) rfl⟩

namespace TI

mutual

/-- Z3 terms of the type sort (`Z3Typ` of `typeinf_z3.rs`, which builds
the datatype with nullary constructors plus `fun` over a companion list
sort; a `konst` is a fresh constant obtained from `z.fresh`). -/
inductive ZTyp where
  | int
  | any
  | str
  | bool
  | array
  | dynobject
  | fn (args : ZList) (ret : ZTyp)
  | konst (n : Nat)

/-- Z3 terms of the companion list sort. -/
inductive ZList where
  | tnil
  | tcons (hd : ZTyp) (tl : ZList)

end

/-- Z3 boolean formulas, as built by the `z3f!` macro: conjunction,
disjunction, negation, equality on the type sort, the `true` literal and
fresh boolean literals (the soft weights). -/
inductive ZBool where
  | tt
  | wconst (n : Nat)
  | and (l : List ZBool)
  | or (l : List ZBool)
  | not (b : ZBool)
  | eq (a b : ZTyp)

/-- The state of `Typeinf`: the metavariable constants (`vars`), the
fresh-name counters of the Z3 context, the asserted hard and soft
constraints of the `Optimize` solver, the typing environment
(`typeinf_env.rs`, not under `src/`: a name-to-type map), and the
current return type. -/
structure TISt where
  vars : List ZTyp
  nextConst : Nat
  nextWeight : Nat
  hard : List ZBool
  soft : List ZBool
  env : List (Id × J.Typ)
  return_type : J.Typ

abbrev TIM (α : Type) : Type := StateT TISt (Except String) α

/-- `solver.assert`. -/
def assertHard (b : ZBool) : TIM Unit :=
  fun st => Except.ok ((), { st with hard := b :: st.hard })

/-- `Typeinf::fresh_weight`: a fresh boolean constant asserted soft with
weight one. -/
def fresh_weight : TIM ZBool :=
  fun st =>
    Except.ok (ZBool.wconst st.nextWeight,
      { st with
          nextWeight := st.nextWeight + 1
          soft := ZBool.wconst st.nextWeight :: st.soft })

/-- `Typeinf::fresh_metavar`: a fresh Z3 constant pushed onto `vars`,
returned as a `Metavar` with its index. -/
def fresh_metavar (pre : String) : TIM J.Typ :=
  fun st =>
    Except.ok (J.Typ.Metavar st.vars.length,
      { st with
          nextConst := st.nextConst + 1
          vars := st.vars ++ [ZTyp.konst st.nextConst] })

/-- Environment read (`Env::get` of `typeinf_env.rs`, not under `src/`;
modelled as a map lookup that panics when unbound). -/
def envGet (x : Id) : TIM J.Typ := do
  let st ← get
  match (st.env.find? (fun kv => kv.1 == x)).map (fun kv => kv.2) with
  | some t => pure t
  | none => StateT.lift (throw "unbound identifier in type environment")

/-- Environment write (`Env::update` and `Env::extend`, modelled as map
inserts). -/
def envUpdate (x : Id) (t : J.Typ) : TIM Unit :=
  fun st => Except.ok ((), { st with env := (x, t) :: st.env })

/-- Build a Z3 list term from Lean list of terms. -/
def zlistOf : List ZTyp → ZList
  | [] => ZList.tnil
  | z :: rest => ZList.tcons z (zlistOf rest)

mutual

/-- The `Typeinf::t` conversion from types to Z3 terms: ground
constructors map to their Z3 constructors, a metavariable looks up its
constant (panicking when unbound), a function type builds the argument
list (the source folds over the reversed arguments, producing the
in-order Z3 list built here), and the remaining types are a `todo!`. -/
def tTyp (ty : J.Typ) : TIM ZTyp :=
  match ty with
  | J.Typ.Int => pure ZTyp.int
  | J.Typ.Any => pure ZTyp.any
  | J.Typ.String => pure ZTyp.str
  | J.Typ.Bool => pure ZTyp.bool
  | J.Typ.Array => pure ZTyp.array
  | J.Typ.DynObject => pure ZTyp.dynobject
  | J.Typ.Metavar n => do
      let st ← get
      match st.vars.get? n with
      | some z => pure z
      | none => StateT.lift (throw "unbound type metavariable")
  | J.Typ.Function args r => do
      let zargs ← tTypList args
      let zr ← tTyp r
      pure (ZTyp.fn (zlistOf zargs) zr)
  | _ => StateT.lift (throw "todo: Type")
termination_by sizeOf ty

def tTypList (tys : List J.Typ) : TIM (List ZTyp) :=
  match tys with
  | [] => pure []
  | t :: rest => do
      let z ← tTyp t
      let zs ← tTypList rest
      pure (z :: zs)
termination_by sizeOf tys

end

/-- The Z3 term for `fun_vec(args) -> ret` of the `z3f!`/`typ!` macros. -/
def tFunVec (args : List J.Typ) (ret : J.Typ) : TIM ZTyp := do
  let zargs ← tTypList args
  let zret ← tTyp ret
  pure (ZTyp.fn (zlistOf zargs) zret)

/-- The type of a literal (`typ_lit`). -/
def typ_lit : J.Lit → J.Typ
  | J.Lit.Num (J.Num.Float _) => J.Typ.Float
  | J.Lit.Num (J.Num.Int _) => J.Typ.Int
  | J.Lit.String _ => J.Typ.String
  | J.Lit.Bool _ => J.Typ.Bool
  | J.Lit.Regex _ _ => J.Typ.Any
  | J.Lit.Undefined => J.Typ.Any
  | J.Lit.Null => J.Typ.Any

/-- The `coercion_` constructor of `jankyscript/constructors.rs` (not
under `src/`): wrap an expression in a coercion node. -/
def coercion_ (c : J.Coercion) (e : J.Expr) (p : Pos) : J.Expr :=
  J.Expr.Coercion c e p

/-- The `coerce` helper of `typeinf.rs`: wrapping an expression that is
already a `Meta(_, Any)` coercion at source type `Any` retargets the
inner coercion instead of stacking a second one. -/
def coerce (src dst : J.Typ) (e : J.Expr) (p : Pos) : J.Expr :=
  match e, src with
  | J.Expr.Coercion (J.Coercion.Meta src1 J.Typ.Any) e1 p1, J.Typ.Any =>
      coercion_ (J.Coercion.meta src1 dst) e1 p1
  | e, _ => coercion_ (J.Coercion.meta src dst) e p

/-- The expression-level undefined test (`Expr::is_undefined` of
`jankyscript/syntax.rs`, not under `src/`; modelled as the `undefined`
literal). -/
def e_is_undefined : J.Expr → Bool
  | J.Expr.Lit J.Lit.Undefined _ => true
  | _ => false

/-- The operator overload table (`operators.rs`/`OVERLOADS`, not under
`src/`; modelled from the spec: each operator has typed overloads and
optionally an any-overload, and `+` is the example the spec details). -/
def overloadsOf (op : J.JsOpName) : List (List J.Typ × J.Typ) :=
  match op with
  | J.JsOpName.Plus =>
      [([J.Typ.Int, J.Typ.Int], J.Typ.Int),
       ([J.Typ.Float, J.Typ.Float], J.Typ.Float),
       ([J.Typ.String, J.Typ.String], J.Typ.String)]
  | J.JsOpName.Other _ => []

/-- The any-overload of an operator (`OVERLOADS.on_any`; modelled like
`overloadsOf`): a function type over `Any`. -/
def onAny (op : J.JsOpName) : Option J.Typ :=
  match op with
  | J.JsOpName.Plus =>
      some (J.Typ.Function [J.Typ.Any, J.Typ.Any] J.Typ.Any)
  | J.JsOpName.Other _ => none

/-- `Type::unwrap_fun` on the HighIR side: the argument and result types
of a function type (panics otherwise). -/
def unwrapFunJ : J.Typ → Option (List J.Typ × J.Typ)
  | J.Typ.Function args r => some (args, r)
  | _ => none

/-- Lowered operator targets (`NotwasmOp`; modelled: a LowIR binary
operator or a runtime primitive). -/
inductive LowerOp where
  | binOp (op : N.BinaryOp)
  | primApp (name : String)

/-- `OVERLOADS.target`: the concrete operator for fully resolved argument
types (modelled for `+`). -/
def overloadTarget (op : J.JsOpName) (arg_ts : List J.Typ) :
    Option LowerOp :=
  match op, arg_ts with
  | J.JsOpName.Plus, [J.Typ.Int, J.Typ.Int] =>
      some (LowerOp.binOp N.BinaryOp.I32Add)
  | J.JsOpName.Plus, [J.Typ.Float, J.Typ.Float] =>
      some (LowerOp.binOp N.BinaryOp.F64Add)
  | J.JsOpName.Plus, [J.Typ.String, J.Typ.String] =>
      some (LowerOp.primApp "string_concat")
  | _, _ => none

/-- `OVERLOADS.any_target`: the any-typed fallback operator and its type
(modelled for `+`). -/
def anyTarget (op : J.JsOpName) : J.Typ × LowerOp :=
  match op with
  | J.JsOpName.Plus =>
      (J.Typ.Function [J.Typ.Any, J.Typ.Any] J.Typ.Any,
       LowerOp.primApp "janky_plus")
  | J.JsOpName.Other s =>
      (J.Typ.Function [J.Typ.Any, J.Typ.Any] J.Typ.Any,
       LowerOp.primApp s)

/-- `NotwasmOp::make_app` (modelled): apply the lowered operator to the
argument expressions. -/
def make_app (lop : LowerOp) (es : List J.Expr) (p : Pos) : J.Expr :=
  match lop, es with
  | LowerOp.binOp op, [e1, e2] => J.Expr.Binary op e1 e2 p
  | LowerOp.binOp _, es => J.Expr.PrimCall (N.RTSFunction.Todo "arity") es p
  | LowerOp.primApp name, es =>
      J.Expr.PrimCall (N.RTSFunction.Import name) es p

/-- The fresh-beta loop of the `JsOp` case: an argument whose type is
already a metavariable is kept, any other argument is coerced to a fresh
metavariable. -/
def betaLoop (argsWithT : List (J.Expr × J.Typ)) :
    TIM (List J.Expr × List J.Typ) :=
  match argsWithT with
  | [] => pure ([], [])
  | (arg, arg_t) :: rest => do
      let (arg2, beta) ←
        match arg_t with
        | J.Typ.Metavar n => pure (arg, J.Typ.Metavar n)
        | _ => do
            let beta_t ← fresh_metavar "beta"
            pure (coerce arg_t beta_t arg (), beta_t)
      let (args2, betas2) ← betaLoop rest
      pure (arg2 :: args2, beta :: betas2)

/-- One typed-overload disjunct of the `JsOp` constraint. -/
def overloadDisjunct (w : ZBool) (args_t : List J.Typ)
    (betas_t : List J.Typ) (alpha_t : J.Typ)
    (sig : List J.Typ × J.Typ) : TIM ZBool := do
  let pairsConj ← ((args_t.zip sig.1).zip betas_t).mapM
    (fun pr => do
      let z1 ← tTyp pr.1.1
      let z2 ← tTyp pr.1.2
      let z3 ← tTyp pr.2
      pure [ZBool.eq z1 z2, ZBool.eq z2 z3])
  let zalpha ← tTyp alpha_t
  let zret ← tTyp sig.2
  pure (ZBool.and (w :: pairsConj.flatten ++ [ZBool.eq zalpha zret]))

end TI

namespace TI

mutual

/-- The constraint generator for expressions (`Typeinf::cgen_expr`):
returns the rewritten expression (the source mutates in place), the
generated formula and the type.  The first arm is the source panic on
node kinds that only later passes produce. -/
def cgen_expr (expr : J.Expr) : TIM (J.Expr × ZBool × J.Typ) :=
  match expr with
  | J.Expr.Binary _ _ _ _ =>
      StateT.lift (throw "unexpected expression in cgen_expr")
  | J.Expr.PrimCall _ _ _ =>
      StateT.lift (throw "unexpected expression in cgen_expr")
  | J.Expr.NewRef _ _ _ =>
      StateT.lift (throw "unexpected expression in cgen_expr")
  | J.Expr.Deref _ _ _ =>
      StateT.lift (throw "unexpected expression in cgen_expr")
  | J.Expr.Store _ _ _ _ =>
      StateT.lift (throw "unexpected expression in cgen_expr")
  | J.Expr.EnvGet _ _ _ =>
      StateT.lift (throw "unexpected expression in cgen_expr")
  | J.Expr.Coercion _ _ _ =>
      StateT.lift (throw "unexpected expression in cgen_expr")
  | J.Expr.Closure _ _ _ =>
      StateT.lift (throw "unexpected expression in cgen_expr")
  | J.Expr.Unary _ _ _ =>
      StateT.lift (throw "unexpected expression in cgen_expr")
  | J.Expr.Lit l p => do
      let t := typ_lit l
      let alpha_t ← fresh_metavar "alpha"
      let w ← fresh_weight
      let zalpha ← tTyp alpha_t
      let zt ← tTyp t
      let phi := ZBool.or
        [ZBool.and [w, ZBool.eq zalpha zt],
         ZBool.and [ZBool.not w, ZBool.eq zalpha ZTyp.any]]
      pure (coerce t alpha_t (J.Expr.Lit l p) p, phi, alpha_t)
  | J.Expr.Array es p => do
      let (es2, phis, ts) ← cgen_exprs es
      let anyPhis ← ts.mapM (fun t => do
        let zt ← tTyp t
        pure (ZBool.eq zt ZTyp.any))
      pure (J.Expr.Array es2 p, ZBool.and (phis ++ anyPhis), J.Typ.Array)
  | J.Expr.Object props p => do
      let (props2, phis, ts) ← cgen_props props
      let anyPhis ← ts.mapM (fun t => do
        let zt ← tTyp t
        pure (ZBool.eq zt ZTyp.any))
      pure (J.Expr.Object props2 p, ZBool.and (phis ++ anyPhis),
        J.Typ.DynObject)
  | J.Expr.Id x _ p => do
      let t ← envGet x
      pure (J.Expr.Id x t p, ZBool.tt, t)
  | J.Expr.Dot e x p => do
      let w ← fresh_weight
      let (e2, phi1, t) ← cgen_expr e
      let zt ← tTyp t
      let phi2 := ZBool.or
        [ZBool.and [ZBool.eq zt ZTyp.dynobject, w],
         ZBool.and [ZBool.eq zt ZTyp.any, ZBool.not w]]
      pure (coerce t J.Typ.DynObject (J.Expr.Dot e2 x p) p,
        ZBool.and [phi1, phi2], J.Typ.Any)
  | J.Expr.Bracket _ _ _ _ => StateT.lift (throw "todo: Bracket in cgen")
  | J.Expr.JsOp op args _ p => do
      let w ← fresh_weight
      let sigs := overloadsOf op
      let alpha_t ← fresh_metavar "alpha"
      let (args2, args_phi, args_t) ← cgen_exprs args
      let (args3, betas_t) ← betaLoop (args2.zip args_t)
      let disjuncts ← sigs.mapM (overloadDisjunct w args_t betas_t alpha_t)
      let disjuncts2 ←
        match onAny op with
        | some any_ty => do
            let (_, result_typ) ← match unwrapFunJ any_ty with
              | some pr => pure pr
              | none => StateT.lift (throw "unwrap_fun")
            let betaAny ← betas_t.mapM (fun t2 => do
              let z2 ← tTyp t2
              pure (ZBool.eq z2 ZTyp.any))
            let zalpha ← tTyp alpha_t
            let zret ← tTyp result_typ
            pure (disjuncts ++
              [ZBool.and ((ZBool.not w :: betaAny) ++
                [ZBool.eq zalpha zret])])
        | none => pure disjuncts
      let cases := ZBool.or disjuncts2
      pure (J.Expr.JsOp op args3 betas_t p,
        ZBool.and (args_phi ++ [cases]), alpha_t)
  | J.Expr.Assign lv e p => do
      match lv with
      | J.LValue.Id x _ => do
          let t ← envGet x
          let (e2, phi1, e_t) ← cgen_expr e
          let zt ← tTyp t
          let ze ← tTyp e_t
          let phi2 := ZBool.eq zt ze
          pure (J.Expr.Assign (J.LValue.Id x t) e2 p,
            ZBool.and [phi1, phi2], t)
      | _ => StateT.lift (throw "todo: lvalue in cgen")
  | J.Expr.Call f args p => do
      let w1 ← fresh_weight
      let w2 ← fresh_weight
      let (f2, phi1, t_f) ← cgen_expr f
      let (args2, args_phi, args_t) ← cgen_exprs args
      let phi2 := ZBool.and args_phi
      let beta ← fresh_metavar "beta"
      let gamma ← fresh_metavar "gamma"
      let phi31parts ← args_t.mapM (fun x => do
        let zx ← tTyp x
        pure (ZBool.eq zx ZTyp.any))
      let phi31 := ZBool.and phi31parts
      let ztf ← tTyp t_f
      let zfun ← tFunVec args_t beta
      let zbeta ← tTyp beta
      let zgamma ← tTyp gamma
      let phi3 := ZBool.or
        [ZBool.and [ZBool.eq ztf zfun, w1],
         ZBool.and [ZBool.eq ztf ZTyp.any, ZBool.eq zbeta ZTyp.any,
           phi31, ZBool.not w1]]
      let phi4 := ZBool.or
        [ZBool.and [ZBool.eq zbeta zgamma, w2],
         ZBool.and [ZBool.eq zgamma ZTyp.any, ZBool.not w2]]
      let f3 := coerce t_f (J.Typ.Function args_t beta) f2 p
      let expr2 := coerce beta gamma (J.Expr.Call f3 args2 p) p
      pure (expr2, ZBool.and [phi1, phi2, phi3, phi4], gamma)
  | J.Expr.MethodCall _ _ _ _ _ =>
      StateT.lift (throw "todo: MethodCall in cgen")
  | J.Expr.Length _ _ _ => StateT.lift (throw "todo: Length in cgen")
  | J.Expr.Func f p => do
      match f with
      | J.Func.mk args_with_typs result_typ body afc fv => do
          let st ← get
          let outer_env := st.env
          let outer_return := st.return_type
          let ret_mv ← fresh_metavar "ret"
          set { (← get) with return_type := ret_mv }
          let args2 ← args_with_typs.mapM (fun pr => do
            if J.Typ.beq pr.2 J.Typ.Missing then do
              let alpha ← fresh_metavar "alpha"
              envUpdate pr.1 alpha
              pure (pr.1, alpha)
            else
              StateT.lift
                (throw "assertion failed: argument type is not Missing"))
          let body2 ← cgen_stmt body
          let return_typ := (← get).return_type
          set { (← get) with return_type := outer_return, env := outer_env }
          let args_t := args2.map Prod.snd
          let w ← fresh_weight
          let beta ← fresh_metavar "beta"
          let zbeta ← tTyp beta
          let zfun ← tFunVec args_t return_typ
          let zret ← tTyp return_typ
          let phi := ZBool.or
            [ZBool.and [ZBool.eq zbeta zfun, w],
             ZBool.and [ZBool.eq zbeta ZTyp.any, ZBool.eq zret ZTyp.any,
               ZBool.not w]]
          let f2 := J.Func.mk args2 ret_mv body2 afc fv
          let expr2 := coerce (J.Typ.Function args_t return_typ) beta
            (J.Expr.Func f2 p) p
          pure (expr2, phi, beta)
termination_by sizeOf expr

/-- The iterator helper `Typeinf::cgen_exprs`. -/
def cgen_exprs (exprs : List J.Expr) :
    TIM (List J.Expr × List ZBool × List J.Typ) :=
  match exprs with
  | [] => pure ([], [], [])
  | e :: rest => do
      let (e2, phi, t) ← cgen_expr e
      let (es2, phis, ts) ← cgen_exprs rest
      pure (e2 :: es2, phi :: phis, t :: ts)
termination_by sizeOf exprs

/-- `cgen_exprs` over the value positions of an object literal. -/
def cgen_props (props : List (J.Key × J.Expr)) :
    TIM (List (J.Key × J.Expr) × List ZBool × List J.Typ) :=
  match props with
  | [] => pure ([], [], [])
  | (k, e) :: rest => do
      let (e2, phi, t) ← cgen_expr e
      let (es2, phis, ts) ← cgen_props rest
      pure ((k, e2) :: es2, phi :: phis, t :: ts)
termination_by sizeOf props

/-- The constraint generator for statements (`Typeinf::cgen_stmt`). -/
def cgen_stmt (stmt : J.Stmt) : TIM J.Stmt :=
  match stmt with
  | J.Stmt.Var x _ e p => do
      let alpha ← fresh_metavar "x"
      envUpdate x alpha
      if !(e_is_undefined e) then do
        let (e2, phi, t) ← cgen_expr e
        assertHard phi
        let zt ← tTyp t
        let zalpha ← tTyp alpha
        assertHard (ZBool.eq zt zalpha)
        pure (J.Stmt.Var x alpha e2 p)
      else
        pure (J.Stmt.Var x alpha e p)
  | J.Stmt.Expr e p => do
      let (e2, phi, _) ← cgen_expr e
      assertHard phi
      pure (J.Stmt.Expr e2 p)
  | J.Stmt.Empty => pure J.Stmt.Empty
  | J.Stmt.Loop s p => do
      let s2 ← cgen_stmt s
      pure (J.Stmt.Loop s2 p)
  | J.Stmt.Label l s p => do
      let s2 ← cgen_stmt s
      pure (J.Stmt.Label l s2 p)
  | J.Stmt.Block ss p => do
      let ss2 ← cgen_stmt_list ss
      pure (J.Stmt.Block ss2 p)
  | J.Stmt.Catch body exn_name catch_body p => do
      let body2 ← cgen_stmt body
      let env := (← get).env
      envUpdate exn_name J.Typ.Any
      let catch2 ← cgen_stmt catch_body
      set { (← get) with env := env }
      pure (J.Stmt.Catch body2 exn_name catch2 p)
  | J.Stmt.Return e p => do
      let (e2, phi, t) ← cgen_expr e
      let w ← fresh_weight
      assertHard phi
      let t_r := (← get).return_type
      let ztr ← tTyp t_r
      let zt ← tTyp t
      assertHard (ZBool.or
        [ZBool.and [w, ZBool.eq ztr zt],
         ZBool.and [ZBool.not w, ZBool.eq ztr ZTyp.any]])
      pure (J.Stmt.Return (coerce t t_r e2 p) p)
  | J.Stmt.If _ _ _ _ => StateT.lift (throw "todo statement in cgen")
  | J.Stmt.ForIn _ _ _ _ => StateT.lift (throw "todo statement in cgen")
  | J.Stmt.Break _ _ => StateT.lift (throw "todo statement in cgen")
  | J.Stmt.Finally _ _ _ => StateT.lift (throw "todo statement in cgen")
  | J.Stmt.Throw _ _ => StateT.lift (throw "todo statement in cgen")
termination_by sizeOf stmt

/-- The statement loop of a block in `cgen_stmt`. -/
def cgen_stmt_list (ss : List J.Stmt) : TIM (List J.Stmt) :=
  match ss with
  | [] => pure []
  | s :: rest => do
      let s2 ← cgen_stmt s
      let rest2 ← cgen_stmt_list rest
      pure (s2 :: rest2)
termination_by sizeOf ss

end

end TI

namespace TI

mutual

/-- `SubtMetavarVisitor::enter_typ`, applied through the generic type
walk of `walk.rs` (not under `src/`): substitute the model type for
every metavariable, panicking on an unbound one. -/
def substTyp (mapping : List J.Typ) (t : J.Typ) : Except String J.Typ :=
  match t with
  | J.Typ.Metavar n =>
      match mapping.get? n with
      | some t2 => pure t2
      | none => throw "unbound type metavariable"
  | J.Typ.Function args r => do
      let args2 ← substTypList mapping args
      let r2 ← substTyp mapping r
      pure (J.Typ.Function args2 r2)
  | J.Typ.Ref t2 => do
      let t3 ← substTyp mapping t2
      pure (J.Typ.Ref t3)
  | t => pure t
termination_by sizeOf t

def substTypList (mapping : List J.Typ) (ts : List J.Typ) :
    Except String (List J.Typ) :=
  match ts with
  | [] => pure []
  | t :: rest => do
      let t2 ← substTyp mapping t
      let rest2 ← substTypList mapping rest
      pure (t2 :: rest2)
termination_by sizeOf ts

end

mutual

/-- Metavariable substitution inside a coercion (the type positions the
walk of `walk.rs` visits inside `Coercion`). -/
def substCoercion (mapping : List J.Typ) (c : J.Coercion) :
    Except String J.Coercion :=
  match c with
  | J.Coercion.FloatToInt => pure J.Coercion.FloatToInt
  | J.Coercion.IntToFloat => pure J.Coercion.IntToFloat
  | J.Coercion.Tag ty => do
      let ty2 ← substTyp mapping ty
      pure (J.Coercion.Tag ty2)
  | J.Coercion.Untag ty => do
      let ty2 ← substTyp mapping ty
      pure (J.Coercion.Untag ty2)
  | J.Coercion.Fun args ret => do
      let args2 ← substCoercionList mapping args
      let ret2 ← substCoercion mapping ret
      pure (J.Coercion.Fun args2 ret2)
  | J.Coercion.Id ty => do
      let ty2 ← substTyp mapping ty
      pure (J.Coercion.Id ty2)
  | J.Coercion.Seq c1 c2 => do
      let c12 ← substCoercion mapping c1
      let c22 ← substCoercion mapping c2
      pure (J.Coercion.Seq c12 c22)
  | J.Coercion.Meta src dst => do
      let src2 ← substTyp mapping src
      let dst2 ← substTyp mapping dst
      pure (J.Coercion.Meta src2 dst2)
termination_by sizeOf c

def substCoercionList (mapping : List J.Typ) (cs : List J.Coercion) :
    Except String (List J.Coercion) :=
  match cs with
  | [] => pure []
  | c :: rest => do
      let c2 ← substCoercion mapping c
      let rest2 ← substCoercionList mapping rest
      pure (c2 :: rest2)
termination_by sizeOf cs

end

/-- `SubtMetavarVisitor::exit_expr`: unwrap an identity `Meta` coercion,
and lower a `JsOp` node to its resolved operator — the typed target when
the argument types match an overload, otherwise the any-target with the
arguments coerced from `Any` to the target argument types (the source
zips the arguments with those types, leaving any excess arguments
unchanged). -/
def exitExpr (e : J.Expr) : J.Expr :=
  match e with
  | J.Expr.Coercion (J.Coercion.Meta t1 t2) e1 _ =>
      if J.Typ.beq t1 t2 then e1 else e
  | J.Expr.JsOp op es ts p =>
      match overloadTarget op ts with
      | some lower => make_app lower es p
      | none =>
          let (ty, lower) := anyTarget op
          match unwrapFunJ ty with
          | some (conv, _) =>
              make_app lower
                (((es.zip conv).map
                    (fun pr => coerce J.Typ.Any pr.2 pr.1 p)) ++
                  es.drop conv.length) p
          | none => make_app lower es p
  | e => e

mutual

/-- The substitution walk over expressions: `stmt.walk(&mut
subst_metavar)` with the `SubtMetavarVisitor` (the traversal itself is
`walk.rs`, not under `src/`: `enter_typ` fires on every type slot and
`exit_expr` rewrites every expression bottom-up). -/
def substExpr (mapping : List J.Typ) (e : J.Expr) :
    Except String J.Expr :=
  match e with
  | J.Expr.Lit l p => pure (exitExpr (J.Expr.Lit l p))
  | J.Expr.Array es p => do
      let es2 ← substExprList mapping es
      pure (exitExpr (J.Expr.Array es2 p))
  | J.Expr.Object props p => do
      let props2 ← substProps mapping props
      pure (exitExpr (J.Expr.Object props2 p))
  | J.Expr.Dot obj x p => do
      let obj2 ← substExpr mapping obj
      pure (exitExpr (J.Expr.Dot obj2 x p))
  | J.Expr.Bracket c f ty p => do
      let c2 ← substExpr mapping c
      let f2 ← substExpr mapping f
      let ty2 ← substTyp mapping ty
      pure (exitExpr (J.Expr.Bracket c2 f2 ty2 p))
  | J.Expr.Coercion c e1 p => do
      let c2 ← substCoercion mapping c
      let e2 ← substExpr mapping e1
      pure (exitExpr (J.Expr.Coercion c2 e2 p))
  | J.Expr.Id x ty p => do
      let ty2 ← substTyp mapping ty
      pure (exitExpr (J.Expr.Id x ty2 p))
  | J.Expr.Func f p => do
      let f2 ← substFunc mapping f
      pure (exitExpr (J.Expr.Func f2 p))
  | J.Expr.Closure f env p => do
      let f2 ← substFunc mapping f
      let env2 ← substEnvItems mapping env
      pure (exitExpr (J.Expr.Closure f2 env2 p))
  | J.Expr.Unary op e1 p => do
      let e2 ← substExpr mapping e1
      pure (exitExpr (J.Expr.Unary op e2 p))
  | J.Expr.Binary op e1 e2 p => do
      let e12 ← substExpr mapping e1
      let e22 ← substExpr mapping e2
      pure (exitExpr (J.Expr.Binary op e12 e22 p))
  | J.Expr.Assign lv e1 p => do
      let lv2 ← substLValue mapping lv
      let e2 ← substExpr mapping e1
      pure (exitExpr (J.Expr.Assign lv2 e2 p))
  | J.Expr.PrimCall f args p => do
      let args2 ← substExprList mapping args
      pure (exitExpr (J.Expr.PrimCall f args2 p))
  | J.Expr.Call f args p => do
      let f2 ← substExpr mapping f
      let args2 ← substExprList mapping args
      pure (exitExpr (J.Expr.Call f2 args2 p))
  | J.Expr.MethodCall obj m args ty p => do
      let obj2 ← substExpr mapping obj
      let args2 ← substExprList mapping args
      let ty2 ← substTyp mapping ty
      pure (exitExpr (J.Expr.MethodCall obj2 m args2 ty2 p))
  | J.Expr.Length obj ty p => do
      let obj2 ← substExpr mapping obj
      let ty2 ← substTyp mapping ty
      pure (exitExpr (J.Expr.Length obj2 ty2 p))
  | J.Expr.NewRef e1 ty p => do
      let e2 ← substExpr mapping e1
      let ty2 ← substTyp mapping ty
      pure (exitExpr (J.Expr.NewRef e2 ty2 p))
  | J.Expr.Deref e1 ty p => do
      let e2 ← substExpr mapping e1
      let ty2 ← substTyp mapping ty
      pure (exitExpr (J.Expr.Deref e2 ty2 p))
  | J.Expr.Store into e1 ty p => do
      let into2 ← substExpr mapping into
      let e2 ← substExpr mapping e1
      let ty2 ← substTyp mapping ty
      pure (exitExpr (J.Expr.Store into2 e2 ty2 p))
  | J.Expr.EnvGet i ty p => do
      let ty2 ← substTyp mapping ty
      pure (exitExpr (J.Expr.EnvGet i ty2 p))
  | J.Expr.JsOp op args ts p => do
      let args2 ← substExprList mapping args
      let ts2 ← substTypList mapping ts
      pure (exitExpr (J.Expr.JsOp op args2 ts2 p))
termination_by sizeOf e

def substExprList (mapping : List J.Typ) (es : List J.Expr) :
    Except String (List J.Expr) :=
  match es with
  | [] => pure []
  | e :: rest => do
      let e2 ← substExpr mapping e
      let rest2 ← substExprList mapping rest
      pure (e2 :: rest2)
termination_by sizeOf es

def substProps (mapping : List J.Typ) (props : List (J.Key × J.Expr)) :
    Except String (List (J.Key × J.Expr)) :=
  match props with
  | [] => pure []
  | (k, e) :: rest => do
      let e2 ← substExpr mapping e
      let rest2 ← substProps mapping rest
      pure ((k, e2) :: rest2)
termination_by sizeOf props

def substEnvItems (mapping : List J.Typ)
    (env : List (J.Expr × J.Typ)) :
    Except String (List (J.Expr × J.Typ)) :=
  match env with
  | [] => pure []
  | (e, t) :: rest => do
      let e2 ← substExpr mapping e
      let t2 ← substTyp mapping t
      let rest2 ← substEnvItems mapping rest
      pure ((e2, t2) :: rest2)
termination_by sizeOf env

def substLValue (mapping : List J.Typ) (lv : J.LValue) :
    Except String J.LValue :=
  match lv with
  | J.LValue.Id x ty => do
      let ty2 ← substTyp mapping ty
      pure (J.LValue.Id x ty2)
  | J.LValue.Dot c x => do
      let c2 ← substExpr mapping c
      pure (J.LValue.Dot c2 x)
  | J.LValue.Bracket c f ty => do
      let c2 ← substExpr mapping c
      let f2 ← substExpr mapping f
      let ty2 ← substTyp mapping ty
      pure (J.LValue.Bracket c2 f2 ty2)
termination_by sizeOf lv

def substFunc (mapping : List J.Typ) (f : J.Func) :
    Except String J.Func :=
  match f with
  | J.Func.mk args rt body afc fv => do
      let args2 ← substArgList mapping args
      let rt2 ← substTyp mapping rt
      let body2 ← substStmt mapping body
      let fv2 ← substArgList mapping fv
      pure (J.Func.mk args2 rt2 body2 afc fv2)
termination_by sizeOf f

def substArgList (mapping : List J.Typ) (args : List (Id × J.Typ)) :
    Except String (List (Id × J.Typ)) :=
  match args with
  | [] => pure []
  | (x, t) :: rest => do
      let t2 ← substTyp mapping t
      let rest2 ← substArgList mapping rest
      pure ((x, t2) :: rest2)
termination_by sizeOf args

def substStmt (mapping : List J.Typ) (stmt : J.Stmt) :
    Except String J.Stmt :=
  match stmt with
  | J.Stmt.Var x ty e p => do
      let ty2 ← substTyp mapping ty
      let e2 ← substExpr mapping e
      pure (J.Stmt.Var x ty2 e2 p)
  | J.Stmt.Block body p => do
      let body2 ← substStmtList mapping body
      pure (J.Stmt.Block body2 p)
  | J.Stmt.Empty => pure J.Stmt.Empty
  | J.Stmt.Expr e p => do
      let e2 ← substExpr mapping e
      pure (J.Stmt.Expr e2 p)
  | J.Stmt.If c s1 s2 p => do
      let c2 ← substExpr mapping c
      let s12 ← substStmt mapping s1
      let s22 ← substStmt mapping s2
      pure (J.Stmt.If c2 s12 s22 p)
  | J.Stmt.Loop body p => do
      let body2 ← substStmt mapping body
      pure (J.Stmt.Loop body2 p)
  | J.Stmt.ForIn x c body p => do
      let c2 ← substExpr mapping c
      let body2 ← substStmt mapping body
      pure (J.Stmt.ForIn x c2 body2 p)
  | J.Stmt.Label x body p => do
      let body2 ← substStmt mapping body
      pure (J.Stmt.Label x body2 p)
  | J.Stmt.Break x p => pure (J.Stmt.Break x p)
  | J.Stmt.Catch t x c p => do
      let t2 ← substStmt mapping t
      let c2 ← substStmt mapping c
      pure (J.Stmt.Catch t2 x c2 p)
  | J.Stmt.Finally t f p => do
      let t2 ← substStmt mapping t
      let f2 ← substStmt mapping f
      pure (J.Stmt.Finally t2 f2 p)
  | J.Stmt.Throw e p => do
      let e2 ← substExpr mapping e
      pure (J.Stmt.Throw e2 p)
  | J.Stmt.Return e p => do
      let e2 ← substExpr mapping e
      pure (J.Stmt.Return e2 p)
termination_by sizeOf stmt

def substStmtList (mapping : List J.Typ) (ss : List J.Stmt) :
    Except String (List J.Stmt) :=
  match ss with
  | [] => pure []
  | s :: rest => do
      let s2 ← substStmt mapping s
      let rest2 ← substStmtList mapping rest
      pure (s2 :: rest2)
termination_by sizeOf ss

end

/-- The three answers of `solver.check` (`z3::SatResult`). -/
inductive SatResult where
  | Sat
  | Unsat
  | Unknown
deriving DecidableEq

/-- The MaxSMT solver, abstracted: `check` answers for the asserted hard
and soft constraints, and `model` is the model that `get_model` would
return (as an assignment of types to the metavariable constants). -/
structure Oracle where
  check : List ZBool → List ZBool → SatResult
  model : Option (Nat → J.Typ)

/-- `Typeinf::solve_model`: evaluate every constant in `vars` under the
model, in order. -/
def solve_model (m : Nat → J.Typ) (vars : List ZTyp) : List J.Typ :=
  (List.range vars.length).map m

/-- The initial `Typeinf` state of `typeinf`: no constants, an empty
solver, an empty environment, and `Missing` as the top-level return
type. -/
def st0 : TISt :=
  { vars := []
    nextConst := 0
    nextWeight := 0
    hard := []
    soft := []
    env := []
    return_type := J.Typ.Missing }

/-- The entry point `typeinf`: generate constraints over the statement,
check them (panicking on `Unknown` and `Unsat` with the source panic
messages), extract the model (panicking when it is unavailable), and
substitute the model types for the metavariables. -/
def typeinf (oracle : Oracle) (stmt : J.Stmt) : Except String J.Stmt := do
  let (stmt1, st) ← (cgen_stmt stmt).run st0
  match oracle.check st.hard st.soft with
  | SatResult.Unknown => throw "Got an unknown from Z3"
  | SatResult.Unsat => throw "type inference failed (unsat)"
  | SatResult.Sat => pure ()
  let m ← match oracle.model with
    | some m => pure m
    | none => throw "model not available (despite SAT result)"
  let mapping := solve_model m st.vars
  substStmt mapping stmt1

end TI

/-- An input to inference whose annotations are all ground: an integer
literal in statement position. -/
def stmtC2 : J.Stmt :=
  J.Stmt.Expr (J.Expr.Lit (J.Lit.Num (J.Num.Int 1)) ()) ()

/-- A solver that answers `Sat` and models every metavariable as `Any`
(a legitimate TypeWhich model: every constraint generated for `stmtC2`
is satisfied by `Any`). -/
def oracleC2 : TI.Oracle :=
  { check := fun _ _ => TI.SatResult.Sat
    model := some (fun _ => J.Typ.Any) }

/-- What inference produces on `stmtC2` under `oracleC2`: the literal is
wrapped in a `Meta(Int, Any)` coercion. -/
def stmtC2out : J.Stmt :=
  J.Stmt.Expr
    (J.Expr.Coercion (J.Coercion.Meta J.Typ.Int J.Typ.Any)
      (J.Expr.Lit (J.Lit.Num (J.Num.Int 1)) ()) ()) ()

/-- C2: counterexample to idempotence of inference.  Running `typeinf`
on the ground statement `1;` yields a program containing a coercion
node, and running `typeinf` on that already-inferred output does not
leave it unchanged — it fails with the `cgen_expr` panic, because the
constraint generator rejects the very node kinds inference inserts. -/
theorem C2_idempotence_counterexample :
    TI.typeinf oracleC2 stmtC2 = Except.ok stmtC2out ∧
    TI.typeinf oracleC2 stmtC2out =
      Except.error "unexpected expression in cgen_expr" := by
  constructor
  · simp [TI.typeinf, TI.cgen_stmt, TI.cgen_expr, TI.substStmt,
      TI.substExpr, TI.substCoercion, TI.substTyp, TI.exitExpr,
      TI.coerce, TI.coercion_, TI.fresh_metavar, TI.fresh_weight,
      TI.tTyp, TI.typ_lit, TI.assertHard, TI.st0, TI.solve_model,
      TI.substExprList, oracleC2, stmtC2, stmtC2out, StateT.run,
      StateT.bind, StateT.pure, StateT.lift, J.Coercion.meta,
      List.replicate, bind, Except.bind, pure, Except.pure, J.Typ.beq,
      get, getThe, MonadStateOf.get, StateT.get, set, StateT.set,
      throw, throwThe, MonadExceptOf.throw]
  · simp [TI.typeinf, TI.cgen_stmt, TI.cgen_expr, oracleC2, stmtC2out,
      StateT.run, StateT.lift, StateT.bind, StateT.pure, bind,
      Except.bind, pure, Except.pure, throw, throwThe,
      MonadExceptOf.throw]

/-- C2 (amended): re-running inference on an already-inferred program is
not a no-op; it fails.  Any program containing a coercion node — and
inference wraps inferred expressions in `Meta` coercions — makes the
second run panic with `unexpected expression in cgen_expr`, for every
solver oracle. -/
theorem C2_rerun_on_inferred_fails (oracle : TI.Oracle)
    (c : J.Coercion) (e : J.Expr) (p q : Pos) :
    TI.typeinf oracle (J.Stmt.Expr (J.Expr.Coercion c e p) q) =
      Except.error "unexpected expression in cgen_expr" := by
  simp [TI.typeinf, TI.cgen_stmt, TI.cgen_expr, StateT.run,
    StateT.lift, StateT.bind, StateT.pure, bind, Except.bind, pure,
    Except.pure, throw, throwThe, MonadExceptOf.throw]

/-- A solver that answers `Unsat` and offers no model. -/
def oracleC3 : TI.Oracle :=
  { check := fun _ _ => TI.SatResult.Unsat
    model := none }

/-- C3: the solver contract of `typeinf`.  When constraint generation
succeeds and the solver answers `Unsat`, inference aborts with the
`unsat` panic message; when it answers `Unknown`, with the `unknown`
panic message; and whenever inference returns a program, the solver
answered `Sat`, a model was available, and the result is exactly the
metavariable substitution of that model into the constrained program. -/
theorem C3_solver_failure_semantics :
    (∀ (oracle : TI.Oracle) (stmt stmt1 : J.Stmt) (st : TI.TISt),
        (TI.cgen_stmt stmt).run TI.st0 = Except.ok (stmt1, st) →
        oracle.check st.hard st.soft = TI.SatResult.Unsat →
        TI.typeinf oracle stmt =
          Except.error "type inference failed (unsat)") ∧
    (∀ (oracle : TI.Oracle) (stmt stmt1 : J.Stmt) (st : TI.TISt),
        (TI.cgen_stmt stmt).run TI.st0 = Except.ok (stmt1, st) →
        oracle.check st.hard st.soft = TI.SatResult.Unknown →
        TI.typeinf oracle stmt =
          Except.error "Got an unknown from Z3") ∧
    (∀ (oracle : TI.Oracle) (stmt out : J.Stmt),
        TI.typeinf oracle stmt = Except.ok out →
        ∃ stmt1 st,
          (TI.cgen_stmt stmt).run TI.st0 = Except.ok (stmt1, st) ∧
          oracle.check st.hard st.soft = TI.SatResult.Sat ∧
          ∃ m, oracle.model = some m ∧
            TI.substStmt (TI.solve_model m st.vars) stmt1 =
              Except.ok out) := by
  refine ⟨?_, ?_, ?_⟩
  · intro oracle stmt stmt1 st h1 h2
    simp [TI.typeinf, h1, h2, bind, Except.bind, throw, throwThe,
      MonadExceptOf.throw]
  · intro oracle stmt stmt1 st h1 h2
    simp [TI.typeinf, h1, h2, bind, Except.bind, throw, throwThe,
      MonadExceptOf.throw]
  · intro oracle stmt out h
    unfold TI.typeinf at h
    cases h1 : (TI.cgen_stmt stmt).run TI.st0 with
    | error e =>
        simp [h1, bind, Except.bind, throw, throwThe,
          MonadExceptOf.throw] at h
    | ok pr =>
      obtain ⟨stmt1, st⟩ := pr
      refine ⟨stmt1, st, rfl, ?_⟩
      simp [h1, bind, Except.bind, throw, throwThe,
        MonadExceptOf.throw] at h
      cases h2 : oracle.check st.hard st.soft <;>
        simp [h2, bind, Except.bind, throw, throwThe,
          MonadExceptOf.throw] at h
      · cases h3 : oracle.model with
        | none =>
            simp [h3, bind, Except.bind, pure, Except.pure, throw,
              throwThe, MonadExceptOf.throw] at h
        | some m =>
            simp [h3, bind, Except.bind, pure, Except.pure] at h
            exact ⟨rfl, m, rfl, h⟩

theorem C3_solver_failure_semantics_witness :
    TI.typeinf oracleC3 J.Stmt.Empty =
      Except.error "type inference failed (unsat)" :=
  C3_solver_failure_semantics.1 oracleC3 J.Stmt.Empty J.Stmt.Empty
    TI.st0 (by simp [TI.cgen_stmt]; rfl) rfl

end Jank
